import Mathlib

/-! # Uniscribe / HarfBuzz font backend (`src/w32uniscribe.c`)

A shallow embedding of the font-backend functions of `w32uniscribe.c` and the
properties established about them.  Lisp objects are an inductive type, the
vendor APIs (Uniscribe, GDI, HarfBuzz) are oracles passed as parameters, C
arrays are index functions, and side effects on the device context are
recorded in an event trace.
-/

set_option autoImplicit false

namespace W32Uniscribe

/-! ## Lisp objects -/

/-- The Lisp objects that reach this file: `nil`, other symbols (by the bytes
of their name), fixnums and conses. -/
inductive LispObject where
  | nil
  | sym (name : List Nat)
  | fixnum (n : Int)
  | cons (car cdr : LispObject)
  deriving DecidableEq, Repr

open LispObject

/-- Macro `NILP (x)`. -/
def NILP : LispObject → Bool
  | .nil => true
  | _ => false

/-- Macro `CONSP (x)`. -/
def CONSP : LispObject → Bool
  | .cons _ _ => true
  | _ => false

/-- Macro `XCAR (x)`; the source applies it to conses only. -/
def XCAR : LispObject → LispObject
  | .cons a _ => a
  | _ => .nil

/-- Macro `XCDR (x)`; the source applies it to conses only. -/
def XCDR : LispObject → LispObject
  | .cons _ d => d
  | _ => .nil

/-- Function `Flength`: the length of a proper list; `none` when the list is not
nil-terminated, where `Flength` signals `wrong-type-argument` instead of
returning. -/
def Flength : LispObject → Option Nat
  | .nil => some 0
  | .cons _ d => (Flength d).map (· + 1)
  | _ => none

/-- The bytes of the name "nil". -/
def nil_name : List Nat := [110, 105, 108]

/-- Macro `SNAME (VAL)`, that is `SSDATA (SYMBOL_NAME (VAL))`: the bytes of a symbol's
name.  `none` for an object that is not a symbol, on which the macro is
undefined. -/
def SNAME : LispObject → Option (List Nat)
  | .nil => some nil_name
  | .sym name => some name
  | _ => none

/-- Function `intern (str)` for a NUL-terminated C string held in `bytes` (followed by a
NUL): the name stops at the first zero byte, and the name "nil" is the object
`nil`. -/
def intern (bytes : List Nat) : LispObject :=
  let name := bytes.takeWhile (fun b => b != 0)
  if name = nil_name then .nil else .sym name

/-- The elements of a Lisp list, following `XCDR` while `CONSP` holds. -/
def lisp_elems : LispObject → List LispObject
  | .cons a d => a :: lisp_elems d
  | _ => []

/-- Build a proper Lisp list. -/
def lisp_list : List LispObject → LispObject
  | [] => .nil
  | x :: xs => .cons x (lisp_list xs)

/-! ## OpenType tags -/

/-- Byte `STR[i]` for a C string whose bytes are `str` followed by the terminating
NUL.  Only 7-bit bytes are modelled (`char` is signed on this platform), and
nothing is read past the terminator. -/
def str_byte (str : List Nat) (i : Nat) : Option Nat :=
  if i < str.length then
    (if str.getD i 0 < 128 then some (str.getD i 0) else none)
  else if i = str.length then some 0
  else none

/-- Macro `OTF_TAG (STR)`:
`((STR[3] << 24) | (STR[2] << 16) | (STR[1] << 8) | STR[0])`. -/
def OTF_TAG (str : List Nat) : Option Nat := do
  let b3 ← str_byte str 3
  let b2 ← str_byte str 2
  let b1 ← str_byte str 1
  let b0 ← str_byte str 0
  pure ((b3 <<< 24) ||| (b2 <<< 16) ||| (b1 <<< 8) ||| b0)

/-- Macro `OTF_TAG (SNAME (VAL))`. -/
def OTF_TAG_SNAME (v : LispObject) : Option Nat :=
  (SNAME v).bind OTF_TAG

/-- The bytes of "DFLT". -/
def str_DFLT : List Nat := [68, 70, 76, 84]
/-- The bytes of "dflt". -/
def str_dflt : List Nat := [100, 102, 108, 116]
/-- The bytes of "GSUB". -/
def str_GSUB : List Nat := [71, 83, 85, 66]
/-- The bytes of "GPOS". -/
def str_GPOS : List Nat := [71, 80, 79, 83]

/-! ## HRESULT -/

/-- An `HRESULT`, a signed 32-bit status code. -/
abbrev HRESULT := Int

/-- Macro `SUCCEEDED (hr)`: `hr >= 0`. -/
def SUCCEEDED (hr : HRESULT) : Bool := decide (0 ≤ hr)
/-- Macro `FAILED (hr)`: `hr < 0`. -/
def FAILED (hr : HRESULT) : Bool := decide (hr < 0)
/-- Constant `S_OK`. -/
def S_OK : HRESULT := 0
/-- Constant `E_PENDING`, 0x8000000A as a signed 32-bit value. -/
def E_PENDING : HRESULT := 0x8000000A - 0x100000000
/-- Constant `E_OUTOFMEMORY`, 0x8007000E as a signed 32-bit value. -/
def E_OUTOFMEMORY : HRESULT := 0x8007000E - 0x100000000
/-- Constant `E_FAIL`, 0x80004005 as a signed 32-bit value. -/
def E_FAIL : HRESULT := 0x80004005 - 0x100000000

/-- Constant `FONT_INVALID_CODE` of `font.h`: 0xFFFFFFFF. -/
def FONT_INVALID_CODE : Nat := 0xFFFFFFFF

/-! ## Device-context events -/

/-- The GDI and frame calls of this file that acquire or release a resource. -/
inductive Event where
  | get_frame_dc
  | CreateFontIndirect
  | SelectObject_font
  | SelectObject_old_font
  | DeleteObject
  | release_frame_dc
  deriving DecidableEq, Repr

/-! ## uniscribe_check_features -/

/-- The inner loop of `uniscribe_check_features`:
`for (i = 0; i < n; i++) if (ftags[i] == feature_tag) break;`, returning the
final `i`; `fuel` bounds the remaining iterations. -/
def tag_scan (ftags : Nat → Nat) (n feature_tag : Nat) : Nat → Nat → Nat
  | 0, i => i
  | fuel + 1, i =>
    if i < n then
      (if ftags i = feature_tag then i else tag_scan ftags n feature_tag fuel (i + 1))
    else i

/-- The index at which a scan of `ftags[0..n-1]` for `feature_tag` stops: the
first match, or `n`. -/
def tag_index (ftags : Nat → Nat) (n feature_tag : Nat) : Nat :=
  tag_scan ftags n feature_tag n 0

/-- The body of the `j` loop of `uniscribe_check_features` for one list:
walks `rest` while it is a cons, carrying `negative`.  `some false` is
`return false`, `some true` is falling out of the loop, `none` is an element
on which `OTF_TAG (SNAME (feature))` is undefined. -/
def check_features_list (ftags : Nat → Nat) (n : Nat) : Bool → LispObject → Option Bool
  | negative, .cons feature rest =>
    if NILP feature then check_features_list ftags n true rest
    else
      match OTF_TAG_SNAME feature with
      | none => none
      | some feature_tag =>
        let i := tag_index ftags n feature_tag
        if i < n ∧ negative then some false
        else if n ≤ i ∧ ¬ negative then some false
        else check_features_list ftags n negative rest
  | _, _ => some true

/-- Function `uniscribe_check_features (features, ftags, n)`: the two lists are walked
in turn, `negative` starting as `false` for each. -/
def uniscribe_check_features (features : LispObject × LispObject)
    (ftags : Nat → Nat) (n : Nat) : Option Bool :=
  match check_features_list ftags n false features.1 with
  | none => none
  | some false => some false
  | some true => check_features_list ftags n false features.2

/-! ## Font oracles -/

/-- What `ScriptGetFontScriptTags`, `ScriptGetFontLanguageTags` and
`ScriptGetFontFeatureTags` hand back: the status, the count stored through
the last argument and the tag array they filled. -/
structure TagsResult where
  rslt : HRESULT
  ntags : Nat
  tags : Nat → Nat

/-- The font selected into the device context, as seen through the vendor
calls: the three Uniscribe tag queries (languages by script tag, features by
script and language tag) and `GetFontData (context, table, offset, buf, n)`,
which yields the bytes it copied, or `none` for `GDI_ERROR`. -/
structure FontOracle where
  ScriptGetFontScriptTags : TagsResult
  ScriptGetFontLanguageTags : Nat → TagsResult
  ScriptGetFontFeatureTags : Nat → Nat → TagsResult
  GetFontData : Nat → Nat → Nat → Option (List Nat)

/-! ## uniscribe_check_otf_1 -/

/-- Function `uniscribe_check_otf_1 (context, script, lang, features, &retval)`: the
pair `(ret, *retval)`; `none` when `SNAME` is applied to a non-symbol. -/
def uniscribe_check_otf_1 (font : FontOracle) (script lang : LispObject)
    (features : LispObject × LispObject) : Option (Int × Int) :=
  let r := font.ScriptGetFontScriptTags
  if FAILED r.rslt then some (-1, 0)
  else
    (if NILP script then OTF_TAG str_DFLT else OTF_TAG_SNAME script).bind fun script_tag =>
    if r.ntags ≤ tag_index r.tags r.ntags script_tag then some (0, 0)
    else
      let lang_step : Option (Except (Int × Int) Nat) :=
        if NILP lang then (OTF_TAG str_dflt).map Except.ok
        else
          let rl := font.ScriptGetFontLanguageTags script_tag
          if FAILED rl.rslt then some (Except.error (-1, 0))
          else if rl.ntags = 0 then (OTF_TAG str_dflt).map Except.ok
          else
            (OTF_TAG_SNAME lang).map fun lang_tag =>
              if rl.ntags ≤ tag_index rl.tags rl.ntags lang_tag then Except.error (0, 0)
              else Except.ok lang_tag
      lang_step.bind fun
        | Except.error out => some out
        | Except.ok lang_tag =>
          if ! NILP features.1 then
            if ! CONSP features.1 || (! NILP features.2 && ! CONSP features.2) then some (0, 0)
            else
              let rf := font.ScriptGetFontFeatureTags script_tag lang_tag
              if FAILED rf.rslt then some (-1, 0)
              else
                (uniscribe_check_features features rf.tags rf.ntags).map fun ok =>
                  if ok then (1, 1) else (0, 0)
          else some (1, 1)

/-! ## Reading font tables -/

/-- How the table scan of `uniscribe_check_otf` leaves the loop early:
`goto no_support`, `goto font_table_error`, or an undefined `SNAME`. -/
inductive ScanExit where
  | no_support
  | font_table_error
  | undefined
  deriving DecidableEq, Repr

/-- Macro `OTF_INT16_VAL (TABLE, OFFSET, PTR)`: two bytes read big-endian; `none` is
`goto font_table_error`, taken when `GetFontData` does not return 2. -/
def OTF_INT16_VAL (font : FontOracle) (tbl offset : Nat) : Option Nat :=
  match font.GetFontData tbl offset 2 with
  | some [d0, d1] => some ((d0 % 256) * 256 + d1 % 256)
  | _ => none

/-- Macro `OTF_DWORDTAG_VAL (TABLE, OFFSET, PTR)`: four bytes copied into a
little-endian `DWORD`; `none` is `goto font_table_error`. -/
def OTF_DWORDTAG_VAL (font : FontOracle) (tbl offset : Nat) : Option Nat :=
  match font.GetFontData tbl offset 4 with
  | some [d0, d1, d2, d3] =>
    some (d0 % 256 + (d1 % 256) * 0x100 + (d2 % 256) * 0x10000 + (d3 % 256) * 0x1000000)
  | _ => none

/-- Macro `OTF_TAG_VAL (TABLE, OFFSET, STR)`: four bytes read into `STR`, which is
then NUL-terminated; `none` is `goto font_table_error`. -/
def OTF_TAG_VAL (font : FontOracle) (tbl offset : Nat) : Option (List Nat) :=
  match font.GetFontData tbl offset 4 with
  | some [d0, d1, d2, d3] => some [d0 % 256, d1 % 256, d2 % 256, d3 % 256]
  | _ => none

/-- Lift a table read into the scan: a failed read is `font_table_error`. -/
def read_or_error {α : Type} (r : Option α) : Except ScanExit α :=
  match r with
  | some v => Except.ok v
  | none => Except.error ScanExit.font_table_error

/-- The script search of `uniscribe_check_otf`:
`for (j = 0; j < n_scripts; j++)`, yielding `script_table` (0 when no record
matches); `fuel` bounds the remaining iterations. -/
def find_script_table (font : FontOracle) (tbl scriptlist_table script_tag n_scripts : Nat) :
    Nat → Nat → Except ScanExit Nat
  | 0, _ => Except.ok 0
  | fuel + 1, j =>
    if j < n_scripts then do
      let script_id ← read_or_error (OTF_DWORDTAG_VAL font tbl (scriptlist_table + 2 + j * 6))
      if script_id = script_tag then
        read_or_error (OTF_INT16_VAL font tbl (scriptlist_table + 6 + j * 6))
      else find_script_table font tbl scriptlist_table script_tag n_scripts fuel (j + 1)
    else Except.ok 0

/-- The language search of `uniscribe_check_otf`:
`for (j = 0; j < n_langs; j++)`, yielding the new `langsys_table`, which keeps
the default `langsys_table` when no record matches. -/
def find_langsys_table (font : FontOracle) (tbl script_table lang_tag n_langs langsys_table : Nat) :
    Nat → Nat → Except ScanExit Nat
  | 0, _ => Except.ok langsys_table
  | fuel + 1, j =>
    if j < n_langs then do
      let lang_id ← read_or_error (OTF_DWORDTAG_VAL font tbl (script_table + 4 + j * 6))
      if lang_id = lang_tag then
        read_or_error (OTF_INT16_VAL font tbl (script_table + 8 + j * 6))
      else find_langsys_table font tbl script_table lang_tag n_langs langsys_table fuel (j + 1)
    else Except.ok langsys_table

/-- The loop `for (j = 0; j < n_features; j++)` of `uniscribe_check_otf` that
appends the tag of each listed feature to `ftags`. -/
def read_feature_tags (font : FontOracle) (tbl feature_table langsys_table n_features : Nat) :
    Nat → Nat → List Nat → Except ScanExit (List Nat)
  | 0, _, ftags => Except.ok ftags
  | fuel + 1, j, ftags =>
    if j < n_features then do
      let feature_index ← read_or_error (OTF_INT16_VAL font tbl (langsys_table + 6 + j * 2))
      let feature_id ← read_or_error (OTF_DWORDTAG_VAL font tbl (feature_table + 2 + feature_index * 6))
      read_feature_tags font tbl feature_table langsys_table n_features fuel (j + 1)
        (ftags ++ [feature_id])
    else Except.ok ftags

/-- One iteration of the loop `for (i = 0; i < 2; i++)` of
`uniscribe_check_otf` over the tables GSUB and GPOS, for the table tag `tbl`
and the feature list `features_i`: `ok ()` when the iteration ends (by
`continue` or by reaching its end). -/
def check_otf_table (font : FontOracle) (script_tag : Nat) (lang : LispObject) (lang_tag : Nat)
    (tbl : Nat) (features_i : LispObject) : Except ScanExit Unit :=
  if NILP features_i then Except.ok ()
  else if ! CONSP features_i then Except.error ScanExit.no_support
  else do
    let scriptlist_table ← read_or_error (OTF_INT16_VAL font tbl 4)
    let feature_table ← read_or_error (OTF_INT16_VAL font tbl 6)
    let n_scripts ← read_or_error (OTF_INT16_VAL font tbl scriptlist_table)
    let script_table ← find_script_table font tbl scriptlist_table script_tag n_scripts n_scripts 0
    if script_table = 0 then Except.error ScanExit.no_support
    else do
      let script_table := (script_table + scriptlist_table) % 0x10000
      let langsys_default ← read_or_error (OTF_INT16_VAL font tbl script_table)
      let langsys_table ←
        if ! NILP lang then do
          let n_langs ← read_or_error (OTF_INT16_VAL font tbl (script_table + 2))
          find_langsys_table font tbl script_table lang_tag n_langs langsys_default n_langs 0
        else Except.ok langsys_default
      if langsys_table = 0 then Except.error ScanExit.no_support
      else do
        let langsys_table := (langsys_table + script_table) % 0x10000
        let feature_index ← read_or_error (OTF_INT16_VAL font tbl (langsys_table + 2))
        let n_features ← read_or_error (OTF_INT16_VAL font tbl (langsys_table + 4))
        let n_match_features := (if feature_index ≠ 0xFFFF then 1 else 0) + n_features
        let ftags0 ←
          if feature_index ≠ 0xFFFF then do
            let feature_id ←
              read_or_error (OTF_DWORDTAG_VAL font tbl (feature_table + 2 + feature_index * 6))
            Except.ok [feature_id]
          else Except.ok []
        let ftags ← read_feature_tags font tbl feature_table langsys_table n_features n_features 0 ftags0
        match uniscribe_check_features (features_i, LispObject.nil)
            (fun i => ftags.getD i 0) n_match_features with
        | none => Except.error ScanExit.undefined
        | some false => Except.error ScanExit.no_support
        | some true => Except.ok ()

/-! ## uniscribe_check_otf -/

/-- The components `(script, lang, features[0], features[1])` that
`uniscribe_check_otf` takes out of an `otf_spec` that passed the format
check. -/
def otf_spec_components (otf_spec : LispObject) :
    LispObject × LispObject × LispObject × LispObject :=
  let script := XCAR otf_spec
  let rest := XCDR otf_spec
  let lang := XCAR rest
  let rest := XCDR rest
  let features0 := XCAR rest
  let rest := XCDR rest
  let features1 := if NILP rest then LispObject.nil else XCAR rest
  (script, lang, features0, features1)

/-- The table scan of `uniscribe_check_otf`, from "Set up tags we will use in
the search" to `retval = 1`: the value left in `retval`; `none` when `SNAME`
is applied to a non-symbol. -/
def check_otf_scan (font : FontOracle) (script lang : LispObject)
    (features : LispObject × LispObject) : Option Int :=
  (OTF_TAG str_GSUB).bind fun gsub =>
  (OTF_TAG str_GPOS).bind fun gpos =>
  (OTF_TAG str_DFLT).bind fun default_script =>
  (if NILP script then some default_script else OTF_TAG_SNAME script).bind fun script_tag =>
  (if ! NILP lang then OTF_TAG_SNAME lang else some 0).bind fun lang_tag =>
  match (do
      check_otf_table font script_tag lang lang_tag gsub features.1
      check_otf_table font script_tag lang lang_tag gpos features.2 : Except ScanExit Unit) with
  | Except.ok () => some 1
  | Except.error ScanExit.undefined => none
  | Except.error _ => some 0

/-- The two globals `uniscribe_check_otf` consults before using the Vista
APIs. -/
structure ApiFlags where
  uniscribe_new_apis : Bool
  w32_disable_new_uniscribe_apis : Bool

/-- Function `uniscribe_check_otf (font, otf_spec)`: the value returned and the
device-context events of the call, in order.  `none` when the call does not
return a value: `Flength` signals on a list that is not nil-terminated, or
`SNAME` is applied to a non-symbol. -/
def uniscribe_check_otf (flags : ApiFlags) (font : FontOracle) (otf_spec : LispObject) :
    Option (Int × List Event) :=
  if ! CONSP otf_spec then some (0, [])
  else
    (Flength otf_spec).bind fun len =>
    if len < 3 then some (0, [])
    else
      let (script, lang, features0, features1) := otf_spec_components otf_spec
      let acquire := [Event.get_frame_dc, Event.CreateFontIndirect, Event.SelectObject_font]
      let restore := [Event.SelectObject_old_font, Event.DeleteObject, Event.release_frame_dc]
      let legacy : Option (Int × List Event) :=
        (check_otf_scan font script lang (features0, features1)).map fun retval =>
          (retval, acquire ++ restore)
      if flags.uniscribe_new_apis && ! flags.w32_disable_new_uniscribe_apis then
        (uniscribe_check_otf_1 font script lang (features0, features1)).bind fun r =>
          if r.1 ≠ -1 then some (r.2, acquire ++ restore) else legacy
      else legacy

/-! ## Specification-side definitions -/

/-- The tag `t` is among `ftags[0..n-1]`. -/
def has_tag (ftags : Nat → Nat) (n t : Nat) : Prop :=
  ∃ i, i < n ∧ ftags i = t

/-- Every non-nil element of `l` is a symbol whose name `OTF_TAG` can read. -/
def tagged_elems (l : LispObject) : Prop :=
  ∀ e ∈ lisp_elems l, NILP e = false → (OTF_TAG_SNAME e).isSome = true

/-- The condition of the specification on one feature list: every non-nil
element that precedes the first nil element has its tag among
`ftags[0..n-1]`, and every non-nil element that follows a nil element has its
tag absent from `ftags[0..n-1]`. -/
def feature_list_ok (ftags : Nat → Nat) (n : Nat) (l : LispObject) : Prop :=
  (∀ e ∈ (lisp_elems l).takeWhile (fun e => ! NILP e),
      ∀ t, OTF_TAG_SNAME e = some t → has_tag ftags n t) ∧
  (∀ e ∈ (lisp_elems l).dropWhile (fun e => ! NILP e), NILP e = false →
      ∀ t, OTF_TAG_SNAME e = some t → ¬ has_tag ftags n t)

/-! ## Example inputs -/

/-- The symbol `latn`. -/
def sym_latn : LispObject := .sym [108, 97, 116, 110]
/-- The symbol `cyrl`. -/
def sym_cyrl : LispObject := .sym [99, 121, 114, 108]
/-- The symbol `liga`. -/
def sym_liga : LispObject := .sym [108, 105, 103, 97]
/-- The symbol `kern`. -/
def sym_kern : LispObject := .sym [107, 101, 114, 110]

/-- A tag array holding the tags of the given names. -/
def tags_of (names : List (List Nat)) : Nat → Nat :=
  fun i => ((names.getD i []) |> OTF_TAG).getD 0

/-- A `TagsResult` reporting success with the tags of the given names. -/
def tags_ok (names : List (List Nat)) : TagsResult :=
  { rslt := S_OK, ntags := names.length, tags := tags_of names }

/-- A GSUB table with one script record, `latn`, whose default language
system lists the one feature `liga`. -/
def gsub_latn_liga : List Nat :=
  [0, 1, 0, 0,  0, 10,  0, 30,  0, 0,
   0, 1,  108, 97, 116, 110,  0, 8,
   0, 4,  0, 0,
   0, 0,  255, 255,  0, 1,  0, 0,
   0, 1,  108, 105, 103, 97,  0, 0]

/-- The `GetFontData` of a font whose only layout table is a GSUB table with
the bytes `gsub`. -/
def font_data_gsub (gsub : List Nat) (tbl offset n : Nat) : Option (List Nat) :=
  if some tbl = OTF_TAG str_GSUB then
    (if offset + n ≤ gsub.length then some ((gsub.drop offset).take n) else none)
  else none

/-- A font with the GSUB table `gsub_latn_liga` and no GPOS table, for which
Uniscribe reports the script `latn`, no languages, and the feature `liga`. -/
def font_latn_liga : FontOracle :=
  { ScriptGetFontScriptTags := tags_ok [[108, 97, 116, 110]]
    ScriptGetFontLanguageTags := fun _ => tags_ok []
    ScriptGetFontFeatureTags := fun _ _ => tags_ok [[108, 105, 103, 97]]
    GetFontData := font_data_gsub gsub_latn_liga }

/-- The flags of a system without the Vista APIs. -/
def flags_legacy : ApiFlags :=
  { uniscribe_new_apis := false, w32_disable_new_uniscribe_apis := false }

/-- The flags of a system with the Vista APIs in use. -/
def flags_new : ApiFlags :=
  { uniscribe_new_apis := true, w32_disable_new_uniscribe_apis := false }

/-- The script tags listed in the script list of the table `tbl` of a font,
read record by record as the OpenType layout stores them; `none` when the
table cannot be read. -/
def table_script_tags (font : FontOracle) (tbl : Nat) : Option (List Nat) := do
  let scriptlist_table ← OTF_INT16_VAL font tbl 4
  let n_scripts ← OTF_INT16_VAL font tbl scriptlist_table
  (List.range n_scripts).mapM fun j => OTF_DWORDTAG_VAL font tbl (scriptlist_table + 2 + j * 6)

/-! ## uniscribe_encode_char -/

/-- Element `a[i]` of an array of `WORD` or `wchar_t`: 16 bits. -/
def WORD_at (a : Nat → Nat) (i : Nat) : Nat := a i % 0x10000

/-- What `ScriptShape` hands back: the status, `nglyphs`, the arrays `glyphs`,
`clusters` and `attributes[].fClusterStart` it filled, and the flag
`fNoGlyphIndex` of the `SCRIPT_ANALYSIS` it was given, as left by the call. -/
structure ShapeOut where
  result : HRESULT
  nglyphs : Nat
  glyphs : Nat → Nat
  clusters : Nat → Nat
  fClusterStart : Nat → Bool
  fNoGlyphIndex : Bool

/-- What `ScriptGetCMap` hands back: the status and the glyph array. -/
structure CMapOut where
  result : HRESULT
  glyphs : Nat → Nat

/-- The vendor calls of one `uniscribe_encode_char` call, each taking the
UTF-16 units `ch[0..len-1]`: `ScriptItemize`, `ScriptShape` (the first call,
and the retry made with a device context), `ScriptGetCMap`, and whether
`get_frame_dc` yields a non-null context. -/
structure EncodeOracle where
  ScriptItemize : List Nat → HRESULT
  ScriptShape : List Nat → Bool → ShapeOut
  ScriptGetCMap : List Nat → CMapOut
  get_frame_dc : Bool

/-- The UTF-16 units `ch[0..len-1]` that `uniscribe_encode_char` builds for
the code point `c` (an `int`); `len` is the length of the list.  `surrogate`
is a 32-bit `DWORD` and each unit a 16-bit `wchar_t`. -/
def encode_utf16 (c : Int) : List Nat :=
  if c < 0x10000 then
    [(c % 0x10000).toNat]
  else
    let surrogate : Nat := ((c - 0x10000) % 0x100000000).toNat
    [(0xD800 + ((surrogate >>> 10) &&& 0x03FF)) % 0x10000,
     (0xDC00 + (surrogate &&& 0x03FF)) % 0x10000]

/-- Function `uniscribe_encode_char (font, c)`: the code returned and the
device-context events of the call, in order. -/
def uniscribe_encode_char (o : EncodeOracle) (c : Int) : Nat × List Event :=
  let ch := encode_utf16 c
  if SUCCEEDED (o.ScriptItemize ch) then
    let first := o.ScriptShape ch false
    let pending : Bool := decide (first.result = E_PENDING)
    let shaped := if pending then o.ScriptShape ch true else first
    let context : Bool := pending && o.get_frame_dc
    let acquired : List Event :=
      if pending then [Event.get_frame_dc, Event.SelectObject_font] else []
    let code : Nat :=
      if SUCCEEDED shaped.result && decide (shaped.nglyphs = 1) then
        (if WORD_at shaped.glyphs 0 ≠ 0 then WORD_at shaped.glyphs 0 else FONT_INVALID_CODE)
      else if SUCCEEDED shaped.result || decide (shaped.result = E_OUTOFMEMORY) then
        let cmap := o.ScriptGetCMap ch
        (if SUCCEEDED cmap.result && decide (WORD_at cmap.glyphs 0 ≠ 0) then WORD_at cmap.glyphs 0
         else FONT_INVALID_CODE)
      else FONT_INVALID_CODE
    (code, acquired ++
      (if context then [Event.SelectObject_old_font, Event.release_frame_dc] else []))
  else (FONT_INVALID_CODE, [])

/-- The result of the shaping step of `uniscribe_encode_char`: that of the
first `ScriptShape` call, or of the retry when the first reported
`E_PENDING`. -/
def encode_shaped (o : EncodeOracle) (c : Int) : ShapeOut :=
  if (o.ScriptShape (encode_utf16 c) false).result = E_PENDING then
    o.ScriptShape (encode_utf16 c) true
  else o.ScriptShape (encode_utf16 c) false

/-- An oracle of `uniscribe_encode_char` built from the status of
`ScriptItemize`, the status, glyph count and first glyph of `ScriptShape`
(the same for both calls), and the status and first glyph of
`ScriptGetCMap`. -/
def encode_oracle (itemize shape : HRESULT) (nglyphs glyph : Nat) (cmap : HRESULT)
    (cmap_glyph : Nat) : EncodeOracle :=
  { ScriptItemize := fun _ => itemize
    ScriptShape := fun _ _ =>
      { result := shape, nglyphs := nglyphs, glyphs := fun _ => glyph,
        clusters := fun _ => 0, fClusterStart := fun _ => true, fNoGlyphIndex := false }
    ScriptGetCMap := fun _ => { result := cmap, glyphs := fun _ => cmap_glyph }
    get_frame_dc := true }

/-! ## w32hb_get_variation_glyphs -/

/-- A loop `for (; i < bound; i++) body`, started at `i` with `fuel = bound - i`
iterations left, threading the state through `body i`. -/
def for_loop {σ : Type} (body : Nat → σ → σ) : Nat → Nat → σ → σ
  | 0, _, s => s
  | fuel + 1, i, s => for_loop body fuel (i + 1) (body i s)

/-- The body shared by the two loops of `w32hb_get_variation_glyphs`, on the
state `(n, variations)`: `hb_font_get_variation_glyph (hb_font, c, selector,
&variations[i])` yields `some glyph` when it succeeds, storing the glyph. -/
def variation_step (hb : Int → Nat → Option Nat) (c : Int) (selector i : Nat)
    (st : Nat × (Nat → Nat)) : Nat × (Nat → Nat) :=
  match hb c selector with
  | some glyph => (st.1 + 1, Function.update st.2 i glyph)
  | none => (st.1, Function.update st.2 i 0)

/-- The HarfBuzz side of a font: `w32hb_get_font (font, &scale)`, which yields
a handle or `none` for NULL, and `hb_font_get_variation_glyph (hb_font, c,
selector, &glyph)`, which yields `some glyph` when it succeeds. -/
structure HbOracle where
  w32hb_get_font : Option Nat
  hb_font_get_variation_glyph : Option Nat → Int → Nat → Option Nat

/-- What a call of `w32hb_get_variation_glyphs` leaves: the count returned, the
array `variations`, and the cached `hb_font_t` in `uniscribe_font->cache`. -/
structure VariationsOut where
  n : Nat
  variations : Nat → Nat
  cache : Option Nat

/-- The two loops of `w32hb_get_variation_glyphs` over the entries 0..15 and
16..255, with `hb` the query on the cached `hb_font_t`: the final
`(n, variations)`. -/
def variation_loops (hb : Int → Nat → Option Nat) (c : Int)
    (variations : Nat → Nat) : Nat × (Nat → Nat) :=
  let st := for_loop (fun i st => variation_step hb c (0xFE00 + i) i st) 16 0 (0, variations)
  for_loop (fun i st => variation_step hb c (0xE0100 + (i - 16)) i st) 240 16 st

/-- The statements `if (!uniscribe_font->cache) { uniscribe_font->cache =
w32hb_get_font (font, &scale); ... }`: the cache after them. -/
def variation_hb_font (o : HbOracle) (cache : Option Nat) : Option Nat :=
  if cache.isNone then o.w32hb_get_font else cache

/-- Function `w32hb_get_variation_glyphs (font, c, variations)`, run with
`uniscribe_font->cache` holding `cache`: the `hb_font_t` is created and cached
when the cache is empty, then the 256 selectors are tried on it. -/
def w32hb_get_variation_glyphs (o : HbOracle) (cache : Option Nat) (c : Int)
    (variations : Nat → Nat) : VariationsOut :=
  let cache := variation_hb_font o cache
  let hb_font := cache
  let st := variation_loops (o.hb_font_get_variation_glyph hb_font) c variations
  { n := st.1, variations := st.2, cache := cache }

/-- The code point of variation selector `N` (1..256): VS1..VS16 are
U+FE00..U+FE0F and VS17..VS256 are U+E0100..U+E01EF. -/
def variation_selector (N : Nat) : Nat :=
  if N ≤ 16 then 0xFE00 + (N - 1) else 0xE0100 + (N - 17)

/-- A HarfBuzz font, created as handle 1 on first use, with a glyph for VS1
and VS17 of U+8FBB only. -/
def hb_two_variations : HbOracle :=
  { w32hb_get_font := some 1
    hb_font_get_variation_glyph := fun hb_font c selector =>
      if hb_font = some 1 ∧ c = 0x8FBB ∧ selector = 0xFE00 then some 7
      else if hb_font = some 1 ∧ c = 0x8FBB ∧ selector = 0xE0100 then some 9
      else none }

/-! ## otf_features and uniscribe_otf_capability -/

/-- The loop `for (k = feature_count - 1; k >= 0; k--)` of `otf_features`,
with `k + 1` iterations left; `none` is `goto font_table_error`. -/
def otf_feature_list (font : FontOracle) (tbl feature_table langsys_table : Nat) :
    Nat → LispObject → Option LispObject
  | 0, feature_list => some feature_list
  | k + 1, feature_list => do
    let index ← OTF_INT16_VAL font tbl (langsys_table + 6 + k * 2)
    let feature ← OTF_TAG_VAL font tbl (feature_table + 2 + index * 6)
    otf_feature_list font tbl feature_table langsys_table k
      (LispObject.cons (intern feature) feature_list)

/-- The loop `for (j = lang_count - 1; j >= 0; j--)` of `otf_features`, with
`j + 1` iterations left; `record_offset` is an `unsigned short`. -/
def otf_langsys_list (font : FontOracle) (tbl feature_table script_table : Nat) :
    Nat → LispObject → Option LispObject
  | 0, langsys_list => some langsys_list
  | j + 1, langsys_list => do
    let record_offset := (script_table + 4 + j * 6) % 0x10000
    let lang ← OTF_TAG_VAL font tbl record_offset
    let langsys_table ← OTF_INT16_VAL font tbl (record_offset + 4)
    let langsys_table := (langsys_table + script_table) % 0x10000
    let langsys_tag := intern lang
    let feature_count ← OTF_INT16_VAL font tbl (langsys_table + 4)
    let feature_list ←
      otf_feature_list font tbl feature_table langsys_table feature_count LispObject.nil
    otf_langsys_list font tbl feature_table script_table j
      (LispObject.cons (LispObject.cons langsys_tag feature_list) langsys_list)

/-- The loop `for (i = n_scripts - 1; i >= 0; i--)` of `otf_features`, with
`i + 1` iterations left. -/
def otf_script_list (font : FontOracle) (tbl scriptlist_table feature_table : Nat) :
    Nat → LispObject → Option LispObject
  | 0, script_list => some script_list
  | i + 1, script_list => do
    let record_offset := (scriptlist_table + 2 + i * 6) % 0x10000
    let script ← OTF_TAG_VAL font tbl record_offset
    let script_table ← OTF_INT16_VAL font tbl (record_offset + 4)
    let script_table := (script_table + scriptlist_table) % 0x10000
    let script_tag := intern script
    let langsys_table ← OTF_INT16_VAL font tbl script_table
    let langsys_list ←
      if langsys_table ≠ 0 then do
        let langsys_table := (langsys_table + script_table) % 0x10000
        let feature_count ← OTF_INT16_VAL font tbl (langsys_table + 4)
        let feature_list ←
          otf_feature_list font tbl feature_table langsys_table feature_count LispObject.nil
        pure (LispObject.cons (LispObject.cons LispObject.nil feature_list) LispObject.nil)
      else pure LispObject.nil
    let lang_count ← OTF_INT16_VAL font tbl (script_table + 2)
    let langsys_list ← otf_langsys_list font tbl feature_table script_table lang_count langsys_list
    otf_script_list font tbl scriptlist_table feature_table i
      (LispObject.cons (LispObject.cons script_tag langsys_list) script_list)

/-- The walk of `otf_features` over the table with tag `tbl`: the script list
built, or `none` when a read sends it to `font_table_error`. -/
def otf_features_walk (font : FontOracle) (tbl : Nat) : Option LispObject := do
  let scriptlist_table ← OTF_INT16_VAL font tbl 4
  let feature_table ← OTF_INT16_VAL font tbl 6
  let n_scripts ← OTF_INT16_VAL font tbl scriptlist_table
  otf_script_list font tbl scriptlist_table feature_table n_scripts LispObject.nil

/-- Function `otf_features (context, table)`: `table` is "GSUB" or "GPOS";
`font_table_error` returns nil. -/
def otf_features (font : FontOracle) (table : List Nat) : LispObject :=
  match (OTF_TAG table).bind (otf_features_walk font) with
  | some script_list => script_list
  | none => LispObject.nil

/-- The symbol `t`. -/
def Qt : LispObject := .sym [116]

/-- What a call of `uniscribe_otf_capability` leaves: the value returned, the
value the global `Vinhibit_quit` had while the tables were read, its value on
return, and the device-context events in order. -/
structure CapabilityOut where
  capability : LispObject
  Vinhibit_quit_inside : LispObject
  Vinhibit_quit : LispObject
  events : List Event

/-- Function `uniscribe_otf_capability (font)`, run with the global
`Vinhibit_quit` holding the given value. -/
def uniscribe_otf_capability (font : FontOracle) (Vinhibit_quit : LispObject) : CapabilityOut :=
  let capability := LispObject.cons LispObject.nil LispObject.nil
  let prev_quit := Vinhibit_quit
  let quit_inside := Qt
  let acquire := [Event.get_frame_dc, Event.SelectObject_font]
  let features := otf_features font str_GSUB
  let capability := LispObject.cons features (XCDR capability)
  let features := otf_features font str_GPOS
  let capability := LispObject.cons (XCAR capability) features
  let restore := [Event.SelectObject_old_font, Event.release_frame_dc]
  { capability := capability, Vinhibit_quit_inside := quit_inside, Vinhibit_quit := prev_quit,
    events := acquire ++ restore }

/-- A GPOS table with one script record, `latn`, whose default language
system lists the one feature `kern`. -/
def gpos_latn_kern : List Nat :=
  [0, 1, 0, 0,  0, 10,  0, 30,  0, 0,
   0, 1,  108, 97, 116, 110,  0, 8,
   0, 4,  0, 0,
   0, 0,  255, 255,  0, 1,  0, 0,
   0, 1,  107, 101, 114, 110,  0, 0]

/-- A font whose GSUB table is cut short after its header (so that reading its
script list fails) and whose GPOS table is `gpos_latn_kern`. -/
def font_broken_gsub : FontOracle :=
  { ScriptGetFontScriptTags := tags_ok [[108, 97, 116, 110]]
    ScriptGetFontLanguageTags := fun _ => tags_ok []
    ScriptGetFontFeatureTags := fun _ _ => tags_ok [[107, 101, 114, 110]]
    GetFontData := fun tbl offset n =>
      if some tbl = OTF_TAG str_GSUB then
        (if offset + n ≤ 10 then some ((gsub_latn_liga.drop offset).take n) else none)
      else if some tbl = OTF_TAG str_GPOS then
        (if offset + n ≤ gpos_latn_kern.length then some ((gpos_latn_kern.drop offset).take n)
         else none)
      else none }

/-! ## uniscribe_shape -/

/-- An LGLYPH: the fields FROM, TO, CHAR, CODE, WIDTH, LBEARING, RBEARING,
ASCENT and DESCENT, each nil (`none`) or a fixnum, and ADJUSTMENT, nil or a
vector of three fixnums. -/
structure LGlyph where
  FROM : Option Int
  TO : Option Int
  CHAR : Option Int
  CODE : Option Int
  WIDTH : Option Int
  LBEARING : Option Int
  RBEARING : Option Int
  ASCENT : Option Int
  DESCENT : Option Int
  ADJUSTMENT : Option (Int × Int × Int)
  deriving DecidableEq, Repr

/-- Macro `LGLYPH_NEW ()`: a glyph with every field nil. -/
def LGLYPH_NEW : LGlyph :=
  { FROM := none, TO := none, CHAR := none, CODE := none, WIDTH := none, LBEARING := none,
    RBEARING := none, ASCENT := none, DESCENT := none, ADJUSTMENT := none }

/-- Macro `LGSTRING_GLYPH (lgstring, idx)`: the glyph slot `idx`, nil (`none`)
or a glyph.  The slots of the LGSTRING are the list; an index past its end is
outside the vector and reads as nil here. -/
def LGSTRING_GLYPH (lgstring : List (Option LGlyph)) (idx : Nat) : Option LGlyph :=
  lgstring.getD idx none

/-- Macro `LGSTRING_SET_GLYPH (lgstring, idx, val)`; an index past the end is
outside the vector and stores nothing here. -/
def LGSTRING_SET_GLYPH (lgstring : List (Option LGlyph)) (idx : Nat) (val : LGlyph) :
    List (Option LGlyph) :=
  lgstring.set idx (some val)

/-- The value of `nchars` after the first loop of `uniscribe_shape`: the index
of the first nil glyph, or `LGSTRING_GLYPH_LEN (lgstring)`. -/
def lgstring_nchars : List (Option LGlyph) → Nat
  | [] => 0
  | none :: _ => 0
  | some _ :: rest => lgstring_nchars rest + 1

/-- The array `chars` filled by the first loop of `uniscribe_shape`:
`chars[i] = LGLYPH_CHAR (LGSTRING_GLYPH (lgstring, i))` as a 16-bit `wchar_t`
for `i < nchars`.  Entries from `nchars` on are not written by the source and
read as 0 here. -/
def lgstring_chars (lgstring : List (Option LGlyph)) (i : Nat) : Nat :=
  if i < lgstring_nchars lgstring then
    match LGSTRING_GLYPH lgstring i with
    | some g => ((g.CHAR.getD 0) % 0x10000).toNat
    | none => 0
  else 0

/-- What `ScriptItemize` hands back: the status, `nitems` and the character
positions `items[k].iCharPos`. -/
structure ItemizeOut where
  result : HRESULT
  nitems : Nat
  iCharPos : Nat → Int

/-- What `ScriptPlace` hands back: the status, the arrays `advances` and
`offsets` (`du`, `dv`), and the flag `fRTL` of the `SCRIPT_ANALYSIS` of the
run, as the glyph loop reads it after the call. -/
structure PlaceOut where
  result : HRESULT
  advances : Nat → Int
  du : Nat → Int
  dv : Nat → Int
  fRTL : Bool

/-- What `ScriptGetGlyphABCWidth` hands back: the status and the widths
`abcA` and `abcB`. -/
structure ABCOut where
  result : HRESULT
  abcA : Int
  abcB : Nat

/-- The vendor calls of one `uniscribe_shape` call.  `ScriptItemize` takes
`chars`, `nchars` and `max_items`; `ScriptShape` and `ScriptPlace` take the
index of the run and whether the call is the retry made after acquiring a
device context; `ScriptGetGlyphABCWidth` takes the run, the glyph index and
the retry flag; `get_frame_dc k` tells whether the call of `get_frame_dc` made
after `k` earlier ones yields a non-null context. -/
structure ShapeOracle where
  ScriptItemize : (Nat → Nat) → Nat → Nat → ItemizeOut
  ScriptShape : Nat → Bool → ShapeOut
  ScriptPlace : Nat → Bool → PlaceOut
  ScriptGetGlyphABCWidth : Nat → Nat → Bool → ABCOut
  get_frame_dc : Nat → Bool

/-- The locals `context` (non-null or not) of a shaping call, the number of
`get_frame_dc` calls made and the device-context events so far. -/
structure DcState where
  context : Bool
  dc_calls : Nat
  events : List Event

/-- The statements `f = XFRAME (selected_frame); context = get_frame_dc (f);
old_font = SelectObject (context, FONT_HANDLE (font));`. -/
def acquire_dc (get_frame_dc : Nat → Bool) (dc : DcState) : DcState :=
  { context := get_frame_dc dc.dc_calls
    dc_calls := dc.dc_calls + 1
    events := dc.events ++ [Event.get_frame_dc, Event.SelectObject_font] }

/-- The pattern used at every vendor call of `uniscribe_shape`: make the
call; `if (result == E_PENDING && !context)` acquire a device context and make
the call again. -/
def call_with_dc {α : Type} (get_frame_dc : Nat → Bool) (result : α → HRESULT)
    (call : Bool → α) (dc : DcState) : α × DcState :=
  if result (call false) = E_PENDING ∧ dc.context = false then
    (call true, acquire_dc get_frame_dc dc)
  else (call false, dc)

/-- The loop `while ((result = ScriptItemize (...)) == E_OUTOFMEMORY)
max_items++`: the final `max_items` and result; `none` when `fuel` calls all
reported `E_OUTOFMEMORY`. -/
def itemize_loop (o : ShapeOracle) (chars : Nat → Nat) (nchars : Nat) :
    Nat → Nat → Option (Nat × ItemizeOut)
  | 0, _ => none
  | fuel + 1, max_items =>
    if (o.ScriptItemize chars nchars max_items).result = E_OUTOFMEMORY then
      itemize_loop o chars nchars fuel (max_items + 1)
    else some (max_items, o.ScriptItemize chars nchars max_items)

/-- The loop `while (from < nchars_in_run && clusters[from] < j) from++`, with
`fuel` at least `nchars_in_run - from`.  An index below 0 is outside the array
and reads entry 0 here. -/
def advance_from (clusters : Nat → Nat) (nchars_in_run : Int) (j : Nat) : Nat → Int → Int
  | 0, from_ => from_
  | fuel + 1, from_ =>
    if from_ < nchars_in_run ∧ WORD_at clusters from_.toNat < j then
      advance_from clusters nchars_in_run j fuel (from_ + 1)
    else from_

/-- The loop `for (k = from + 1; k < nchars_in_run; k++) if (clusters[k] > j)
{ to = k - 1; break; }` run after `to = nchars_in_run - 1`: the final `to`. -/
def find_to (clusters : Nat → Nat) (nchars_in_run : Int) (j : Nat) : Nat → Int → Int
  | 0, _ => nchars_in_run - 1
  | fuel + 1, k =>
    if k < nchars_in_run then
      (if WORD_at clusters k.toNat > j then k - 1
       else find_to clusters nchars_in_run j fuel (k + 1))
    else nchars_in_run - 1

/-- The loop `while (j1 < nglyphs && !attributes[j1].fClusterStart)
{ adj_offset += advances[j1]; j1++; }`: the final `adj_offset`. -/
def rtl_adj_offset (fClusterStart : Nat → Bool) (advances : Nat → Int) (nglyphs : Nat) :
    Nat → Nat → Int → Int
  | 0, _, adj_offset => adj_offset
  | fuel + 1, j1, adj_offset =>
    if j1 < nglyphs ∧ fClusterStart j1 = false then
      rtl_adj_offset fClusterStart advances nglyphs fuel (j1 + 1) (adj_offset + advances j1)
    else adj_offset

/-- The state threaded through the glyph loop of one run. -/
structure GlyphState where
  from_ : Int
  to_ : Int
  adj_offset : Int
  cluster_offset : Int
  dc : DcState
  lgstring : List (Option LGlyph)

/-- The block `if (attributes[j].fClusterStart) { ... }` of the glyph loop:
the values of `from`, `to`, `cluster_offset` and `adj_offset` after it, which
are those of the state when glyph `j` does not start a cluster. -/
def detect_cluster (sh : ShapeOut) (pl : PlaceOut) (nchars_in_run : Int) (j : Nat)
    (st : GlyphState) : Int × Int × Int × Int :=
  if sh.fClusterStart j then
    let from_ := advance_from sh.clusters nchars_in_run j (nchars_in_run - st.from_).toNat st.from_
    let ft : Int × Int :=
      if from_ ≥ nchars_in_run then (nchars_in_run - 1, nchars_in_run - 1)
      else (from_, find_to sh.clusters nchars_in_run j (nchars_in_run - from_).toNat (from_ + 1))
    let adj_offset :=
      if pl.fRTL then rtl_adj_offset sh.fClusterStart pl.advances sh.nglyphs (sh.nglyphs - j) j 0
      else st.adj_offset
    (ft.1, ft.2, 0, adj_offset)
  else (st.from_, st.to_, st.cluster_offset, st.adj_offset)

/-- The local `char_idx` of the glyph loop:
`items[i].iCharPos + from + cluster_offset`, or `items[i].iCharPos + to` when
`from + cluster_offset > to`. -/
def glyph_char_idx (iCharPos from_ to_ cluster_offset : Int) : Int :=
  if from_ + cluster_offset > to_ then iCharPos + to_ else iCharPos + from_ + cluster_offset

/-- The condition under which the glyph loop stores an adjustment vector:
`offsets[j].du || offsets[j].dv || (!attributes[j].fClusterStart &&
items[i].a.fRTL)`. -/
def glyph_adjusted (sh : ShapeOut) (pl : PlaceOut) (j : Nat) : Bool :=
  decide (pl.du j ≠ 0) || decide (pl.dv j ≠ 0) || (! sh.fClusterStart j && pl.fRTL)

/-- The body of the loop `for (j = 0; j < nglyphs; j++)` of `uniscribe_shape`
for run `i`, whose `ScriptShape` and `ScriptPlace` results are `sh` and
`pl`. -/
def shape_glyph (o : ShapeOracle) (font_ascent font_descent : Int) (chars : Nat → Nat)
    (i : Nat) (iCharPos nchars_in_run : Int) (sh : ShapeOut) (pl : PlaceOut)
    (done_glyphs : Nat) (j : Nat) (st : GlyphState) : GlyphState :=
  let lglyph_index := j + done_glyphs
  let lglyph : LGlyph :=
    match LGSTRING_GLYPH st.lgstring lglyph_index with
    | some g => g
    | none => LGLYPH_NEW
  let gl := WORD_at sh.glyphs j
  let cl := detect_cluster sh pl nchars_in_run j st
  let from_ := cl.1
  let to_ := cl.2.1
  let cluster_offset := cl.2.2.1
  let adj_offset := cl.2.2.2
  let char_idx := glyph_char_idx iCharPos from_ to_ cluster_offset
  let abc := call_with_dc o.get_frame_dc ABCOut.result (o.ScriptGetGlyphABCWidth i j) st.dc
  let bearings : Int × Int :=
    if SUCCEEDED abc.1.result then (abc.1.abcA, abc.1.abcA + abc.1.abcB)
    else (0, pl.advances j)
  let adjust := glyph_adjusted sh pl j
  let vec0 : Int := if pl.fRTL then - pl.du j + adj_offset else pl.du j + adj_offset
  let adj_offset : Int :=
    if adjust then (if pl.fRTL then adj_offset - 2 * pl.advances j else adj_offset)
    else (if pl.fRTL then adj_offset - pl.advances j else adj_offset)
  let lglyph : LGlyph :=
    { lglyph with
      CODE := some gl
      CHAR := some (chars char_idx.toNat)
      FROM := some (iCharPos + from_)
      TO := some (iCharPos + to_)
      WIDTH := some (pl.advances j)
      ASCENT := some font_ascent
      DESCENT := some font_descent
      LBEARING := some bearings.1
      RBEARING := some bearings.2
      ADJUSTMENT := if adjust then some (vec0, - pl.dv j, pl.advances j) else none }
  { from_ := from_, to_ := to_, adj_offset := adj_offset, cluster_offset := cluster_offset + 1,
    dc := abc.2, lgstring := LGSTRING_SET_GLYPH st.lgstring lglyph_index lglyph }

/-- The state threaded through the run loop of `uniscribe_shape`:
`done_glyphs`, whether the local `lgstring` was set to nil, the device-context
state, the glyph slots of the LGSTRING, and `shaped`, the final `ScriptShape`
result of every run attempted so far, in order. -/
structure ShapeState where
  done_glyphs : Nat
  lgstring_nil : Bool
  dc : DcState
  lgstring : List (Option LGlyph)
  shaped : List ShapeOut

/-- The loop `for (i = 0; i < nitems; i++)` of `uniscribe_shape`, with `fuel`
the number of runs left; the three `break`s end it early. -/
def shape_runs (o : ShapeOracle) (font_ascent font_descent : Int) (chars : Nat → Nat)
    (items : ItemizeOut) : Nat → Nat → ShapeState → ShapeState
  | 0, _, st => st
  | fuel + 1, i, st =>
    let nchars_in_run := items.iCharPos (i + 1) - items.iCharPos i
    let shape := call_with_dc o.get_frame_dc ShapeOut.result (o.ScriptShape i) st.dc
    let sh := shape.1
    if sh.result = E_OUTOFMEMORY then
      { st with lgstring_nil := true, dc := shape.2, shaped := st.shaped ++ [sh] }
    else if FAILED sh.result then
      { st with dc := shape.2, shaped := st.shaped ++ [sh] }
    else if sh.fNoGlyphIndex then
      { st with dc := shape.2, shaped := st.shaped ++ [sh] }
    else
      let place := call_with_dc o.get_frame_dc PlaceOut.result (o.ScriptPlace i) shape.2
      let pl := place.1
      let gs : GlyphState :=
        if SUCCEEDED pl.result then
          for_loop
            (shape_glyph o font_ascent font_descent chars i (items.iCharPos i) nchars_in_run
              sh pl st.done_glyphs)
            sh.nglyphs 0
            { from_ := 0, to_ := 0, adj_offset := 0, cluster_offset := 0, dc := place.2,
              lgstring := st.lgstring }
        else
          { from_ := 0, to_ := 0, adj_offset := 0, cluster_offset := 0, dc := place.2,
            lgstring := st.lgstring }
      shape_runs o font_ascent font_descent chars items fuel (i + 1)
        { done_glyphs := st.done_glyphs + sh.nglyphs, lgstring_nil := st.lgstring_nil,
          dc := gs.dc, lgstring := gs.lgstring, shaped := st.shaped ++ [sh] }

/-- What a call of `uniscribe_shape` leaves: the value returned (nil or a
fixnum), the glyph slots of the LGSTRING, the device-context events in order,
and the final `ScriptShape` result of every run attempted, in order. -/
structure ShapeResult where
  value : LispObject
  lgstring : List (Option LGlyph)
  events : List Event
  shaped : List ShapeOut

/-- Function `uniscribe_shape (lgstring, direction)` for a font with the given
ascent and descent; `fuel` bounds the calls of `ScriptItemize`, and `none`
means they all reported `E_OUTOFMEMORY`. -/
def uniscribe_shape (o : ShapeOracle) (font_ascent font_descent : Int)
    (lgstring : List (Option LGlyph)) (fuel : Nat) : Option ShapeResult :=
  let nchars := lgstring_nchars lgstring
  let chars := lgstring_chars lgstring
  match itemize_loop o chars nchars fuel 2 with
  | none => none
  | some (_, items) =>
    if FAILED items.result then
      some { value := LispObject.nil, lgstring := lgstring, events := [], shaped := [] }
    else
      let st := shape_runs o font_ascent font_descent chars items items.nitems 0
        { done_glyphs := 0, lgstring_nil := false,
          dc := { context := false, dc_calls := 0, events := [] },
          lgstring := lgstring, shaped := [] }
      let events := st.dc.events ++
        (if st.dc.context then [Event.SelectObject_old_font, Event.release_frame_dc] else [])
      some { value := if st.lgstring_nil then LispObject.nil
                      else LispObject.fixnum (st.done_glyphs : Int)
             lgstring := st.lgstring, events := events, shaped := st.shaped }

/-- The runs the loop of `uniscribe_shape` goes past: `ScriptShape` succeeded
and `fNoGlyphIndex` is clear. -/
def run_shaped (sh : ShapeOut) : Bool :=
  ! FAILED sh.result && ! sh.fNoGlyphIndex

/-- The sum of `nglyphs` over a list of `ScriptShape` results. -/
def sum_nglyphs : List ShapeOut → Nat
  | [] => 0
  | sh :: rest => sh.nglyphs + sum_nglyphs rest

/-- The value the specification gives `uniscribe_shape` after a successful
`ScriptItemize`, from the `ScriptShape` results of the runs attempted: nil
when one of them is `E_OUTOFMEMORY`, else the sum of `nglyphs` over the runs
before the first one that failed or has `fNoGlyphIndex` set. -/
def shape_value_spec (shaped : List ShapeOut) : LispObject :=
  if shaped.any (fun sh => decide (sh.result = E_OUTOFMEMORY)) then LispObject.nil
  else LispObject.fixnum (sum_nglyphs (shaped.takeWhile run_shaped) : Int)

/-- An input glyph for the character `c`, with FROM, TO, CHAR and CODE set. -/
def input_glyph (idx c : Int) : LGlyph :=
  { LGLYPH_NEW with FROM := some idx, TO := some idx, CHAR := some c, CODE := some c }

/-- An oracle for one run of one character that `ScriptShape` turns into two
glyphs, after which `ScriptPlace` reports the status `place`. -/
def shape_oracle_two_glyphs (place : HRESULT) : ShapeOracle :=
  { ScriptItemize := fun _ _ _ =>
      { result := S_OK, nitems := 1, iCharPos := fun k => if k = 0 then 0 else 1 }
    ScriptShape := fun _ _ =>
      { result := S_OK, nglyphs := 2, glyphs := fun j => 40 + j, clusters := fun _ => 0,
        fClusterStart := fun j => decide (j = 0), fNoGlyphIndex := false }
    ScriptPlace := fun _ _ =>
      { result := place, advances := fun _ => 8, du := fun _ => 0, dv := fun _ => 0,
        fRTL := false }
    ScriptGetGlyphABCWidth := fun _ _ _ => { result := S_OK, abcA := 1, abcB := 6 }
    get_frame_dc := fun _ => true }

/-- An oracle for three runs of one character each: `ScriptItemize` needs a
buffer of three items; `ScriptShape` yields one glyph for run 0, fails with
`E_FAIL` for run 1 and would report `E_OUTOFMEMORY` for run 2. -/
def shape_oracle_three_runs : ShapeOracle :=
  { ScriptItemize := fun _ _ max_items =>
      { result := if max_items < 3 then E_OUTOFMEMORY else S_OK, nitems := 3,
        iCharPos := fun k => (k : Int) }
    ScriptShape := fun run _ =>
      { result := if run = 0 then S_OK else if run = 1 then E_FAIL else E_OUTOFMEMORY,
        nglyphs := 1, glyphs := fun _ => 40, clusters := fun _ => 0,
        fClusterStart := fun _ => true, fNoGlyphIndex := false }
    ScriptPlace := fun _ _ =>
      { result := S_OK, advances := fun _ => 8, du := fun _ => 0, dv := fun _ => 0,
        fRTL := false }
    ScriptGetGlyphABCWidth := fun _ _ _ => { result := S_OK, abcA := 1, abcB := 6 }
    get_frame_dc := fun _ => true }

/-- Three input glyphs, for the characters `a`, `b` and `c`. -/
def lgstring_abc : List (Option LGlyph) :=
  [some (input_glyph 0 97), some (input_glyph 1 98), some (input_glyph 2 99)]

/-! ## w32hb_encode_char -/

/-- The calls `w32hb_encode_char` makes outside this file:
`w32_use_direct_write` as it answers before the DirectWrite attempt,
`w32_dwrite_encode_char (font, c)` with the code it returns and the answer of
`w32_use_direct_write` after it (the attempt may disable DirectWrite for the
font), `w32hb_get_font (font, &scale)` yielding a handle or `none` for NULL,
and `hb_font_get_nominal_glyph (hb_font, c, &glyph)` yielding `some glyph`
when it succeeds.  The DirectWrite calls leave `uniscribe_font->cache`
alone. -/
structure HbEncodeOracle where
  w32_use_direct_write : Bool
  w32_dwrite_encode_char : Int → Nat × Bool
  w32hb_get_font : Option Nat
  hb_font_get_nominal_glyph : Nat → Int → Option Nat

/-- What a call of `w32hb_encode_char` leaves: the code returned, the field
`uniscribe_font->cache`, whether the code was returned by `return encoded`,
and whether `w32hb_get_font` was called. -/
structure HbEncodeOut where
  code : Nat
  cache : Option Nat
  returned_encoded : Bool
  get_font_called : Bool

/-- The HarfBuzz part of `w32hb_encode_char`, from `hb_font_t *hb_font =
uniscribe_font->cache;` to the end. -/
def w32hb_encode_char_hb (o : HbEncodeOracle) (cache : Option Nat) (c : Int) : HbEncodeOut :=
  match cache with
  | some hb_font =>
    match o.hb_font_get_nominal_glyph hb_font c with
    | some glyph =>
      { code := glyph, cache := cache, returned_encoded := false, get_font_called := false }
    | none =>
      { code := FONT_INVALID_CODE, cache := cache, returned_encoded := false,
        get_font_called := false }
  | none =>
    match o.w32hb_get_font with
    | none =>
      { code := FONT_INVALID_CODE, cache := cache, returned_encoded := false,
        get_font_called := true }
    | some hb_font =>
      match o.hb_font_get_nominal_glyph hb_font c with
      | some glyph =>
        { code := glyph, cache := some hb_font, returned_encoded := false,
          get_font_called := true }
      | none =>
        { code := FONT_INVALID_CODE, cache := some hb_font, returned_encoded := false,
          get_font_called := true }

/-- Function `w32hb_encode_char (font, c)`, run with `uniscribe_font->cache`
holding `cache`. -/
def w32hb_encode_char (o : HbEncodeOracle) (cache : Option Nat) (c : Int) : HbEncodeOut :=
  if o.w32_use_direct_write then
    let encoded := (o.w32_dwrite_encode_char c).1
    if (o.w32_dwrite_encode_char c).2 then
      { code := encoded, cache := cache, returned_encoded := true, get_font_called := false }
    else w32hb_encode_char_hb o cache c
  else w32hb_encode_char_hb o cache c

/-- An oracle of `w32hb_encode_char`: DirectWrite in use before the attempt or
not, the code of the attempt and whether DirectWrite is still in use after
it, a font object that can be created (handle 1) or not, and a HarfBuzz font
with the nominal glyph 65 for U+0041 only. -/
def hb_encode_oracle (before : Bool) (encoded : Nat) (after : Bool) (font_ok : Bool) :
    HbEncodeOracle :=
  { w32_use_direct_write := before
    w32_dwrite_encode_char := fun _ => (encoded, after)
    w32hb_get_font := if font_ok then some 1 else none
    hb_font_get_nominal_glyph := fun _ c => if c = 0x41 then some 65 else none }

/-! ## The font-data reads of otf_features -/

/-- One call `GetFontData (context, tbl, offset, buf, n)` made by a table walk,
and whether it returned `n`. -/
structure FontRead where
  tbl : Nat
  offset : Nat
  n : Nat
  ok : Bool
  deriving DecidableEq, Repr

/-- Whether `GetFontData (context, tbl, offset, buf, n)` returns `n`, the test
of `OTF_INT16_VAL` (n = 2) and `OTF_TAG_VAL` (n = 4). -/
def read_returns (font : FontOracle) (tbl offset n : Nat) : Bool :=
  match font.GetFontData tbl offset n with
  | some bytes => bytes.length == n
  | none => false

/-- A computation that can take `goto font_table_error` (`none`) and appends
the reads it makes to a log, which is kept on failure too. -/
def Logged (α : Type) : Type := List FontRead → Option α × List FontRead

/-- Sequencing of logged computations: a failure stops the walk. -/
def Logged.bind {α β : Type} (x : Logged α) (f : α → Logged β) : Logged β :=
  fun log =>
    match x log with
    | (some a, log1) => f a log1
    | (none, log1) => (none, log1)

/-- A logged computation that reads nothing. -/
def Logged.pure {α : Type} (a : α) : Logged α := fun log => (some a, log)

instance : Monad Logged where
  pure := Logged.pure
  bind := Logged.bind

/-- Macro `OTF_INT16_VAL`, with its read logged. -/
def logged_INT16_VAL (font : FontOracle) (tbl offset : Nat) : Logged Nat :=
  fun log =>
    (OTF_INT16_VAL font tbl offset,
     log ++ [{ tbl := tbl, offset := offset, n := 2,
               ok := (OTF_INT16_VAL font tbl offset).isSome }])

/-- Macro `OTF_TAG_VAL`, with its read logged. -/
def logged_TAG_VAL (font : FontOracle) (tbl offset : Nat) : Logged (List Nat) :=
  fun log =>
    (OTF_TAG_VAL font tbl offset,
     log ++ [{ tbl := tbl, offset := offset, n := 4,
               ok := (OTF_TAG_VAL font tbl offset).isSome }])

/-- The loop of `otf_feature_list`, with its reads logged. -/
def logged_feature_list (font : FontOracle) (tbl feature_table langsys_table : Nat) :
    Nat → LispObject → Logged LispObject
  | 0, feature_list => pure feature_list
  | k + 1, feature_list => do
    let index ← logged_INT16_VAL font tbl (langsys_table + 6 + k * 2)
    let feature ← logged_TAG_VAL font tbl (feature_table + 2 + index * 6)
    logged_feature_list font tbl feature_table langsys_table k
      (LispObject.cons (intern feature) feature_list)

/-- The loop of `otf_langsys_list`, with its reads logged. -/
def logged_langsys_list (font : FontOracle) (tbl feature_table script_table : Nat) :
    Nat → LispObject → Logged LispObject
  | 0, langsys_list => pure langsys_list
  | j + 1, langsys_list => do
    let record_offset := (script_table + 4 + j * 6) % 0x10000
    let lang ← logged_TAG_VAL font tbl record_offset
    let langsys_table ← logged_INT16_VAL font tbl (record_offset + 4)
    let langsys_table := (langsys_table + script_table) % 0x10000
    let langsys_tag := intern lang
    let feature_count ← logged_INT16_VAL font tbl (langsys_table + 4)
    let feature_list ←
      logged_feature_list font tbl feature_table langsys_table feature_count LispObject.nil
    logged_langsys_list font tbl feature_table script_table j
      (LispObject.cons (LispObject.cons langsys_tag feature_list) langsys_list)

/-- The loop of `otf_script_list`, with its reads logged. -/
def logged_script_list (font : FontOracle) (tbl scriptlist_table feature_table : Nat) :
    Nat → LispObject → Logged LispObject
  | 0, script_list => pure script_list
  | i + 1, script_list => do
    let record_offset := (scriptlist_table + 2 + i * 6) % 0x10000
    let script ← logged_TAG_VAL font tbl record_offset
    let script_table ← logged_INT16_VAL font tbl (record_offset + 4)
    let script_table := (script_table + scriptlist_table) % 0x10000
    let script_tag := intern script
    let langsys_table ← logged_INT16_VAL font tbl script_table
    let langsys_list ←
      if langsys_table ≠ 0 then do
        let langsys_table := (langsys_table + script_table) % 0x10000
        let feature_count ← logged_INT16_VAL font tbl (langsys_table + 4)
        let feature_list ←
          logged_feature_list font tbl feature_table langsys_table feature_count LispObject.nil
        pure (LispObject.cons (LispObject.cons LispObject.nil feature_list) LispObject.nil)
      else pure LispObject.nil
    let lang_count ← logged_INT16_VAL font tbl (script_table + 2)
    let langsys_list ←
      logged_langsys_list font tbl feature_table script_table lang_count langsys_list
    logged_script_list font tbl scriptlist_table feature_table i
      (LispObject.cons (LispObject.cons script_tag langsys_list) script_list)

/-- The walk of `otf_features` over the table with tag `tbl`, with its reads
logged. -/
def logged_features_walk (font : FontOracle) (tbl : Nat) : Logged LispObject := do
  let scriptlist_table ← logged_INT16_VAL font tbl 4
  let feature_table ← logged_INT16_VAL font tbl 6
  let n_scripts ← logged_INT16_VAL font tbl scriptlist_table
  logged_script_list font tbl scriptlist_table feature_table n_scripts LispObject.nil

/-- A logged computation `x` agrees with the plain computation `plain`: from
any log it yields the result `plain` and appends reads that each record a
call of `GetFontData` for 2 or 4 bytes with its true outcome; when it fails
one of the appended reads failed, and when it succeeds they all succeeded. -/
def LogSound {α : Type} (font : FontOracle) (x : Logged α) (plain : Option α) : Prop :=
  ∀ log, ∃ new, x log = (plain, log ++ new) ∧
    (∀ r ∈ new, r.ok = read_returns font r.tbl r.offset r.n ∧ (r.n = 2 ∨ r.n = 4)) ∧
    (plain = none → ∃ r ∈ new, r.ok = false) ∧
    (plain.isSome = true → ∀ r ∈ new, r.ok = true)

/-- A GSUB table with two script records: `latn`, whose script table lists the
feature `liga`, and before it `cyrl`, whose script table offset points past
the end of the table. -/
def gsub_cyrl_broken : List Nat :=
  [0, 1, 0, 0,  0, 10,  0, 36,  0, 0,
   0, 2,  99, 121, 114, 108,  0, 240,  108, 97, 116, 110,  0, 14,
   0, 4,  0, 0,
   0, 0,  255, 255,  0, 1,  0, 0,
   0, 1,  108, 105, 103, 97,  0, 0]

/-- A font whose only layout table is the GSUB table `gsub_cyrl_broken`. -/
def font_cyrl_broken : FontOracle :=
  { ScriptGetFontScriptTags := tags_ok [[108, 97, 116, 110]]
    ScriptGetFontLanguageTags := fun _ => tags_ok []
    ScriptGetFontFeatureTags := fun _ _ => tags_ok [[108, 105, 103, 97]]
    GetFontData := font_data_gsub gsub_cyrl_broken }

/-- The components of `otf_spec` are ones on which `SNAME` is defined: the
script and the language are nil or symbols with a readable name, and the
non-nil elements of both feature lists are such symbols. -/
def otf_spec_symbols (otf_spec : LispObject) : Prop :=
  (NILP (otf_spec_components otf_spec).1 = true ∨
    (OTF_TAG_SNAME (otf_spec_components otf_spec).1).isSome = true) ∧
  (NILP (otf_spec_components otf_spec).2.1 = true ∨
    (OTF_TAG_SNAME (otf_spec_components otf_spec).2.1).isSome = true) ∧
  tagged_elems (otf_spec_components otf_spec).2.2.1 ∧
  tagged_elems (otf_spec_components otf_spec).2.2.2

/-- The device-context events of a `uniscribe_check_otf` call that passed the
format check: the context and the font are acquired and selected, then the old
font is re-selected, the font deleted and the context released. -/
def check_otf_events : List Event :=
  [Event.get_frame_dc, Event.CreateFontIndirect, Event.SelectObject_font,
   Event.SelectObject_old_font, Event.DeleteObject, Event.release_frame_dc]

/-! ## Device-context discipline of the shaping functions -/

/-- An oracle for one run of one character whose `ScriptShape` needs a device
context: the first attempt reports `E_PENDING`, the retry yields one glyph. -/
def shape_oracle_pending : ShapeOracle :=
  { ScriptItemize := fun _ _ _ =>
      { result := S_OK, nitems := 1, iCharPos := fun k => if k = 0 then 0 else 1 }
    ScriptShape := fun _ retry =>
      { result := if retry then S_OK else E_PENDING, nglyphs := 1, glyphs := fun _ => 40,
        clusters := fun _ => 0, fClusterStart := fun _ => true, fNoGlyphIndex := false }
    ScriptPlace := fun _ _ =>
      { result := S_OK, advances := fun _ => 8, du := fun _ => 0, dv := fun _ => 0,
        fRTL := false }
    ScriptGetGlyphABCWidth := fun _ _ _ => { result := S_OK, abcA := 1, abcB := 6 }
    get_frame_dc := fun _ => true }

/-! ## Cluster bookkeeping of the glyph loop -/

/-- The state of the glyph loop of a run before glyph `j`: the loop body
applied to the glyphs `0 .. j - 1`, from the values the locals are declared
with (`from = to = 0`, `adj_offset = 0`, `cluster_offset = 0`). -/
def glyph_loop_state (o : ShapeOracle) (font_ascent font_descent : Int) (chars : Nat → Nat)
    (i : Nat) (iCharPos nchars_in_run : Int) (sh : ShapeOut) (pl : PlaceOut)
    (done_glyphs : Nat) (dc : DcState) (lgstring : List (Option LGlyph)) (j : Nat) : GlyphState :=
  for_loop
    (shape_glyph o font_ascent font_descent chars i iCharPos nchars_in_run sh pl done_glyphs)
    j 0
    { from_ := 0, to_ := 0, adj_offset := 0, cluster_offset := 0, dc := dc, lgstring := lgstring }

/-- The invariant of the cluster bookkeeping: `0 <= from <= to <=
nchars_in_run - 1` and `cluster_offset >= 0`. -/
def ClusterInv (nchars_in_run : Int) (st : GlyphState) : Prop :=
  0 ≤ st.from_ ∧ st.from_ ≤ st.to_ ∧ st.to_ ≤ nchars_in_run - 1 ∧ 0 ≤ st.cluster_offset

/-- The value `from` has when glyph `j` of a run is stored (after the cluster
block of iteration `j`). -/
def glyph_from (o : ShapeOracle) (font_ascent font_descent : Int) (chars : Nat → Nat)
    (i : Nat) (iCharPos nchars_in_run : Int) (sh : ShapeOut) (pl : PlaceOut)
    (done_glyphs : Nat) (dc : DcState) (lgstring : List (Option LGlyph)) (j : Nat) : Int :=
  (detect_cluster sh pl nchars_in_run j
    (glyph_loop_state o font_ascent font_descent chars i iCharPos nchars_in_run sh pl
      done_glyphs dc lgstring j)).1

/-- The value `to` has when glyph `j` of a run is stored. -/
def glyph_to (o : ShapeOracle) (font_ascent font_descent : Int) (chars : Nat → Nat)
    (i : Nat) (iCharPos nchars_in_run : Int) (sh : ShapeOut) (pl : PlaceOut)
    (done_glyphs : Nat) (dc : DcState) (lgstring : List (Option LGlyph)) (j : Nat) : Int :=
  (detect_cluster sh pl nchars_in_run j
    (glyph_loop_state o font_ascent font_descent chars i iCharPos nchars_in_run sh pl
      done_glyphs dc lgstring j)).2.1

/-- The value `char_idx` has when glyph `j` of a run is stored, the index of
the character given to `LGLYPH_SET_CHAR`. -/
def glyph_char_index (o : ShapeOracle) (font_ascent font_descent : Int) (chars : Nat → Nat)
    (i : Nat) (iCharPos nchars_in_run : Int) (sh : ShapeOut) (pl : PlaceOut)
    (done_glyphs : Nat) (dc : DcState) (lgstring : List (Option LGlyph)) (j : Nat) : Int :=
  glyph_char_idx iCharPos
    (glyph_from o font_ascent font_descent chars i iCharPos nchars_in_run sh pl done_glyphs dc
      lgstring j)
    (glyph_to o font_ascent font_descent chars i iCharPos nchars_in_run sh pl done_glyphs dc
      lgstring j)
    (detect_cluster sh pl nchars_in_run j
      (glyph_loop_state o font_ascent font_descent chars i iCharPos nchars_in_run sh pl
        done_glyphs dc lgstring j)).2.2.1

/-- A `ScriptShape` result with three glyphs for a run of two characters: the
glyphs 0 and 1 belong to the cluster of character 0, glyph 2 to character 1. -/
def shape_out_clusters : ShapeOut :=
  { result := S_OK, nglyphs := 3, glyphs := fun j => 40 + j,
    clusters := fun k => if k = 0 then 0 else 2,
    fClusterStart := fun j => decide (j ≠ 1), fNoGlyphIndex := false }

/-- A `ScriptPlace` result for a right-to-left run: advances of 8, and a
horizontal offset of 3 for glyph 1 only. -/
def place_out_rtl : PlaceOut :=
  { result := S_OK, advances := fun _ => 8, du := fun j => if j = 1 then 3 else 0,
    dv := fun _ => 0, fRTL := true }

/-- The three glyph slots of an LGSTRING holding two input characters. -/
def lgstring_two_chars : List (Option LGlyph) :=
  [some (input_glyph 0 0x5D0), some (input_glyph 1 0x5D1), none]

/-! ## Right-to-left adjustment of the glyph loop -/

/-- The running adjustment `adj_offset` as glyph `j` finds it when its
adjustment is computed, that is after the cluster block of iteration `j`:
the value left by the previous glyph when glyph `j` does not start a cluster,
the initial value computed for the cluster when it does. -/
def glyph_running_adjustment (sh : ShapeOut) (pl : PlaceOut) (nchars_in_run : Int) (j : Nat)
    (st : GlyphState) : Int :=
  (detect_cluster sh pl nchars_in_run j st).2.2.2

/-! ## The item buffer of uniscribe_shape -/

/-- The size in bytes of the buffer `items` that `uniscribe_shape` allocates
and re-allocates: `sizeof (SCRIPT_ITEM) * max_items + 1`. -/
def items_buffer_size (sizeof_item max_items : Nat) : Nat :=
  sizeof_item * max_items + 1

/-- The record `items[k]`, the bytes from `sizeof (SCRIPT_ITEM) * k` up to
`sizeof (SCRIPT_ITEM) * (k + 1)`, lies inside the buffer. -/
def item_in_buffer (sizeof_item max_items k : Nat) : Prop :=
  sizeof_item * k + sizeof_item ≤ items_buffer_size sizeof_item max_items

/-- The field `items[k].iCharPos`, an `int` at the start of the record, lies
inside the buffer. -/
def item_iCharPos_in_buffer (sizeof_item max_items k : Nat) : Prop :=
  sizeof_item * k + 4 ≤ items_buffer_size sizeof_item max_items

/-- Constant `sizeof (SCRIPT_ITEM)` of `usp10.h`: an `int iCharPos` followed by
a `SCRIPT_ANALYSIS` of two 16-bit words. -/
def sizeof_SCRIPT_ITEM : Nat := 8

/-- The records that iteration `i` of the run loop reads:
`nchars_in_run = items[i+1].iCharPos - items[i].iCharPos`, and `items[i].a`. -/
def run_item_reads (i : Nat) : List Nat := [i + 1, i]

/-- An oracle for a text of two characters that `ScriptItemize` splits, at the
first call with `max_items = 2`, into `nitems = 2` runs of one character,
storing `end_pos` in the terminating record `items[2].iCharPos`; each run is
shaped into one glyph. -/
def shape_oracle_two_items (end_pos : Int) : ShapeOracle :=
  { ScriptItemize := fun _ _ _ =>
      { result := S_OK, nitems := 2,
        iCharPos := fun k => if k = 0 then 0 else if k = 1 then 1 else end_pos }
    ScriptShape := fun _ _ =>
      { result := S_OK, nglyphs := 1, glyphs := fun _ => 40, clusters := fun _ => 0,
        fClusterStart := fun _ => true, fNoGlyphIndex := false }
    ScriptPlace := fun _ _ =>
      { result := S_OK, advances := fun _ => 8, du := fun _ => 0, dv := fun _ => 0,
        fRTL := false }
    ScriptGetGlyphABCWidth := fun _ _ _ => { result := S_OK, abcA := 1, abcB := 6 }
    get_frame_dc := fun _ => true }

/-- Two input glyphs, for a Latin and a Hebrew letter. -/
def lgstring_two_scripts : List (Option LGlyph) :=
  [some (input_glyph 0 97), some (input_glyph 1 0x5D0)]

/-- The TO fields of the glyph slots of an LGSTRING. -/
def lgstring_TO (lgstring : List (Option LGlyph)) : List (Option Int) :=
  lgstring.map fun slot => slot.bind LGlyph.TO

/-! ## The run loop of uniscribe_shape, run by run -/

/-- The state in which the run loop of `uniscribe_shape` starts:
`done_glyphs = 0`, `lgstring` not nil, `context = NULL`, no device-context
call made. -/
def shape_runs_init (lgstring : List (Option LGlyph)) : ShapeState :=
  { done_glyphs := 0, lgstring_nil := false,
    dc := { context := false, dc_calls := 0, events := [] },
    lgstring := lgstring, shaped := [] }

/-- The result of `ScriptShape` that the run loop acts on in its iteration
`i + t`, the loop having been entered at iteration `i` in state `st`: the
result left in `result` after the statements
`result = ScriptShape (...); if (result == E_PENDING && !context) { ...;
result = ScriptShape (...); }`, with `context` as the `t` iterations before
left it. -/
def shape_result_at (o : ShapeOracle) (font_ascent font_descent : Int) (chars : Nat → Nat)
    (items : ItemizeOut) (i : Nat) (st : ShapeState) (t : Nat) : ShapeOut :=
  (call_with_dc o.get_frame_dc ShapeOut.result (o.ScriptShape (i + t))
    (shape_runs o font_ascent font_descent chars items t i st).dc).1

/-- The local `context` (and the `get_frame_dc` calls behind it) of
`uniscribe_shape` at the head of iteration `i` of the run loop, when the
iterations before `i` did not leave the loop. -/
def run_loop_dc (o : ShapeOracle) (font_ascent font_descent : Int)
    (lgstring : List (Option LGlyph)) (items : ItemizeOut) (i : Nat) : DcState :=
  (shape_runs o font_ascent font_descent (lgstring_chars lgstring) items i 0
    (shape_runs_init lgstring)).dc

/-- The result of `ScriptShape` for run `i` that `uniscribe_shape` acts on:
that of the first call, or that of the second call when the first call
returned `E_PENDING` while `context` was NULL. -/
def run_shape_result (o : ShapeOracle) (font_ascent font_descent : Int)
    (lgstring : List (Option LGlyph)) (items : ItemizeOut) (i : Nat) : ShapeOut :=
  if (o.ScriptShape i false).result = E_PENDING ∧
      (run_loop_dc o font_ascent font_descent lgstring items i).context = false
  then o.ScriptShape i true else o.ScriptShape i false

/-- An oracle for two runs of one character each whose `ScriptShape` yields
`n0` and `n1` glyphs; `ScriptItemize` needs a buffer of three items. -/
def shape_oracle_two_runs (n0 n1 : Nat) : ShapeOracle :=
  { ScriptItemize := fun _ _ max_items =>
      { result := if max_items < 3 then E_OUTOFMEMORY else S_OK, nitems := 2,
        iCharPos := fun k => (k : Int) }
    ScriptShape := fun run _ =>
      { result := S_OK, nglyphs := if run = 0 then n0 else n1, glyphs := fun j => 40 + j,
        clusters := fun _ => 0, fClusterStart := fun j => decide (j = 0),
        fNoGlyphIndex := false }
    ScriptPlace := fun _ _ =>
      { result := S_OK, advances := fun _ => 8, du := fun _ => 0, dv := fun _ => 0,
        fRTL := false }
    ScriptGetGlyphABCWidth := fun _ _ _ => { result := S_OK, abcA := 1, abcB := 6 }
    get_frame_dc := fun _ => true }

/-! # Theorems -/

/-! ## uniscribe_check_features -/

theorem tag_scan_le (ftags : Nat → Nat) (n t : Nat) :
    ∀ fuel i, i ≤ n → tag_scan ftags n t fuel i ≤ n := by
  intro fuel
  induction fuel with
  | zero => intro i hi; simpa [tag_scan] using hi
  | succ fuel ih =>
    intro i hi
    unfold tag_scan
    split_ifs with h1 h2
    · exact hi
    · exact ih (i + 1) h1
    · exact hi

theorem tag_scan_lt_iff (ftags : Nat → Nat) (n t : Nat) :
    ∀ fuel i, i + fuel = n →
      (tag_scan ftags n t fuel i < n ↔ ∃ k, i ≤ k ∧ k < n ∧ ftags k = t) := by
  intro fuel
  induction fuel with
  | zero =>
    intro i hi
    simp only [tag_scan]
    constructor
    · intro h; omega
    · rintro ⟨k, h1, h2, _⟩; omega
  | succ fuel ih =>
    intro i hi
    unfold tag_scan
    have hlt : i < n := by omega
    rw [if_pos hlt]
    by_cases h2 : ftags i = t
    · rw [if_pos h2]
      exact ⟨fun _ => ⟨i, le_refl i, hlt, h2⟩, fun _ => hlt⟩
    · rw [if_neg h2, ih (i + 1) (by omega)]
      constructor
      · rintro ⟨k, h1, h3, h4⟩
        exact ⟨k, by omega, h3, h4⟩
      · rintro ⟨k, h1, h3, h4⟩
        have hne : k ≠ i := by
          intro hk
          exact h2 (hk ▸ h4)
        exact ⟨k, by omega, h3, h4⟩

theorem tag_index_lt_iff (ftags : Nat → Nat) (n t : Nat) :
    tag_index ftags n t < n ↔ has_tag ftags n t := by
  unfold tag_index has_tag
  rw [tag_scan_lt_iff ftags n t n 0 (by omega)]
  constructor
  · rintro ⟨k, _, h2, h3⟩; exact ⟨k, h2, h3⟩
  · rintro ⟨k, h2, h3⟩; exact ⟨k, Nat.zero_le k, h2, h3⟩

theorem tag_index_ge_iff (ftags : Nat → Nat) (n t : Nat) :
    n ≤ tag_index ftags n t ↔ ¬ has_tag ftags n t := by
  rw [← tag_index_lt_iff]
  omega

/-- After a nil element (`negative` set) the walk succeeds exactly when no
non-nil element has its tag among `ftags[0..n-1]`. -/
theorem check_features_list_negative (ftags : Nat → Nat) (n : Nat) :
    ∀ l : LispObject, tagged_elems l →
      ∃ b, check_features_list ftags n true l = some b ∧
        (b = true ↔ ∀ e ∈ lisp_elems l, NILP e = false →
          ∀ t, OTF_TAG_SNAME e = some t → ¬ has_tag ftags n t) := by
  intro l
  induction l with
  | nil => intro _; exact ⟨true, rfl, by simp [lisp_elems]⟩
  | sym name => intro _; exact ⟨true, rfl, by simp [lisp_elems]⟩
  | fixnum k => intro _; exact ⟨true, rfl, by simp [lisp_elems]⟩
  | cons a d _ ihd =>
    intro hs
    have hsd : tagged_elems d := fun e he hn => hs e (by simp [lisp_elems, he]) hn
    obtain ⟨b, hb, hiff⟩ := ihd hsd
    by_cases ha : NILP a = true
    · refine ⟨b, ?_, ?_⟩
      · simp [check_features_list, ha, hb]
      · rw [hiff]
        simp only [lisp_elems, List.mem_cons, forall_eq_or_imp]
        constructor
        · intro h
          exact ⟨fun hf => by simp [ha] at hf, h⟩
        · intro h; exact h.2
    · have ha' : NILP a = false := by simpa using ha
      have hsome := hs a (by simp [lisp_elems]) ha'
      obtain ⟨t, ht⟩ := Option.isSome_iff_exists.mp hsome
      by_cases hfound : has_tag ftags n t
      · refine ⟨false, ?_, ?_⟩
        · have hlt := (tag_index_lt_iff ftags n t).mpr hfound
          simp [check_features_list, ha', ht, hlt]
        · simp only [lisp_elems, List.mem_cons, forall_eq_or_imp]
          constructor
          · intro h; exact absurd h (by simp)
          · intro h; exact absurd hfound (h.1 ha' t ht)
      · refine ⟨b, ?_, ?_⟩
        · have hge := (tag_index_ge_iff ftags n t).mpr hfound
          have hnlt : ¬ tag_index ftags n t < n := by omega
          simp [check_features_list, ha', ht, hnlt, hb]
        · rw [hiff]
          simp only [lisp_elems, List.mem_cons, forall_eq_or_imp]
          constructor
          · intro h
            refine ⟨fun _ t' ht' => ?_, h⟩
            rw [ht] at ht'
            cases ht'
            exact hfound
          · intro h; exact h.2

/-- From the start of a list (`negative` clear) the walk succeeds exactly
when the list meets the condition of the specification. -/
theorem check_features_list_positive (ftags : Nat → Nat) (n : Nat) :
    ∀ l : LispObject, tagged_elems l →
      ∃ b, check_features_list ftags n false l = some b ∧
        (b = true ↔ feature_list_ok ftags n l) := by
  intro l
  induction l with
  | nil => intro _; exact ⟨true, rfl, by simp [feature_list_ok, lisp_elems]⟩
  | sym name => intro _; exact ⟨true, rfl, by simp [feature_list_ok, lisp_elems]⟩
  | fixnum k => intro _; exact ⟨true, rfl, by simp [feature_list_ok, lisp_elems]⟩
  | cons a d _ ihd =>
    intro hs
    have hsd : tagged_elems d := fun e he hn => hs e (by simp [lisp_elems, he]) hn
    by_cases ha : NILP a = true
    · obtain ⟨b, hb, hiff⟩ := check_features_list_negative ftags n d hsd
      refine ⟨b, ?_, ?_⟩
      · simp [check_features_list, ha, hb]
      · rw [hiff]
        simp only [feature_list_ok, lisp_elems, List.takeWhile_cons, List.dropWhile_cons, ha,
          Bool.not_true, Bool.false_eq_true, if_false, List.not_mem_nil, false_implies,
          implies_true, true_and, List.mem_cons, forall_eq_or_imp]
        constructor
        · intro h
          exact ⟨fun hf => by simp at hf, h⟩
        · intro h; exact h.2
    · have ha' : NILP a = false := by simpa using ha
      obtain ⟨b, hb, hiff⟩ := ihd hsd
      have hsome := hs a (by simp [lisp_elems]) ha'
      obtain ⟨t, ht⟩ := Option.isSome_iff_exists.mp hsome
      by_cases hfound : has_tag ftags n t
      · refine ⟨b, ?_, ?_⟩
        · have hlt := (tag_index_lt_iff ftags n t).mpr hfound
          have hnge : ¬ n ≤ tag_index ftags n t := by omega
          simp [check_features_list, ha', ht, hnge, hb]
        · rw [hiff]
          simp only [feature_list_ok, lisp_elems, List.takeWhile_cons, List.dropWhile_cons, ha',
            Bool.not_false, if_true, List.mem_cons, forall_eq_or_imp]
          constructor
          · intro h
            refine ⟨⟨fun t' ht' => ?_, h.1⟩, h.2⟩
            rw [ht] at ht'
            cases ht'
            exact hfound
          · intro h; exact ⟨h.1.2, h.2⟩
      · refine ⟨false, ?_, ?_⟩
        · have hge := (tag_index_ge_iff ftags n t).mpr hfound
          have hnlt : ¬ tag_index ftags n t < n := by omega
          simp [check_features_list, ha', ht, hnlt, hge]
        · simp only [feature_list_ok, lisp_elems, List.takeWhile_cons, List.dropWhile_cons, ha',
            Bool.not_false, if_true, List.mem_cons, forall_eq_or_imp]
          constructor
          · intro h; exact absurd h (by simp)
          · intro h; exact absurd (h.1.1 t ht) hfound

/-- C3: on feature lists whose non-nil elements are symbols with readable
names, `uniscribe_check_features` returns, and it returns true exactly when
each of the two lists, taken on its own, has every non-nil element before
its first nil among `ftags[0..n-1]` and every non-nil element after a nil
absent from `ftags[0..n-1]`. -/
theorem uniscribe_check_features_iff (features : LispObject × LispObject)
    (ftags : Nat → Nat) (n : Nat)
    (h0 : tagged_elems features.1) (h1 : tagged_elems features.2) :
    ∃ b, uniscribe_check_features features ftags n = some b ∧
      (b = true ↔ feature_list_ok ftags n features.1 ∧ feature_list_ok ftags n features.2) := by
  obtain ⟨b0, hb0, hiff0⟩ := check_features_list_positive ftags n features.1 h0
  obtain ⟨b1, hb1, hiff1⟩ := check_features_list_positive ftags n features.2 h1
  cases b0 with
  | false =>
    refine ⟨false, by simp [uniscribe_check_features, hb0], ?_⟩
    constructor
    · intro h; exact absurd h (by simp)
    · intro h
      exact hiff0.mpr h.1
  | true =>
    refine ⟨b1, by simp [uniscribe_check_features, hb0, hb1], ?_⟩
    rw [hiff1]
    exact ⟨fun h => ⟨hiff0.mp rfl, h⟩, fun h => h.2⟩

/-- Witness for C3: a nil in `features[0]` forbids only the later elements of
`features[0]`; `kern` in `features[1]` stays required and is found. -/
theorem uniscribe_check_features_iff_witness :
    tagged_elems (lisp_list [LispObject.nil, sym_liga]) ∧
    tagged_elems (lisp_list [sym_kern]) ∧
    ∃ b, uniscribe_check_features (lisp_list [LispObject.nil, sym_liga], lisp_list [sym_kern])
        (tags_of [[107, 101, 114, 110]]) 1 = some b ∧
      (b = true ↔
        feature_list_ok (tags_of [[107, 101, 114, 110]]) 1 (lisp_list [LispObject.nil, sym_liga]) ∧
        feature_list_ok (tags_of [[107, 101, 114, 110]]) 1 (lisp_list [sym_kern])) :=
  have h0 : tagged_elems (lisp_list [LispObject.nil, sym_liga]) := by
    intro e he _
    simp only [lisp_list, lisp_elems, List.mem_cons, List.mem_singleton, List.not_mem_nil,
      or_false] at he
    rcases he with rfl | rfl <;> decide
  have h1 : tagged_elems (lisp_list [sym_kern]) := by
    intro e he _
    simp only [lisp_list, lisp_elems, List.mem_singleton] at he
    subst he
    decide
  ⟨h0, h1, uniscribe_check_features_iff _ _ 1 h0 h1⟩

/-! ## uniscribe_check_otf -/

/-- C2: `uniscribe_check_otf` returns 0, with no device-context or font
event, for a spec that is not a cons and for a list of fewer than three
elements; for a list of exactly three elements `features[1]` is nil. -/
theorem uniscribe_check_otf_format (flags : ApiFlags) (font : FontOracle)
    (otf_spec : LispObject) :
    (CONSP otf_spec = false → uniscribe_check_otf flags font otf_spec = some (0, [])) ∧
    (∀ len, Flength otf_spec = some len → len < 3 →
      uniscribe_check_otf flags font otf_spec = some (0, [])) ∧
    (Flength otf_spec = some 3 → (otf_spec_components otf_spec).2.2.2 = LispObject.nil) := by
  refine ⟨?_, ?_, ?_⟩
  · intro h
    simp [uniscribe_check_otf, h]
  · intro len hlen hlt
    unfold uniscribe_check_otf
    by_cases hc : CONSP otf_spec = true
    · simp [hc, hlen, hlt]
    · simp [hc]
  · intro h
    match otf_spec, h with
    | .cons a (.cons b (.cons c .nil)), _ => rfl
    | .cons a (.cons b (.cons c (.cons d r))), h => 
      simp only [Flength, Option.map_eq_some'] at h
      obtain ⟨x, ⟨y, ⟨z, ⟨w, _, hw⟩, hz⟩, hy⟩, hx⟩ := h
      omega
    | .cons a (.cons b (.cons c (.sym _))), h => simp [Flength] at h
    | .cons a (.cons b (.cons c (.fixnum _))), h => simp [Flength] at h
    | .cons a (.cons b .nil), h => simp [Flength] at h
    | .cons a (.cons b (.sym _)), h => simp [Flength] at h
    | .cons a (.cons b (.fixnum _)), h => simp [Flength] at h
    | .cons a .nil, h => simp [Flength] at h
    | .cons a (.sym _), h => simp [Flength] at h
    | .cons a (.fixnum _), h => simp [Flength] at h
    | .nil, h => simp [Flength] at h
    | .sym _, h => simp [Flength] at h
    | .fixnum _, h => simp [Flength] at h

/-- Witness for C2: a symbol, a two-element list and a three-element list. -/
theorem uniscribe_check_otf_format_witness :
    (CONSP sym_latn = false ∧
      uniscribe_check_otf flags_new font_latn_liga sym_latn = some (0, [])) ∧
    (Flength (lisp_list [sym_latn, LispObject.nil]) = some 2 ∧ 2 < 3 ∧
      uniscribe_check_otf flags_new font_latn_liga (lisp_list [sym_latn, LispObject.nil])
        = some (0, [])) ∧
    (Flength (lisp_list [sym_latn, LispObject.nil, lisp_list [sym_liga]]) = some 3 ∧
      (otf_spec_components (lisp_list [sym_latn, LispObject.nil, lisp_list [sym_liga]])).2.2.2
        = LispObject.nil) :=
  ⟨⟨by decide, (uniscribe_check_otf_format flags_new font_latn_liga sym_latn).1 (by decide)⟩,
   ⟨by decide, by decide,
    (uniscribe_check_otf_format flags_new font_latn_liga
      (lisp_list [sym_latn, LispObject.nil])).2.1 2 (by decide) (by decide)⟩,
   ⟨by decide,
    (uniscribe_check_otf_format flags_new font_latn_liga
      (lisp_list [sym_latn, LispObject.nil, lisp_list [sym_liga]])).2.2 (by decide)⟩⟩

/-- C1 (defect in the table scan): without the Vista APIs, the request
`(cyrl nil nil)` on a font whose only layout table is a GSUB table listing the
script `latn` makes `uniscribe_check_otf` return 1, although `cyrl` is neither
among the tags of `ScriptGetFontScriptTags` nor in the script list of GSUB or
GPOS.  The same request returns 0 through the Vista APIs, and the table scan
returns 0 as soon as a feature list is not nil. -/
theorem uniscribe_check_otf_nil_features_skip_script :
    (uniscribe_check_otf flags_legacy font_latn_liga
        (lisp_list [sym_cyrl, LispObject.nil, LispObject.nil])).map Prod.fst = some 1 ∧
    OTF_TAG_SNAME sym_cyrl = some 0x6c727963 ∧
    ¬ has_tag font_latn_liga.ScriptGetFontScriptTags.tags
        font_latn_liga.ScriptGetFontScriptTags.ntags 0x6c727963 ∧
    table_script_tags font_latn_liga 0x42555347 = some [0x6e74616c] ∧
    table_script_tags font_latn_liga 0x534f5047 = none ∧
    (uniscribe_check_otf flags_new font_latn_liga
        (lisp_list [sym_cyrl, LispObject.nil, LispObject.nil])).map Prod.fst = some 0 ∧
    (uniscribe_check_otf flags_legacy font_latn_liga
        (lisp_list [sym_cyrl, LispObject.nil, lisp_list [sym_liga]])).map Prod.fst = some 0 :=
  ⟨by decide, by decide, (tag_index_ge_iff _ _ _).mp (by decide), by decide, by decide,
    by decide, by decide⟩

/-! ## uniscribe_check_otf_1 -/

/-- C4 (defect in the Vista path): with `features[0]` nil and `features[1]`
the list `(kern)`, `uniscribe_check_otf_1` stores 1 in `*retval` for a font
whose feature tags for the chosen script and language are just `liga`, so the
required `kern` is not among them.  With `features[0]` the list `(liga)` the
same request is rejected, and so is it by the table scan. -/
theorem uniscribe_check_otf_1_nil_gsub_skips_gpos :
    uniscribe_check_otf_1 font_latn_liga sym_latn LispObject.nil
        (LispObject.nil, lisp_list [sym_kern]) = some (1, 1) ∧
    OTF_TAG_SNAME sym_latn = some 0x6e74616c ∧
    OTF_TAG str_dflt = some 0x746c6664 ∧
    OTF_TAG_SNAME sym_kern = some 0x6e72656b ∧
    ¬ has_tag (font_latn_liga.ScriptGetFontFeatureTags 0x6e74616c 0x746c6664).tags
        (font_latn_liga.ScriptGetFontFeatureTags 0x6e74616c 0x746c6664).ntags 0x6e72656b ∧
    uniscribe_check_otf_1 font_latn_liga sym_latn LispObject.nil
        (lisp_list [sym_liga], lisp_list [sym_kern]) = some (0, 0) ∧
    check_otf_scan font_latn_liga sym_latn LispObject.nil
        (LispObject.nil, lisp_list [sym_kern]) = some 0 :=
  ⟨by decide, by decide, by decide, by decide, (tag_index_ge_iff _ _ _).mp (by decide),
    by decide, by decide⟩

/-! ## uniscribe_encode_char -/

theorem and_0x3FF (x : Nat) : x &&& 0x03FF = x % 1024 := by
  have h := Nat.and_pow_two_sub_one_eq_mod x 10
  simpa using h

/-- C8: for a code point `c` in 0x10000..0x10FFFF the encoding is a high
surrogate followed by a low surrogate from which `c` is recovered, and for
`0 <= c < 0x10000` it is the single unit `c`. -/
theorem encode_utf16_roundtrip (c : Int) :
    (0x10000 ≤ c → c ≤ 0x10FFFF →
      ∃ ch0 ch1 : Nat, encode_utf16 c = [ch0, ch1] ∧
        0xD800 ≤ ch0 ∧ ch0 ≤ 0xDBFF ∧ 0xDC00 ≤ ch1 ∧ ch1 ≤ 0xDFFF ∧
        (0x10000 + ((ch0 - 0xD800) <<< 10) + (ch1 - 0xDC00) : Nat) = c) ∧
    (0 ≤ c → c < 0x10000 → encode_utf16 c = [c.toNat] ∧ (encode_utf16 c).length = 1) := by
  constructor
  · intro h1 h2
    obtain ⟨s, hs⟩ : ∃ s : Nat, c = 0x10000 + (s : Int) := ⟨(c - 0x10000).toNat, by omega⟩
    have hs2 : s < 0x100000 := by omega
    have hsur : ((c - 0x10000) % 0x100000000).toNat = s := by
      rw [hs]
      have : (0x10000 + (s : Int) - 0x10000) = (s : Int) := by ring
      rw [this]
      omega
    refine ⟨(0xD800 + ((s >>> 10) &&& 0x03FF)) % 0x10000, (0xDC00 + (s &&& 0x03FF)) % 0x10000,
      ?_, ?_⟩
    · unfold encode_utf16
      rw [if_neg (by omega)]
      simp only [hsur]
    · rw [and_0x3FF, and_0x3FF, Nat.shiftRight_eq_div_pow, Nat.shiftLeft_eq]
      have e10 : (2 : Nat) ^ 10 = 1024 := by norm_num
      rw [e10]
      refine ⟨by omega, by omega, by omega, by omega, ?_⟩
      rw [hs]
      have : (0x10000 + ((0xD800 + s / 1024 % 1024) % 0x10000 - 0xD800) * 1024
          + ((0xDC00 + s % 1024) % 0x10000 - 0xDC00) : Nat) = 0x10000 + s := by omega
      rw [this]
      push_cast
      ring
  · intro h1 h2
    unfold encode_utf16
    rw [if_pos h2]
    have : (c % 0x10000).toNat = c.toNat := by omega
    simp [this]

/-- Witness for C8: U+1F600 is encoded as D83D DE00, and U+0041 as itself. -/
theorem encode_utf16_roundtrip_witness :
    (∃ ch0 ch1 : Nat, encode_utf16 0x1F600 = [ch0, ch1] ∧
        0xD800 ≤ ch0 ∧ ch0 ≤ 0xDBFF ∧ 0xDC00 ≤ ch1 ∧ ch1 ≤ 0xDFFF ∧
        (0x10000 + ((ch0 - 0xD800) <<< 10) + (ch1 - 0xDC00) : Nat) = (0x1F600 : Int)) ∧
    (encode_utf16 0x41 = [(0x41 : Int).toNat] ∧ (encode_utf16 0x41).length = 1) :=
  ⟨(encode_utf16_roundtrip 0x1F600).1 (by decide) (by decide),
   (encode_utf16_roundtrip 0x41).2 (by decide) (by decide)⟩


theorem SUCCEEDED_eq_not_FAILED (hr : HRESULT) : SUCCEEDED hr = ! FAILED hr := by
  unfold SUCCEEDED FAILED
  by_cases h : 0 ≤ hr
  · have h2 : ¬ hr < 0 := not_lt.mpr h
    simp [h, h2]
  · have h2 : hr < 0 := not_le.mp h
    simp [h, h2]

theorem WORD_at_lt (a : Nat → Nat) (i : Nat) : WORD_at a i < 0x10000 := by
  unfold WORD_at
  omega

/-- C5: the code returned by `uniscribe_encode_char` is `FONT_INVALID_CODE`
or a non-zero 16-bit glyph index.  It is `FONT_INVALID_CODE` when
`ScriptItemize` fails, when shaping yields exactly one glyph with index 0,
when shaping fails with a code other than `E_OUTOFMEMORY`, and when the
`ScriptGetCMap` fallback is taken and fails or yields glyph 0; it is the
glyph when shaping succeeds with exactly one non-zero glyph. -/
theorem uniscribe_encode_char_code (o : EncodeOracle) (c : Int) :
    ((uniscribe_encode_char o c).1 = FONT_INVALID_CODE ∨
      (0 < (uniscribe_encode_char o c).1 ∧ (uniscribe_encode_char o c).1 < 0x10000)) ∧
    (FAILED (o.ScriptItemize (encode_utf16 c)) = true →
      (uniscribe_encode_char o c).1 = FONT_INVALID_CODE) ∧
    (SUCCEEDED (o.ScriptItemize (encode_utf16 c)) = true →
      SUCCEEDED (encode_shaped o c).result = true → (encode_shaped o c).nglyphs = 1 →
      WORD_at (encode_shaped o c).glyphs 0 = 0 →
      (uniscribe_encode_char o c).1 = FONT_INVALID_CODE) ∧
    (SUCCEEDED (o.ScriptItemize (encode_utf16 c)) = true →
      FAILED (encode_shaped o c).result = true → (encode_shaped o c).result ≠ E_OUTOFMEMORY →
      (uniscribe_encode_char o c).1 = FONT_INVALID_CODE) ∧
    (SUCCEEDED (o.ScriptItemize (encode_utf16 c)) = true →
      ¬ (SUCCEEDED (encode_shaped o c).result = true ∧ (encode_shaped o c).nglyphs = 1) →
      (FAILED (o.ScriptGetCMap (encode_utf16 c)).result = true ∨
        WORD_at (o.ScriptGetCMap (encode_utf16 c)).glyphs 0 = 0) →
      (uniscribe_encode_char o c).1 = FONT_INVALID_CODE) ∧
    (SUCCEEDED (o.ScriptItemize (encode_utf16 c)) = true →
      SUCCEEDED (encode_shaped o c).result = true → (encode_shaped o c).nglyphs = 1 →
      WORD_at (encode_shaped o c).glyphs 0 ≠ 0 →
      (uniscribe_encode_char o c).1 = WORD_at (encode_shaped o c).glyphs 0) := by
  have hsh : (if decide ((o.ScriptShape (encode_utf16 c) false).result = E_PENDING) = true
      then o.ScriptShape (encode_utf16 c) true else o.ScriptShape (encode_utf16 c) false)
      = encode_shaped o c := by
    unfold encode_shaped
    by_cases h : (o.ScriptShape (encode_utf16 c) false).result = E_PENDING <;> simp [h]
  have hcode : (uniscribe_encode_char o c).1 =
      if SUCCEEDED (o.ScriptItemize (encode_utf16 c)) = true then
        (if SUCCEEDED (encode_shaped o c).result && decide ((encode_shaped o c).nglyphs = 1) then
          (if WORD_at (encode_shaped o c).glyphs 0 ≠ 0 then WORD_at (encode_shaped o c).glyphs 0
            else FONT_INVALID_CODE)
        else if SUCCEEDED (encode_shaped o c).result
            || decide ((encode_shaped o c).result = E_OUTOFMEMORY) then
          (if SUCCEEDED (o.ScriptGetCMap (encode_utf16 c)).result
              && decide (WORD_at (o.ScriptGetCMap (encode_utf16 c)).glyphs 0 ≠ 0)
            then WORD_at (o.ScriptGetCMap (encode_utf16 c)).glyphs 0 else FONT_INVALID_CODE)
        else FONT_INVALID_CODE)
      else FONT_INVALID_CODE := by
    unfold uniscribe_encode_char
    by_cases hi : SUCCEEDED (o.ScriptItemize (encode_utf16 c)) = true
    · simp only [hi, if_true, hsh]
    · simp only [hi, if_false]
      simp
  have hw := WORD_at_lt (encode_shaped o c).glyphs 0
  have hw2 := WORD_at_lt (o.ScriptGetCMap (encode_utf16 c)).glyphs 0
  refine ⟨?_, ?_, ?_, ?_, ?_, ?_⟩
  · rw [hcode]
    split_ifs with h1 h2 h3 h4 h5
    · right; omega
    · left; rfl
    · right
      simp only [Bool.and_eq_true, decide_eq_true_eq] at h5
      omega
    · left; rfl
    · left; rfl
    · left; rfl
  · intro hf
    rw [hcode, SUCCEEDED_eq_not_FAILED, hf]
    simp
  · intro hi hs hn hz
    rw [hcode]
    simp [hi, hs, hn, hz]
  · intro hi hf hne
    rw [hcode]
    have hs : SUCCEEDED (encode_shaped o c).result = false := by
      rw [SUCCEEDED_eq_not_FAILED, hf]; rfl
    simp [hi, hs, hne]
  · intro hi hnot hcm
    rw [hcode, if_pos hi]
    have h1 : (SUCCEEDED (encode_shaped o c).result && decide ((encode_shaped o c).nglyphs = 1))
        = false := by
      simpa using hnot
    rw [h1]
    simp only [Bool.false_eq_true, if_false]
    have h2 : (SUCCEEDED (o.ScriptGetCMap (encode_utf16 c)).result
        && decide (WORD_at (o.ScriptGetCMap (encode_utf16 c)).glyphs 0 ≠ 0)) = false := by
      rcases hcm with hf | hz
      · rw [SUCCEEDED_eq_not_FAILED, hf]; rfl
      · simp [hz]
    rw [h2]
    simp
  · intro hi hs hn hnz
    rw [hcode]
    simp [hi, hs, hn, hnz]

/-- Witness for C5: one oracle for each of the listed outcomes. -/
theorem uniscribe_encode_char_code_witness :
    (uniscribe_encode_char (encode_oracle E_FAIL S_OK 1 36 S_OK 36) 0x41).1 = FONT_INVALID_CODE ∧
    (uniscribe_encode_char (encode_oracle S_OK S_OK 1 0 S_OK 36) 0x41).1 = FONT_INVALID_CODE ∧
    (uniscribe_encode_char (encode_oracle S_OK E_FAIL 1 36 S_OK 36) 0x41).1 = FONT_INVALID_CODE ∧
    (uniscribe_encode_char (encode_oracle S_OK E_OUTOFMEMORY 1 36 S_OK 0) 0x41).1
      = FONT_INVALID_CODE ∧
    (uniscribe_encode_char (encode_oracle S_OK S_OK 1 36 S_OK 0) 0x1F600).1 = 36 :=
  ⟨(uniscribe_encode_char_code (encode_oracle E_FAIL S_OK 1 36 S_OK 36) 0x41).2.1 (by decide),
   (uniscribe_encode_char_code (encode_oracle S_OK S_OK 1 0 S_OK 36) 0x41).2.2.1
      (by decide) (by decide) (by decide) (by decide),
   (uniscribe_encode_char_code (encode_oracle S_OK E_FAIL 1 36 S_OK 36) 0x41).2.2.2.1
      (by decide) (by decide) (by decide),
   (uniscribe_encode_char_code (encode_oracle S_OK E_OUTOFMEMORY 1 36 S_OK 0) 0x41).2.2.2.2.1
      (by decide) (by decide) (Or.inr (by decide)),
   (uniscribe_encode_char_code (encode_oracle S_OK S_OK 1 36 S_OK 0) 0x1F600).2.2.2.2.2
      (by decide) (by decide) (by decide) (by decide)⟩


/-! ## w32hb_get_variation_glyphs -/

theorem variation_step_fst (hb : Int → Nat → Option Nat) (c : Int) (s i : Nat)
    (st : Nat × (Nat → Nat)) :
    (variation_step hb c s i st).1 = st.1 + if (hb c s).isSome = true then 1 else 0 := by
  cases h : hb c s <;> simp [variation_step, h]

theorem variation_step_snd (hb : Int → Nat → Option Nat) (c : Int) (s i : Nat)
    (st : Nat × (Nat → Nat)) :
    (variation_step hb c s i st).2 = Function.update st.2 i ((hb c s).getD 0) := by
  cases h : hb c s <;> simp [variation_step, h]

/-- A loop over `[a, a + k)` whose body is `variation_step` with the selector
of entry `i` adds the number of selectors with a glyph to the count and
overwrites exactly the entries `a .. a + k - 1`. -/
theorem for_loop_variation (hb : Int → Nat → Option Nat) (c : Int) (sel : Nat → Nat) :
    ∀ (k a : Nat) (body : Nat → Nat × (Nat → Nat) → Nat × (Nat → Nat)) (st : Nat × (Nat → Nat)),
      (∀ i, a ≤ i → i < a + k → body i = variation_step hb c (sel i) i) →
      (for_loop body k a st).1 + (List.range a).countP (fun i => (hb c (sel i)).isSome)
          = st.1 + (List.range (a + k)).countP (fun i => (hb c (sel i)).isSome) ∧
      ∀ j, (for_loop body k a st).2 j
          = if a ≤ j ∧ j < a + k then (hb c (sel j)).getD 0 else st.2 j := by
  intro k
  induction k with
  | zero =>
    intro a body st _
    refine ⟨by simp [for_loop], fun j => ?_⟩
    rw [if_neg (by omega)]
    rfl
  | succ k ih =>
    intro a body st hbody
    have hstep := hbody a (le_refl a) (by omega)
    obtain ⟨h1, h2⟩ := ih (a + 1) body (body a st) (fun i hi1 hi2 => hbody i (by omega) (by omega))
    have hfl : for_loop body (k + 1) a st = for_loop body k (a + 1) (body a st) := rfl
    rw [hfl]
    have hidx : a + 1 + k = a + (k + 1) := by omega
    rw [hidx] at h1 h2
    constructor
    · have hf : (body a st).1 = st.1 + if (hb c (sel a)).isSome = true then 1 else 0 := by
        rw [hstep, variation_step_fst]
      rw [List.range_succ, List.countP_append, List.countP_singleton, hf] at h1
      split_ifs at h1 <;> omega
    · intro j
      rw [h2 j, hstep, variation_step_snd]
      by_cases hj : j = a
      · subst hj
        have hn : ¬ (j + 1 ≤ j ∧ j < j + (k + 1)) := by omega
        have hp : j ≤ j ∧ j < j + (k + 1) := by omega
        rw [if_neg hn, if_pos hp, Function.update_same]
      · rw [Function.update_noteq hj]
        by_cases hr : a + 1 ≤ j ∧ j < a + (k + 1)
        · have hp : a ≤ j ∧ j < a + (k + 1) := by omega
          rw [if_pos hr, if_pos hp]
        · have hp : ¬ (a ≤ j ∧ j < a + (k + 1)) := by omega
          rw [if_neg hr, if_neg hp]

/-- The two loops return the number of selectors with a glyph and write
every entry 0..255. -/
theorem variation_loops_spec (hb : Int → Nat → Option Nat) (c : Int) (variations : Nat → Nat) :
    (variation_loops hb c variations).1
        = (List.range 256).countP (fun i => (hb c (variation_selector (i + 1))).isSome) ∧
    (∀ N, 1 ≤ N → N ≤ 256 →
      (variation_loops hb c variations).2 (N - 1) = (hb c (variation_selector N)).getD 0) := by
  have hsel1 : ∀ i, 0 ≤ i → i < 0 + 16 →
      (fun (i : Nat) (st : Nat × (Nat → Nat)) => variation_step hb c (0xFE00 + i) i st) i
        = variation_step hb c ((fun i => variation_selector (i + 1)) i) i := by
    intro i _ hi
    have : variation_selector (i + 1) = 0xFE00 + i := by
      unfold variation_selector
      rw [if_pos (by omega)]
      simp
    simp only [this]
  have hsel2 : ∀ i, 16 ≤ i → i < 16 + 240 →
      (fun (i : Nat) (st : Nat × (Nat → Nat)) => variation_step hb c (0xE0100 + (i - 16)) i st) i
        = variation_step hb c ((fun i => variation_selector (i + 1)) i) i := by
    intro i hi1 _
    have : variation_selector (i + 1) = 0xE0100 + (i - 16) := by
      unfold variation_selector
      rw [if_neg (by omega)]
      simp
    simp only [this]
  obtain ⟨hA1, hA2⟩ := for_loop_variation hb c (fun i => variation_selector (i + 1)) 16 0
    (fun i st => variation_step hb c (0xFE00 + i) i st) (0, variations) hsel1
  obtain ⟨hB1, hB2⟩ := for_loop_variation hb c (fun i => variation_selector (i + 1)) 240 16
    (fun i st => variation_step hb c (0xE0100 + (i - 16)) i st)
    (for_loop (fun i st => variation_step hb c (0xFE00 + i) i st) 16 0 (0, variations)) hsel2
  constructor
  · unfold variation_loops
    dsimp only
    simp only [List.range_zero, List.countP_nil, Nat.zero_add, Nat.add_zero] at hA1
    have e : (16 : Nat) + 240 = 256 := by norm_num
    rw [e] at hB1
    omega
  · intro N h1 h2
    unfold variation_loops
    dsimp only
    rw [hB2 (N - 1)]
    have e : N - 1 + 1 = N := by omega
    by_cases h16 : 16 ≤ N - 1
    · rw [if_pos ⟨h16, by omega⟩]
      simp only [e]
    · rw [if_neg (by omega), hA2 (N - 1), if_pos ⟨by omega, by omega⟩]
      simp only [e]

/-- C9: `w32hb_get_variation_glyphs` returns the number of the 256 variation
selectors for which `hb_font_get_variation_glyph` succeeds, at most 256; it
writes entry `N - 1` of `variations` for every `N` in 1..256 with the glyph
found for variation selector `N` (U+FE00 + (N-1) up to 16, U+E0100 + (N-17)
from 17), or 0 when that selector has no glyph. -/
theorem w32hb_get_variation_glyphs_spec (o : HbOracle) (cache : Option Nat) (c : Int)
    (variations : Nat → Nat) :
    (w32hb_get_variation_glyphs o cache c variations).n
        = (List.range 256).countP (fun i =>
            (o.hb_font_get_variation_glyph (variation_hb_font o cache) c
              (variation_selector (i + 1))).isSome) ∧
    (w32hb_get_variation_glyphs o cache c variations).n ≤ 256 ∧
    (∀ N, 1 ≤ N → N ≤ 256 →
      (w32hb_get_variation_glyphs o cache c variations).variations (N - 1)
        = (o.hb_font_get_variation_glyph (variation_hb_font o cache) c
            (variation_selector N)).getD 0) ∧
    (∀ N, 1 ≤ N → N ≤ 16 → variation_selector N = 0xFE00 + (N - 1)) ∧
    (∀ N, 17 ≤ N → N ≤ 256 → variation_selector N = 0xE0100 + (N - 17)) := by
  obtain ⟨h1, h2⟩ := variation_loops_spec
    (o.hb_font_get_variation_glyph (variation_hb_font o cache)) c variations
  have hcount : (w32hb_get_variation_glyphs o cache c variations).n
      = (List.range 256).countP (fun i =>
          (o.hb_font_get_variation_glyph (variation_hb_font o cache) c
            (variation_selector (i + 1))).isSome) := h1
  refine ⟨hcount, ?_, h2, ?_, ?_⟩
  · rw [hcount]
    calc (List.range 256).countP (fun i =>
            (o.hb_font_get_variation_glyph (variation_hb_font o cache) c
              (variation_selector (i + 1))).isSome)
        ≤ (List.range 256).length := List.countP_le_length _
      _ = 256 := List.length_range 256
  · intro N _ h2
    unfold variation_selector
    rw [if_pos h2]
  · intro N h1 _
    unfold variation_selector
    rw [if_neg (by omega)]

/-- Witness for C9: the entries of VS1 and VS256 for a font with two variation
glyphs of U+8FBB, and the code points of VS16 and VS17. -/
theorem w32hb_get_variation_glyphs_spec_witness :
    (w32hb_get_variation_glyphs hb_two_variations none 0x8FBB (fun _ => 5)).variations (1 - 1)
        = (hb_two_variations.hb_font_get_variation_glyph
            (variation_hb_font hb_two_variations none) 0x8FBB (variation_selector 1)).getD 0 ∧
    (w32hb_get_variation_glyphs hb_two_variations none 0x8FBB (fun _ => 5)).variations (256 - 1)
        = (hb_two_variations.hb_font_get_variation_glyph
            (variation_hb_font hb_two_variations none) 0x8FBB (variation_selector 256)).getD 0 ∧
    variation_selector 16 = 0xFE00 + (16 - 1) ∧
    variation_selector 17 = 0xE0100 + (17 - 17) :=
  ⟨(w32hb_get_variation_glyphs_spec hb_two_variations none 0x8FBB (fun _ => 5)).2.2.1 1
      (by decide) (by decide),
   (w32hb_get_variation_glyphs_spec hb_two_variations none 0x8FBB (fun _ => 5)).2.2.1 256
      (by decide) (by decide),
   (w32hb_get_variation_glyphs_spec hb_two_variations none 0x8FBB (fun _ => 5)).2.2.2.1 16
      (by decide) (by decide),
   (w32hb_get_variation_glyphs_spec hb_two_variations none 0x8FBB (fun _ => 5)).2.2.2.2 17
      (by decide) (by decide)⟩

/-! ## uniscribe_otf_capability -/

/-- C10: `uniscribe_otf_capability` returns the cons of `otf_features` for
"GSUB" and `otf_features` for "GPOS"; when the walk of one table fails on a
read, that slot is nil and the other slot still holds the list of its table;
`Vinhibit_quit`, set to `t` while the tables are read, has its previous value
on return. -/
theorem uniscribe_otf_capability_spec (font : FontOracle) (Vinhibit_quit : LispObject) :
    (uniscribe_otf_capability font Vinhibit_quit).capability
        = LispObject.cons (otf_features font str_GSUB) (otf_features font str_GPOS) ∧
    (uniscribe_otf_capability font Vinhibit_quit).Vinhibit_quit = Vinhibit_quit ∧
    (∀ gsub, OTF_TAG str_GSUB = some gsub → otf_features_walk font gsub = none →
      ∀ gpos l, OTF_TAG str_GPOS = some gpos → otf_features_walk font gpos = some l →
      (uniscribe_otf_capability font Vinhibit_quit).capability
        = LispObject.cons LispObject.nil l) ∧
    (∀ gpos, OTF_TAG str_GPOS = some gpos → otf_features_walk font gpos = none →
      ∀ gsub l, OTF_TAG str_GSUB = some gsub → otf_features_walk font gsub = some l →
      (uniscribe_otf_capability font Vinhibit_quit).capability
        = LispObject.cons l LispObject.nil) := by
  refine ⟨rfl, rfl, ?_, ?_⟩
  · intro gsub hg hw gpos l hp hl
    simp [uniscribe_otf_capability, otf_features, hg, hw, hp, hl, XCAR, XCDR]
  · intro gpos hp hw gsub l hg hl
    simp [uniscribe_otf_capability, otf_features, hg, hw, hp, hl, XCAR, XCDR]

/-- Witness for C10: a font whose GSUB table cannot be read past its header
and whose GPOS table lists `latn` with `kern`. -/
theorem uniscribe_otf_capability_spec_witness :
    otf_features_walk font_broken_gsub 0x42555347 = none ∧
    (uniscribe_otf_capability font_broken_gsub Qt).capability
      = LispObject.cons LispObject.nil
          (lisp_list [LispObject.cons sym_latn
            (lisp_list [LispObject.cons LispObject.nil (lisp_list [sym_kern])])]) :=
  ⟨by decide,
   (uniscribe_otf_capability_spec font_broken_gsub Qt).2.2.1 0x42555347 (by decide) (by decide)
      0x534f5047 _ (by decide) (by decide)⟩


/-! ## uniscribe_shape -/

/-- The loop around `ScriptItemize` ends at the first `max_items` for which
the call does not report `E_OUTOFMEMORY`, given enough fuel. -/
theorem itemize_loop_first (o : ShapeOracle) (chars : Nat → Nat) (nchars : Nat) :
    ∀ (k fuel m : Nat), k < fuel →
      (∀ j, j < k → (o.ScriptItemize chars nchars (m + j)).result = E_OUTOFMEMORY) →
      (o.ScriptItemize chars nchars (m + k)).result ≠ E_OUTOFMEMORY →
      itemize_loop o chars nchars fuel m = some (m + k, o.ScriptItemize chars nchars (m + k)) := by
  intro k
  induction k with
  | zero =>
    intro fuel m hf _ hk
    obtain ⟨f, rfl⟩ : ∃ f, fuel = f + 1 := ⟨fuel - 1, by omega⟩
    simp only [Nat.add_zero] at hk ⊢
    simp [itemize_loop, hk]
  | succ k ih =>
    intro fuel m hf hoom hk
    obtain ⟨f, rfl⟩ : ∃ f, fuel = f + 1 := ⟨fuel - 1, by omega⟩
    have h0 : (o.ScriptItemize chars nchars m).result = E_OUTOFMEMORY := by
      simpa using hoom 0 (by omega)
    have hstep := ih f (m + 1) (by omega)
      (fun j hj => by
        have := hoom (j + 1) (by omega)
        rwa [show m + (j + 1) = m + 1 + j by omega] at this)
      (by rwa [show m + (k + 1) = m + 1 + k by omega] at hk)
    rw [show m + 1 + k = m + (k + 1) by omega] at hstep
    simp [itemize_loop, h0, hstep]

theorem sum_nglyphs_append (l : List ShapeOut) (sh : ShapeOut) :
    sum_nglyphs (l ++ [sh]) = sum_nglyphs l + sh.nglyphs := by
  induction l with
  | nil => simp [sum_nglyphs]
  | cons a l ih => simp [sum_nglyphs, ih, Nat.add_assoc]

theorem FAILED_E_OUTOFMEMORY : FAILED E_OUTOFMEMORY = true := by decide

theorem run_shaped_not_oom (sh : ShapeOut) (h : run_shaped sh = true) :
    sh.result ≠ E_OUTOFMEMORY := by
  intro he
  unfold run_shaped at h
  rw [he, FAILED_E_OUTOFMEMORY] at h
  simp at h

theorem any_oom_of_all_shaped (l : List ShapeOut) (h : ∀ sh ∈ l, run_shaped sh = true) :
    l.any (fun sh => decide (sh.result = E_OUTOFMEMORY)) = false := by
  rw [List.any_eq_false]
  intro sh hsh
  simpa using run_shaped_not_oom sh (h sh hsh)

theorem takeWhile_all_shaped (l : List ShapeOut) (h : ∀ sh ∈ l, run_shaped sh = true) :
    l.takeWhile run_shaped = l := by
  induction l with
  | nil => rfl
  | cons a l ih =>
    have ha := h a (by simp)
    rw [List.takeWhile_cons, ha]
    simp only [if_true]
    rw [ih (fun sh hsh => h sh (by simp [hsh]))]

theorem takeWhile_shaped_append (l : List ShapeOut) (sh : ShapeOut)
    (h : ∀ x ∈ l, run_shaped x = true) (hsh : run_shaped sh = false) :
    (l ++ [sh]).takeWhile run_shaped = l := by
  induction l with
  | nil => simp [List.takeWhile_cons, hsh]
  | cons a l ih =>
    have ha := h a (by simp)
    rw [List.cons_append, List.takeWhile_cons, ha]
    simp only [if_true]
    rw [ih (fun x hx => h x (by simp [hx]))]

/-- The value of the specification once every run attempted so far went
through. -/
theorem shape_value_spec_all_shaped (l : List ShapeOut) (h : ∀ sh ∈ l, run_shaped sh = true) :
    shape_value_spec l = LispObject.fixnum (sum_nglyphs l : Int) := by
  unfold shape_value_spec
  rw [any_oom_of_all_shaped l h, takeWhile_all_shaped l h]
  simp

/-- The run loop of `uniscribe_shape` leaves `lgstring` nil or `done_glyphs`
as the specification computes them from the `ScriptShape` results logged. -/
theorem shape_runs_value (o : ShapeOracle) (font_ascent font_descent : Int) (chars : Nat → Nat)
    (items : ItemizeOut) :
    ∀ (fuel i : Nat) (st : ShapeState), st.lgstring_nil = false →
      (∀ sh ∈ st.shaped, run_shaped sh = true) →
      st.done_glyphs = sum_nglyphs st.shaped →
      (if (shape_runs o font_ascent font_descent chars items fuel i st).lgstring_nil = true
        then LispObject.nil
        else LispObject.fixnum
          ((shape_runs o font_ascent font_descent chars items fuel i st).done_glyphs : Int))
        = shape_value_spec (shape_runs o font_ascent font_descent chars items fuel i st).shaped := by
  intro fuel
  induction fuel with
  | zero =>
    intro i st hnil hall hsum
    simp only [shape_runs, hnil, Bool.false_eq_true, if_false]
    rw [shape_value_spec_all_shaped _ hall, hsum]
  | succ fuel ih =>
    intro i st hnil hall hsum
    unfold shape_runs
    dsimp only
    generalize (call_with_dc o.get_frame_dc ShapeOut.result (o.ScriptShape i) st.dc) = shape
    by_cases h1 : shape.1.result = E_OUTOFMEMORY
    · rw [if_pos h1]
      simp only [if_true]
      unfold shape_value_spec
      have : (st.shaped ++ [shape.1]).any (fun sh => decide (sh.result = E_OUTOFMEMORY)) = true := by
        rw [List.any_append]
        simp [h1]
      rw [this]
      simp
    · rw [if_neg h1]
      by_cases h2 : FAILED shape.1.result = true
      · rw [if_pos h2]
        simp only [hnil, Bool.false_eq_true, if_false]
        have hbad : run_shaped shape.1 = false := by simp [run_shaped, h2]
        unfold shape_value_spec
        have hany : (st.shaped ++ [shape.1]).any (fun sh => decide (sh.result = E_OUTOFMEMORY))
            = false := by
          rw [List.any_append, any_oom_of_all_shaped _ hall]
          simp [h1]
        rw [hany, takeWhile_shaped_append _ _ hall hbad, hsum]
        simp
      · rw [if_neg h2]
        by_cases h3 : shape.1.fNoGlyphIndex = true
        · rw [if_pos h3]
          simp only [hnil, Bool.false_eq_true, if_false]
          have hbad : run_shaped shape.1 = false := by simp [run_shaped, h3]
          unfold shape_value_spec
          have hany : (st.shaped ++ [shape.1]).any (fun sh => decide (sh.result = E_OUTOFMEMORY))
              = false := by
            rw [List.any_append, any_oom_of_all_shaped _ hall]
            simp [h1]
          rw [hany, takeWhile_shaped_append _ _ hall hbad, hsum]
          simp
        · rw [if_neg h3]
          have hgood : run_shaped shape.1 = true := by
            simp only [run_shaped, Bool.and_eq_true, Bool.not_eq_true']
            exact ⟨by simpa using h2, by simpa using h3⟩
          apply ih
          · exact hnil
          · intro sh hsh
            rcases List.mem_append.mp hsh with h | h
            · exact hall sh h
            · rw [List.mem_singleton.mp h]; exact hgood
          · show st.done_glyphs + shape.1.nglyphs = sum_nglyphs (st.shaped ++ [shape.1])
            rw [sum_nglyphs_append, hsum]

/-- The log of the run loop holds, at position `k`, a result of `ScriptShape`
for run `k`, and has at most one entry per run. -/
theorem shape_runs_shaped (o : ShapeOracle) (font_ascent font_descent : Int) (chars : Nat → Nat)
    (items : ItemizeOut) :
    ∀ (fuel i : Nat) (st : ShapeState), st.shaped.length = i →
      (∀ k sh, st.shaped.get? k = some sh →
        sh = o.ScriptShape k false ∨ sh = o.ScriptShape k true) →
      (shape_runs o font_ascent font_descent chars items fuel i st).shaped.length ≤ i + fuel ∧
      (∀ k sh, (shape_runs o font_ascent font_descent chars items fuel i st).shaped.get? k = some sh →
        sh = o.ScriptShape k false ∨ sh = o.ScriptShape k true) := by
  intro fuel
  induction fuel with
  | zero =>
    intro i st hlen hlog
    exact ⟨by simp [shape_runs, hlen], by simpa [shape_runs] using hlog⟩
  | succ fuel ih =>
    intro i st hlen hlog
    have hcall : (call_with_dc o.get_frame_dc ShapeOut.result (o.ScriptShape i) st.dc).1
          = o.ScriptShape i false ∨
        (call_with_dc o.get_frame_dc ShapeOut.result (o.ScriptShape i) st.dc).1
          = o.ScriptShape i true := by
      unfold call_with_dc
      split_ifs
      · right; rfl
      · left; rfl
    have hext : ∀ k sh,
        (st.shaped ++ [(call_with_dc o.get_frame_dc ShapeOut.result (o.ScriptShape i) st.dc).1]).get? k
          = some sh → sh = o.ScriptShape k false ∨ sh = o.ScriptShape k true := by
      intro k sh hk
      by_cases hlt : k < st.shaped.length
      · rw [List.get?_eq_getElem?, List.getElem?_append_left hlt, ← List.get?_eq_getElem?] at hk
        exact hlog k sh hk
      · have hk2 : k = i := by
          have hsome : k < (st.shaped ++
              [(call_with_dc o.get_frame_dc ShapeOut.result (o.ScriptShape i) st.dc).1]).length := by
            by_contra hge
            rw [List.get?_eq_none.mpr (by omega)] at hk
            exact Option.noConfusion hk
          simp only [List.length_append, List.length_singleton] at hsome
          omega
        subst hk2
        rw [List.get?_eq_getElem?, List.getElem?_append_right (by omega), hlen] at hk
        simp only [Nat.sub_self, List.getElem?_cons_zero, Option.some.injEq] at hk
        rw [← hk]
        exact hcall
    have hlen2 : (st.shaped ++
        [(call_with_dc o.get_frame_dc ShapeOut.result (o.ScriptShape i) st.dc).1]).length = i + 1 := by
      simp [hlen]
    unfold shape_runs
    dsimp only
    split_ifs
    · exact ⟨by rw [hlen2]; omega, hext⟩
    · exact ⟨by rw [hlen2]; omega, hext⟩
    · exact ⟨by rw [hlen2]; omega, hext⟩
    · rw [show i + (fuel + 1) = i + 1 + fuel by omega]
      exact ih (i + 1) _ hlen2 hext
    · rw [show i + (fuel + 1) = i + 1 + fuel by omega]
      exact ih (i + 1) _ hlen2 hext

theorem shape_runs_break (o : ShapeOracle) (font_ascent font_descent : Int) (chars : Nat → Nat)
    (items : ItemizeOut) (fuel i : Nat) (st : ShapeState)
    (h : run_shaped (call_with_dc o.get_frame_dc ShapeOut.result (o.ScriptShape i) st.dc).1
      = false) :
    shape_runs o font_ascent font_descent chars items (fuel + 1) i st =
      { st with
        lgstring_nil := st.lgstring_nil ||
          decide ((call_with_dc o.get_frame_dc ShapeOut.result (o.ScriptShape i) st.dc).1.result
            = E_OUTOFMEMORY)
        dc := (call_with_dc o.get_frame_dc ShapeOut.result (o.ScriptShape i) st.dc).2
        shaped := st.shaped ++
          [(call_with_dc o.get_frame_dc ShapeOut.result (o.ScriptShape i) st.dc).1] } := by
  unfold shape_runs
  dsimp only
  generalize (call_with_dc o.get_frame_dc ShapeOut.result (o.ScriptShape i) st.dc) = shape at h ⊢
  by_cases h1 : shape.1.result = E_OUTOFMEMORY
  · rw [if_pos h1]
    simp [h1]
  · rw [if_neg h1]
    have hd : decide (shape.1.result = E_OUTOFMEMORY) = false := by simpa using h1
    rw [hd, Bool.or_false]
    by_cases h2 : FAILED shape.1.result = true
    · rw [if_pos h2]
    · rw [if_neg h2]
      by_cases h3 : shape.1.fNoGlyphIndex = true
      · rw [if_pos h3]
      · exfalso
        simp [run_shaped] at h
        simp at h2 h3
        rw [h h2] at h3
        exact Bool.noConfusion h3

theorem shape_runs_shaped_step (o : ShapeOracle) (font_ascent font_descent : Int)
    (chars : Nat → Nat) (items : ItemizeOut) (fuel i : Nat) (st : ShapeState)
    (h : run_shaped (call_with_dc o.get_frame_dc ShapeOut.result (o.ScriptShape i) st.dc).1
      = true) :
    shape_runs o font_ascent font_descent chars items (fuel + 1) i st =
        shape_runs o font_ascent font_descent chars items fuel (i + 1)
          (shape_runs o font_ascent font_descent chars items 1 i st) ∧
    (shape_runs o font_ascent font_descent chars items 1 i st).done_glyphs =
        st.done_glyphs +
          (call_with_dc o.get_frame_dc ShapeOut.result (o.ScriptShape i) st.dc).1.nglyphs ∧
    (shape_runs o font_ascent font_descent chars items 1 i st).lgstring_nil = st.lgstring_nil ∧
    (shape_runs o font_ascent font_descent chars items 1 i st).shaped =
        st.shaped ++ [(call_with_dc o.get_frame_dc ShapeOut.result (o.ScriptShape i) st.dc).1] := by
  have h1 : (call_with_dc o.get_frame_dc ShapeOut.result (o.ScriptShape i) st.dc).1.result
      ≠ E_OUTOFMEMORY := run_shaped_not_oom _ h
  have h2 : ¬ FAILED (call_with_dc o.get_frame_dc ShapeOut.result (o.ScriptShape i) st.dc).1.result
      = true := by
    simp [run_shaped] at h
    simp [h.1]
  have h3 : ¬ (call_with_dc o.get_frame_dc ShapeOut.result (o.ScriptShape i) st.dc).1.fNoGlyphIndex
      = true := by
    simp [run_shaped] at h
    simp [h.2]
  have hstep : ∀ f, shape_runs o font_ascent font_descent chars items (f + 1) i st =
      shape_runs o font_ascent font_descent chars items f (i + 1)
        (shape_runs o font_ascent font_descent chars items 1 i st) := by
    intro f
    rw [shape_runs.eq_2, shape_runs.eq_2]
    dsimp only
    rw [if_neg h1, if_neg h2, if_neg h3, if_neg h1, if_neg h2, if_neg h3]
    rfl
  have hone : shape_runs o font_ascent font_descent chars items 1 i st =
      { done_glyphs := st.done_glyphs +
          (call_with_dc o.get_frame_dc ShapeOut.result (o.ScriptShape i) st.dc).1.nglyphs
        lgstring_nil := st.lgstring_nil
        dc := (shape_runs o font_ascent font_descent chars items 1 i st).dc
        lgstring := (shape_runs o font_ascent font_descent chars items 1 i st).lgstring
        shaped := st.shaped ++
          [(call_with_dc o.get_frame_dc ShapeOut.result (o.ScriptShape i) st.dc).1] } := by
    rw [shape_runs.eq_2]
    dsimp only
    rw [if_neg h1, if_neg h2, if_neg h3]
    rfl
  refine ⟨hstep fuel, ?_, ?_, ?_⟩
  · rw [hone]
  · rw [hone]
  · rw [hone]

theorem sum_nglyphs_cons_map (f : Nat → ShapeOut) (m : Nat) :
    sum_nglyphs ((List.range (m + 1)).map f)
      = (f 0).nglyphs + sum_nglyphs ((List.range m).map (fun t => f (t + 1))) := by
  rw [List.range_succ_eq_map, List.map_cons, List.map_map]
  rfl

/-- The run loop, run by run: entered at iteration `i` in state `st` with
`fuel` runs left, it goes through the runs up to the first one, `m`, whose
`ScriptShape` result is a failure or has `fNoGlyphIndex` set (all of them when
`m = fuel`), adds their `nglyphs` to `done_glyphs`, sets `lgstring` to nil
exactly when run `m` reported `E_OUTOFMEMORY`, and logs the results of the
runs up to and including `m`. -/
theorem shape_runs_by_runs (o : ShapeOracle) (font_ascent font_descent : Int)
    (chars : Nat → Nat) (items : ItemizeOut) :
    ∀ (fuel i : Nat) (st : ShapeState), ∃ m, m ≤ fuel ∧
      (∀ t, t < m →
        run_shaped (shape_result_at o font_ascent font_descent chars items i st t) = true) ∧
      (m < fuel →
        run_shaped (shape_result_at o font_ascent font_descent chars items i st m) = false) ∧
      (shape_runs o font_ascent font_descent chars items fuel i st).done_glyphs
        = st.done_glyphs + sum_nglyphs
            ((List.range m).map (shape_result_at o font_ascent font_descent chars items i st)) ∧
      (shape_runs o font_ascent font_descent chars items fuel i st).lgstring_nil
        = (st.lgstring_nil || (decide (m < fuel) &&
            decide ((shape_result_at o font_ascent font_descent chars items i st m).result
              = E_OUTOFMEMORY))) ∧
      (shape_runs o font_ascent font_descent chars items fuel i st).shaped
        = st.shaped ++ (List.range (if m < fuel then m + 1 else m)).map
            (shape_result_at o font_ascent font_descent chars items i st) := by
  intro fuel
  induction fuel with
  | zero =>
    intro i st
    refine ⟨0, Nat.le_refl 0, fun t ht => absurd ht (Nat.not_lt_zero t),
      fun h => absurd h (Nat.lt_irrefl 0), ?_, ?_, ?_⟩
    · simp [shape_runs, sum_nglyphs]
    · simp [shape_runs]
    · simp [shape_runs]
  | succ fuel ih =>
    intro i st
    have h0 : shape_result_at o font_ascent font_descent chars items i st 0
        = (call_with_dc o.get_frame_dc ShapeOut.result (o.ScriptShape i) st.dc).1 := rfl
    by_cases hs : run_shaped (call_with_dc o.get_frame_dc ShapeOut.result (o.ScriptShape i) st.dc).1
        = true
    · obtain ⟨hstep, hdone, hnil, hlog⟩ :=
        shape_runs_shaped_step o font_ascent font_descent chars items fuel i st hs
      have hR : ∀ t, shape_result_at o font_ascent font_descent chars items i st (t + 1)
          = shape_result_at o font_ascent font_descent chars items (i + 1)
              (shape_runs o font_ascent font_descent chars items 1 i st) t := by
        intro t
        unfold shape_result_at
        rw [(shape_runs_shaped_step o font_ascent font_descent chars items t i st hs).1,
          show i + (t + 1) = i + 1 + t by omega]
      obtain ⟨m, hm, hall, hstop, hd, hn, hl⟩ :=
        ih (i + 1) (shape_runs o font_ascent font_descent chars items 1 i st)
      refine ⟨m + 1, Nat.succ_le_succ hm, ?_, ?_, ?_, ?_, ?_⟩
      · intro t ht
        cases t with
        | zero => rw [h0]; exact hs
        | succ t => rw [hR]; exact hall t (by omega)
      · intro hlt
        rw [hR]
        exact hstop (by omega)
      · rw [hstep, hd, hdone, sum_nglyphs_cons_map, h0, Nat.add_assoc]
        simp only [hR]
      · rw [hstep, hn, hnil, hR]
        simp only [Nat.add_lt_add_iff_right]
      · rw [hstep, hl, hlog]
        have hif : (if m + 1 < fuel + 1 then m + 1 + 1 else m + 1)
            = (if m < fuel then m + 1 else m) + 1 := by
          by_cases hlt : m < fuel
          · rw [if_pos hlt, if_pos (by omega)]
          · rw [if_neg hlt, if_neg (by omega)]
        rw [hif, List.range_succ_eq_map, List.map_cons, List.map_map, h0, List.append_assoc]
        simp only [List.singleton_append]
        congr 2
        apply List.map_congr_left
        intro t _
        exact (hR t).symm
    · have hs2 : run_shaped
          (call_with_dc o.get_frame_dc ShapeOut.result (o.ScriptShape i) st.dc).1 = false := by
        simpa using hs
      refine ⟨0, Nat.zero_le _, fun t ht => absurd ht (Nat.not_lt_zero t), fun _ => ?_, ?_, ?_, ?_⟩
      · rw [h0]; exact hs2
      · rw [shape_runs_break o font_ascent font_descent chars items fuel i st hs2]
        simp [sum_nglyphs]
      · rw [shape_runs_break o font_ascent font_descent chars items fuel i st hs2, h0]
        simp
      · rw [shape_runs_break o font_ascent font_descent chars items fuel i st hs2]
        simp only [Nat.zero_lt_succ, if_true]
        rw [show List.range (0 + 1) = [0] by rfl, List.map_singleton, h0]

/-- The result the run loop acts on for run `i`, when the loop is entered the
way `uniscribe_shape` enters it. -/
theorem shape_result_at_init (o : ShapeOracle) (font_ascent font_descent : Int)
    (lgstring : List (Option LGlyph)) (items : ItemizeOut) (i : Nat) :
    shape_result_at o font_ascent font_descent (lgstring_chars lgstring) items 0
        (shape_runs_init lgstring) i
      = run_shape_result o font_ascent font_descent lgstring items i := by
  unfold shape_result_at run_shape_result run_loop_dc call_with_dc
  rw [Nat.zero_add]
  by_cases h : (o.ScriptShape i false).result = E_PENDING ∧
      (shape_runs o font_ascent font_descent (lgstring_chars lgstring) items i 0
        (shape_runs_init lgstring)).dc.context = false
  · rw [if_pos h, if_pos h]
  · rw [if_neg h, if_neg h]

/-- C6: once `ScriptItemize` stops reporting `E_OUTOFMEMORY` (at the `k`-th
enlargement of the item buffer, with fuel for it, leaving `items`),
`uniscribe_shape` returns.  It returns nil when `ScriptItemize` failed.
Otherwise let `res i` be the result of `ScriptShape` the code acts on for run
`i` (the retry's when the first call returned `E_PENDING` while no context was
held, else the first call's; no context is held at run 0), and `m` the first
run below `nitems` whose `res m` is a failure or has `fNoGlyphIndex` set
(`m = nitems` when there is none): the value is nil when run `m` exists and
reported `E_OUTOFMEMORY`, and else the fixnum that sums `nglyphs` of `res i`
over the runs `i < m`.  The `ScriptShape` results the call went through are
exactly those of the runs up to and including `m`. -/
theorem uniscribe_shape_value (o : ShapeOracle) (font_ascent font_descent : Int)
    (lgstring : List (Option LGlyph)) (k fuel : Nat) (items : ItemizeOut) (hfuel : k < fuel)
    (hoom : ∀ j, j < k →
      (o.ScriptItemize (lgstring_chars lgstring) (lgstring_nchars lgstring) (2 + j)).result
        = E_OUTOFMEMORY)
    (hk : (o.ScriptItemize (lgstring_chars lgstring) (lgstring_nchars lgstring) (2 + k)).result
        ≠ E_OUTOFMEMORY)
    (hitems : o.ScriptItemize (lgstring_chars lgstring) (lgstring_nchars lgstring) (2 + k)
        = items) :
    ∃ r, uniscribe_shape o font_ascent font_descent lgstring fuel = some r ∧
      (FAILED items.result = true → r.value = LispObject.nil) ∧
      (FAILED items.result = false →
        ∃ m, m ≤ items.nitems ∧
          (∀ i, i < m →
            run_shaped (run_shape_result o font_ascent font_descent lgstring items i) = true) ∧
          (m < items.nitems →
            run_shaped (run_shape_result o font_ascent font_descent lgstring items m) = false) ∧
          r.value =
            (if m < items.nitems ∧
                (run_shape_result o font_ascent font_descent lgstring items m).result
                  = E_OUTOFMEMORY
             then LispObject.nil
             else LispObject.fixnum
               (sum_nglyphs ((List.range m).map
                 (run_shape_result o font_ascent font_descent lgstring items)) : Int)) ∧
          r.shaped = (List.range (if m < items.nitems then m + 1 else m)).map
            (run_shape_result o font_ascent font_descent lgstring items) ∧
          r.value = shape_value_spec r.shaped) ∧
      (run_loop_dc o font_ascent font_descent lgstring items 0).context = false := by
  have hloop := itemize_loop_first o (lgstring_chars lgstring) (lgstring_nchars lgstring)
    k fuel 2 hfuel hoom hk
  rw [hitems] at hloop
  unfold uniscribe_shape
  simp only [hloop]
  by_cases hf : FAILED items.result = true
  · rw [if_pos hf]
    refine ⟨_, rfl, fun _ => rfl, ?_, rfl⟩
    intro h
    rw [hf] at h
    exact absurd h (by simp)
  · rw [if_neg hf]
    refine ⟨_, rfl, fun h => absurd h hf, fun _ => ?_, rfl⟩
    have hfun : shape_result_at o font_ascent font_descent (lgstring_chars lgstring) items 0
          (shape_runs_init lgstring)
        = run_shape_result o font_ascent font_descent lgstring items :=
      funext (shape_result_at_init o font_ascent font_descent lgstring items)
    obtain ⟨m, hm, hall, hstop, hd, hn, hl⟩ :=
      shape_runs_by_runs o font_ascent font_descent (lgstring_chars lgstring) items
        items.nitems 0 (shape_runs_init lgstring)
    rw [hfun] at hall hstop hd hn hl
    have hval := shape_runs_value o font_ascent font_descent (lgstring_chars lgstring) items
      items.nitems 0 (shape_runs_init lgstring) rfl (by intro sh hsh; cases hsh) rfl
    refine ⟨m, hm, hall, hstop, ?_, ?_, hval⟩
    · show (if (shape_runs o font_ascent font_descent (lgstring_chars lgstring) items
            items.nitems 0 (shape_runs_init lgstring)).lgstring_nil = true
          then LispObject.nil
          else LispObject.fixnum
            ((shape_runs o font_ascent font_descent (lgstring_chars lgstring) items
              items.nitems 0 (shape_runs_init lgstring)).done_glyphs : Int)) = _
      rw [hn, hd]
      by_cases hc : m < items.nitems ∧
          (run_shape_result o font_ascent font_descent lgstring items m).result = E_OUTOFMEMORY
      · rw [if_pos hc]
        simp [shape_runs_init, hc.1, hc.2]
      · rw [if_neg hc]
        have hb : (decide (m < items.nitems) &&
            decide ((run_shape_result o font_ascent font_descent lgstring items m).result
              = E_OUTOFMEMORY)) = false := by
          rw [Bool.and_eq_false_iff]
          by_cases h1 : m < items.nitems
          · right
            simpa using fun h2 => hc ⟨h1, h2⟩
          · left
            simpa using h1
        rw [hb]
        simp [shape_runs_init]
    · show (shape_runs o font_ascent font_descent (lgstring_chars lgstring) items
          items.nitems 0 (shape_runs_init lgstring)).shaped = _
      rw [hl]
      simp [shape_runs_init]

/-- Witness for C6: `ScriptItemize` reports `E_OUTOFMEMORY` once, then three
runs; run 0 is shaped, run 1 fails, and the value is the fixnum 1.  Two runs
of one glyph each that are both shaped give the fixnum 2. -/
theorem uniscribe_shape_value_witness :
    (uniscribe_shape shape_oracle_three_runs 10 3 lgstring_abc 2).map ShapeResult.value
        = some (LispObject.fixnum 1) ∧
    (uniscribe_shape (shape_oracle_two_runs 1 1) 10 3 lgstring_two_chars 2).map
        ShapeResult.value = some (LispObject.fixnum 2) ∧
    ∃ r, uniscribe_shape shape_oracle_three_runs 10 3 lgstring_abc 2 = some r ∧
      (FAILED (shape_oracle_three_runs.ScriptItemize (lgstring_chars lgstring_abc)
          (lgstring_nchars lgstring_abc) (2 + 1)).result = true → r.value = LispObject.nil) ∧
      (FAILED (shape_oracle_three_runs.ScriptItemize (lgstring_chars lgstring_abc)
          (lgstring_nchars lgstring_abc) (2 + 1)).result = false →
        ∃ m, m ≤ (shape_oracle_three_runs.ScriptItemize (lgstring_chars lgstring_abc)
            (lgstring_nchars lgstring_abc) (2 + 1)).nitems ∧
          (∀ i, i < m →
            run_shaped (run_shape_result shape_oracle_three_runs 10 3 lgstring_abc
              (shape_oracle_three_runs.ScriptItemize (lgstring_chars lgstring_abc)
                (lgstring_nchars lgstring_abc) (2 + 1)) i) = true) ∧
          (m < (shape_oracle_three_runs.ScriptItemize (lgstring_chars lgstring_abc)
              (lgstring_nchars lgstring_abc) (2 + 1)).nitems →
            run_shaped (run_shape_result shape_oracle_three_runs 10 3 lgstring_abc
              (shape_oracle_three_runs.ScriptItemize (lgstring_chars lgstring_abc)
                (lgstring_nchars lgstring_abc) (2 + 1)) m) = false) ∧
          r.value =
            (if m < (shape_oracle_three_runs.ScriptItemize (lgstring_chars lgstring_abc)
                  (lgstring_nchars lgstring_abc) (2 + 1)).nitems ∧
                (run_shape_result shape_oracle_three_runs 10 3 lgstring_abc
                  (shape_oracle_three_runs.ScriptItemize (lgstring_chars lgstring_abc)
                    (lgstring_nchars lgstring_abc) (2 + 1)) m).result = E_OUTOFMEMORY
             then LispObject.nil
             else LispObject.fixnum
               (sum_nglyphs ((List.range m).map
                 (run_shape_result shape_oracle_three_runs 10 3 lgstring_abc
                   (shape_oracle_three_runs.ScriptItemize (lgstring_chars lgstring_abc)
                     (lgstring_nchars lgstring_abc) (2 + 1)))) : Int)) ∧
          r.shaped = (List.range
              (if m < (shape_oracle_three_runs.ScriptItemize (lgstring_chars lgstring_abc)
                (lgstring_nchars lgstring_abc) (2 + 1)).nitems then m + 1 else m)).map
            (run_shape_result shape_oracle_three_runs 10 3 lgstring_abc
              (shape_oracle_three_runs.ScriptItemize (lgstring_chars lgstring_abc)
                (lgstring_nchars lgstring_abc) (2 + 1))) ∧
          r.value = shape_value_spec r.shaped) ∧
      (run_loop_dc shape_oracle_three_runs 10 3 lgstring_abc
        (shape_oracle_three_runs.ScriptItemize (lgstring_chars lgstring_abc)
          (lgstring_nchars lgstring_abc) (2 + 1)) 0).context = false :=
  ⟨by decide, by decide,
   uniscribe_shape_value shape_oracle_three_runs 10 3 lgstring_abc 1 2 _ (by decide)
    (fun j hj => by
      have hj0 : j = 0 := by omega
      subst hj0
      decide)
    (by decide) rfl⟩

/-- C7 (defect in the run loop): for one run that `ScriptShape` turns into two
glyphs and for which `ScriptPlace` fails, `uniscribe_shape` returns the fixnum
2 although no glyph was updated: slot 1 of the LGSTRING is still nil and the
input glyph in slot 0 keeps its nil WIDTH.  With `ScriptPlace` succeeding the
same call fills both slots. -/
theorem uniscribe_shape_place_failure_counts_glyphs :
    (uniscribe_shape (shape_oracle_two_glyphs E_FAIL) 10 3
        [some (input_glyph 0 0x915), none] 1).map (fun r => (r.value, r.lgstring))
      = some (LispObject.fixnum 2, [some (input_glyph 0 0x915), none]) ∧
    (input_glyph 0 0x915).WIDTH = none ∧
    (uniscribe_shape (shape_oracle_two_glyphs S_OK) 10 3
        [some (input_glyph 0 0x915), none] 1).map (fun r => (r.value, r.lgstring))
      = some (LispObject.fixnum 2,
          [some { FROM := some 0, TO := some 0, CHAR := some 0x915, CODE := some 40,
                  WIDTH := some 8, LBEARING := some 1, RBEARING := some 7, ASCENT := some 10,
                  DESCENT := some 3, ADJUSTMENT := none },
           some { FROM := some 0, TO := some 0, CHAR := some 0x915, CODE := some 41,
                  WIDTH := some 8, LBEARING := some 1, RBEARING := some 7, ASCENT := some 10,
                  DESCENT := some 3, ADJUSTMENT := none }]) :=
  ⟨by decide, by decide, by decide⟩

/-! ## w32hb_encode_char -/

/-- C13: `w32hb_encode_char` returns the DirectWrite code exactly when
DirectWrite is in use both before and after `w32_dwrite_encode_char`, leaving
the cache alone.  Otherwise it uses HarfBuzz: `w32hb_get_font` is called
exactly when the cache is empty; when it yields no font the code is
`FONT_INVALID_CODE` and the cache stays empty; with a font (cached before, or
created and cached now) the code is the nominal glyph, or
`FONT_INVALID_CODE` when `hb_font_get_nominal_glyph` fails. -/
theorem w32hb_encode_char_spec (o : HbEncodeOracle) (cache : Option Nat) (c : Int) :
    ((w32hb_encode_char o cache c).returned_encoded = true ↔
      (o.w32_use_direct_write = true ∧ (o.w32_dwrite_encode_char c).2 = true)) ∧
    ((w32hb_encode_char o cache c).returned_encoded = true →
      (w32hb_encode_char o cache c).code = (o.w32_dwrite_encode_char c).1 ∧
      (w32hb_encode_char o cache c).cache = cache ∧
      (w32hb_encode_char o cache c).get_font_called = false) ∧
    ((w32hb_encode_char o cache c).returned_encoded = false →
      ((w32hb_encode_char o cache c).get_font_called = true ↔ cache = none) ∧
      (cache = none → o.w32hb_get_font = none →
        (w32hb_encode_char o cache c).code = FONT_INVALID_CODE ∧
        (w32hb_encode_char o cache c).cache = none) ∧
      (∀ hb_font, (cache = some hb_font ∨ (cache = none ∧ o.w32hb_get_font = some hb_font)) →
        (w32hb_encode_char o cache c).cache = some hb_font ∧
        (o.hb_font_get_nominal_glyph hb_font c = none →
          (w32hb_encode_char o cache c).code = FONT_INVALID_CODE) ∧
        (∀ glyph, o.hb_font_get_nominal_glyph hb_font c = some glyph →
          (w32hb_encode_char o cache c).code = glyph))) := by
  have hhb : (w32hb_encode_char_hb o cache c).returned_encoded = false := by
    unfold w32hb_encode_char_hb
    repeat' split
    all_goals rfl
  have hbody : (w32hb_encode_char_hb o cache c).returned_encoded = false →
      ((w32hb_encode_char_hb o cache c).get_font_called = true ↔ cache = none) ∧
      (cache = none → o.w32hb_get_font = none →
        (w32hb_encode_char_hb o cache c).code = FONT_INVALID_CODE ∧
        (w32hb_encode_char_hb o cache c).cache = none) ∧
      (∀ hb_font, (cache = some hb_font ∨ (cache = none ∧ o.w32hb_get_font = some hb_font)) →
        (w32hb_encode_char_hb o cache c).cache = some hb_font ∧
        (o.hb_font_get_nominal_glyph hb_font c = none →
          (w32hb_encode_char_hb o cache c).code = FONT_INVALID_CODE) ∧
        (∀ glyph, o.hb_font_get_nominal_glyph hb_font c = some glyph →
          (w32hb_encode_char_hb o cache c).code = glyph)) := by
    intro _
    cases cache with
    | some h =>
      refine ⟨?_, fun h0 => Option.noConfusion h0, ?_⟩
      · cases hg : o.hb_font_get_nominal_glyph h c <;> simp [w32hb_encode_char_hb, hg]
      · intro hb_font hor
        rcases hor with h1 | ⟨h1, _⟩
        · cases h1
          cases hg : o.hb_font_get_nominal_glyph h c <;> simp [w32hb_encode_char_hb, hg]
        · cases h1
    | none =>
      cases hf : o.w32hb_get_font with
      | none =>
        refine ⟨by simp [w32hb_encode_char_hb, hf], fun _ _ => by simp [w32hb_encode_char_hb, hf],
          ?_⟩
        intro hb_font hor
        rcases hor with h1 | ⟨_, h2⟩
        · cases h1
        · cases h2
      | some h =>
        refine ⟨?_, fun _ h0 => Option.noConfusion h0, ?_⟩
        · cases hg : o.hb_font_get_nominal_glyph h c <;> simp [w32hb_encode_char_hb, hf, hg]
        · intro hb_font hor
          rcases hor with h1 | ⟨_, h2⟩
          · cases h1
          · cases h2
            cases hg : o.hb_font_get_nominal_glyph h c <;> simp [w32hb_encode_char_hb, hf, hg]
  unfold w32hb_encode_char
  by_cases h1 : o.w32_use_direct_write = true
  · by_cases h2 : (o.w32_dwrite_encode_char c).2 = true
    · rw [if_pos h1, if_pos h2]
      exact ⟨⟨fun _ => ⟨h1, h2⟩, fun _ => rfl⟩, fun _ => ⟨rfl, rfl, rfl⟩,
        fun h => Bool.noConfusion h⟩
    · rw [if_pos h1, if_neg h2]
      refine ⟨?_, ?_, hbody⟩
      · rw [hhb]
        exact ⟨fun h => Bool.noConfusion h, fun h => absurd h.2 h2⟩
      · intro h; rw [hhb] at h; exact Bool.noConfusion h
  · rw [if_neg h1]
    refine ⟨?_, ?_, hbody⟩
    · rw [hhb]
      exact ⟨fun h => Bool.noConfusion h, fun h => absurd h.1 h1⟩
    · intro h; rw [hhb] at h; exact Bool.noConfusion h

/-- Witness for C13: DirectWrite in use throughout returns its code 7;
DirectWrite disabled by the attempt falls back to HarfBuzz, which creates and
caches font 1 and returns glyph 65; a font that cannot be created gives
`FONT_INVALID_CODE` and leaves the cache empty. -/
theorem w32hb_encode_char_spec_witness :
    ((w32hb_encode_char (hb_encode_oracle true 7 true true) none 0x41).code = 7 ∧
      (w32hb_encode_char (hb_encode_oracle true 7 true true) none 0x41).cache = none ∧
      (w32hb_encode_char (hb_encode_oracle true 7 true true) none 0x41).get_font_called = false) ∧
    ((w32hb_encode_char (hb_encode_oracle true 7 false true) none 0x41).cache = some 1 ∧
      ((hb_encode_oracle true 7 false true).hb_font_get_nominal_glyph 1 0x41 = none →
        (w32hb_encode_char (hb_encode_oracle true 7 false true) none 0x41).code
          = FONT_INVALID_CODE) ∧
      (∀ glyph, (hb_encode_oracle true 7 false true).hb_font_get_nominal_glyph 1 0x41
          = some glyph →
        (w32hb_encode_char (hb_encode_oracle true 7 false true) none 0x41).code = glyph)) ∧
    ((w32hb_encode_char (hb_encode_oracle false 7 false false) none 0x41).code
        = FONT_INVALID_CODE ∧
      (w32hb_encode_char (hb_encode_oracle false 7 false false) none 0x41).cache = none) :=
  ⟨(w32hb_encode_char_spec (hb_encode_oracle true 7 true true) none 0x41).2.1 (by decide),
   ((w32hb_encode_char_spec (hb_encode_oracle true 7 false true) none 0x41).2.2
      (by decide)).2.2 1 (Or.inr ⟨rfl, by decide⟩),
   ((w32hb_encode_char_spec (hb_encode_oracle false 7 false false) none 0x41).2.2
      (by decide)).2.1 rfl (by decide)⟩


/-! ## otf_features -/

theorem INT16_VAL_isSome (font : FontOracle) (tbl offset : Nat) :
    (OTF_INT16_VAL font tbl offset).isSome = read_returns font tbl offset 2 := by
  unfold OTF_INT16_VAL read_returns
  cases font.GetFontData tbl offset 2 with
  | none => rfl
  | some l =>
    match l with
    | [] => rfl
    | [_] => rfl
    | [_, _] => rfl
    | _ :: _ :: _ :: t => simp

theorem TAG_VAL_isSome (font : FontOracle) (tbl offset : Nat) :
    (OTF_TAG_VAL font tbl offset).isSome = read_returns font tbl offset 4 := by
  unfold OTF_TAG_VAL read_returns
  cases font.GetFontData tbl offset 4 with
  | none => rfl
  | some l =>
    match l with
    | [] => rfl
    | [_] => rfl
    | [_, _] => rfl
    | [_, _, _] => rfl
    | [_, _, _, _] => rfl
    | _ :: _ :: _ :: _ :: _ :: t => simp

theorem LogSound_pure {α : Type} (font : FontOracle) (a : α) :
    LogSound font (pure a : Logged α) (some a) := by
  intro log
  refine ⟨[], by simp [pure, Logged.pure], ?_, ?_, ?_⟩
  · intro r hr; simp at hr
  · intro h; cases h
  · intro _ r hr; simp at hr

theorem LogSound_bind {α β : Type} (font : FontOracle) (x : Logged α) (p : Option α)
    (f : α → Logged β) (g : α → Option β)
    (hx : LogSound font x p) (hf : ∀ a, LogSound font (f a) (g a)) :
    LogSound font (x >>= f) (p >>= g) := by
  intro log
  obtain ⟨new1, h1, hfaith1, hnone1, hsome1⟩ := hx log
  cases p with
  | none =>
    refine ⟨new1, ?_, hfaith1, fun _ => hnone1 rfl, ?_⟩
    · show Logged.bind x f log = _
      simp [Logged.bind, h1]
    · intro h; simp at h
  | some a =>
    obtain ⟨new2, h2, hfaith2, hnone2, hsome2⟩ := hf a (log ++ new1)
    refine ⟨new1 ++ new2, ?_, ?_, ?_, ?_⟩
    · show Logged.bind x f log = _
      simp [Logged.bind, h1, h2, List.append_assoc]
    · intro r hr
      rcases List.mem_append.mp hr with h | h
      · exact hfaith1 r h
      · exact hfaith2 r h
    · intro hn
      obtain ⟨r, hr, hok⟩ := hnone2 (by simpa using hn)
      exact ⟨r, List.mem_append.mpr (Or.inr hr), hok⟩
    · intro hs r hr
      rcases List.mem_append.mp hr with h | h
      · exact hsome1 rfl r h
      · exact hsome2 (by simpa using hs) r h

theorem LogSound_INT16 (font : FontOracle) (tbl offset : Nat) :
    LogSound font (logged_INT16_VAL font tbl offset) (OTF_INT16_VAL font tbl offset) := by
  intro log
  refine ⟨[{ tbl := tbl, offset := offset, n := 2,
             ok := (OTF_INT16_VAL font tbl offset).isSome }], rfl, ?_, ?_, ?_⟩
  · intro r hr
    rw [List.mem_singleton.mp hr]
    exact ⟨INT16_VAL_isSome font tbl offset, Or.inl rfl⟩
  · intro hn
    exact ⟨_, List.mem_singleton.mpr rfl, by simp [hn]⟩
  · intro hs r hr
    rw [List.mem_singleton.mp hr]
    exact hs

theorem LogSound_TAG (font : FontOracle) (tbl offset : Nat) :
    LogSound font (logged_TAG_VAL font tbl offset) (OTF_TAG_VAL font tbl offset) := by
  intro log
  refine ⟨[{ tbl := tbl, offset := offset, n := 4,
             ok := (OTF_TAG_VAL font tbl offset).isSome }], rfl, ?_, ?_, ?_⟩
  · intro r hr
    rw [List.mem_singleton.mp hr]
    exact ⟨TAG_VAL_isSome font tbl offset, Or.inr rfl⟩
  · intro hn
    exact ⟨_, List.mem_singleton.mpr rfl, by simp [hn]⟩
  · intro hs r hr
    rw [List.mem_singleton.mp hr]
    exact hs

theorem LogSound_feature_list (font : FontOracle) (tbl feature_table langsys_table : Nat) :
    ∀ (k : Nat) (feature_list : LispObject),
      LogSound font (logged_feature_list font tbl feature_table langsys_table k feature_list)
        (otf_feature_list font tbl feature_table langsys_table k feature_list) := by
  intro k
  induction k with
  | zero => intro fl; exact LogSound_pure font fl
  | succ k ih =>
    intro fl
    unfold logged_feature_list otf_feature_list
    apply LogSound_bind font _ _ _ _ (LogSound_INT16 font tbl _)
    intro index
    apply LogSound_bind font _ _ _ _ (LogSound_TAG font tbl _)
    intro feature
    exact ih _

theorem LogSound_langsys_list (font : FontOracle) (tbl feature_table script_table : Nat) :
    ∀ (j : Nat) (langsys_list : LispObject),
      LogSound font (logged_langsys_list font tbl feature_table script_table j langsys_list)
        (otf_langsys_list font tbl feature_table script_table j langsys_list) := by
  intro j
  induction j with
  | zero => intro ll; exact LogSound_pure font ll
  | succ j ih =>
    intro ll
    unfold logged_langsys_list otf_langsys_list
    apply LogSound_bind font _ _ _ _ (LogSound_TAG font tbl _)
    intro lang
    apply LogSound_bind font _ _ _ _ (LogSound_INT16 font tbl _)
    intro langsys_table
    apply LogSound_bind font _ _ _ _ (LogSound_INT16 font tbl _)
    intro feature_count
    apply LogSound_bind font _ _ _ _ (LogSound_feature_list font tbl _ _ _ _)
    intro feature_list
    exact ih _

theorem LogSound_script_list (font : FontOracle) (tbl scriptlist_table feature_table : Nat) :
    ∀ (i : Nat) (script_list : LispObject),
      LogSound font (logged_script_list font tbl scriptlist_table feature_table i script_list)
        (otf_script_list font tbl scriptlist_table feature_table i script_list) := by
  intro i
  induction i with
  | zero => intro sl; exact LogSound_pure font sl
  | succ i ih =>
    intro sl
    unfold logged_script_list otf_script_list
    apply LogSound_bind font _ _ _ _ (LogSound_TAG font tbl _)
    intro script
    apply LogSound_bind font _ _ _ _ (LogSound_INT16 font tbl _)
    intro script_table
    apply LogSound_bind font _ _ _ _ (LogSound_INT16 font tbl _)
    intro langsys_table
    dsimp only
    by_cases h0 : langsys_table ≠ 0
    · rw [if_pos h0, if_pos h0]
      apply LogSound_bind font _ _ _ _ (LogSound_INT16 font tbl _)
      intro feature_count
      apply LogSound_bind font _ _ _ _ (LogSound_feature_list font tbl _ _ _ _)
      intro feature_list
      apply LogSound_bind font _ _ _ _ (LogSound_pure font _)
      intro langsys_list
      apply LogSound_bind font _ _ _ _ (LogSound_INT16 font tbl _)
      intro lang_count
      apply LogSound_bind font _ _ _ _ (LogSound_langsys_list font tbl _ _ _ _)
      intro langsys_list2
      exact ih _
    · rw [if_neg h0, if_neg h0]
      apply LogSound_bind font _ _ _ _ (LogSound_pure font _)
      intro langsys_list
      apply LogSound_bind font _ _ _ _ (LogSound_INT16 font tbl _)
      intro lang_count
      apply LogSound_bind font _ _ _ _ (LogSound_langsys_list font tbl _ _ _ _)
      intro langsys_list2
      exact ih _

theorem LogSound_features_walk (font : FontOracle) (tbl : Nat) :
    LogSound font (logged_features_walk font tbl) (otf_features_walk font tbl) := by
  unfold logged_features_walk otf_features_walk
  apply LogSound_bind font _ _ _ _ (LogSound_INT16 font tbl _)
  intro scriptlist_table
  apply LogSound_bind font _ _ _ _ (LogSound_INT16 font tbl _)
  intro feature_table
  apply LogSound_bind font _ _ _ _ (LogSound_INT16 font tbl _)
  intro n_scripts
  exact LogSound_script_list font tbl _ _ _ _

/-- The script loop keeps the entries it starts from: with no script record
left it returns its accumulator unchanged. -/
theorem otf_features_walk_nonnil (font : FontOracle) (tbl : Nat) (l : LispObject)
    (h : otf_features_walk font tbl = some l) (hl : l ≠ LispObject.nil) :
    ∃ scriptlist_table n_scripts, OTF_INT16_VAL font tbl 4 = some scriptlist_table ∧
      OTF_INT16_VAL font tbl scriptlist_table = some n_scripts ∧ 1 ≤ n_scripts := by
  unfold otf_features_walk at h
  cases h4 : OTF_INT16_VAL font tbl 4 with
  | none => simp [h4] at h
  | some slt =>
    cases h6 : OTF_INT16_VAL font tbl 6 with
    | none => simp [h4, h6] at h
    | some ft =>
      cases hn : OTF_INT16_VAL font tbl slt with
      | none => simp [h4, h6, hn] at h
      | some ns =>
        refine ⟨slt, ns, rfl, hn, ?_⟩
        by_contra hlt
        have h0 : ns = 0 := by omega
        subst h0
        simp [h4, h6, hn, otf_script_list] at h
        exact hl h.symm

/-- C16: `otf_features` is all-or-nothing.  With the walk's reads logged (each
entry a call of `GetFontData` for 2 or 4 bytes and whether it returned that
many), the logged walk computes what `otf_features` computes; if any read of
the walk failed, `otf_features` returns nil; and if it returns a non-nil list
then every read succeeded and the table has at least one script record. -/
theorem otf_features_all_or_nothing (font : FontOracle) (table : List Nat) (tbl : Nat)
    (htbl : OTF_TAG table = some tbl) :
    (logged_features_walk font tbl []).1 = otf_features_walk font tbl ∧
    (∀ r ∈ (logged_features_walk font tbl []).2,
      r.ok = read_returns font r.tbl r.offset r.n ∧ (r.n = 2 ∨ r.n = 4)) ∧
    ((∃ r ∈ (logged_features_walk font tbl []).2, r.ok = false) →
      otf_features font table = LispObject.nil) ∧
    (otf_features font table ≠ LispObject.nil →
      (∀ r ∈ (logged_features_walk font tbl []).2, r.ok = true) ∧
      ∃ scriptlist_table n_scripts, OTF_INT16_VAL font tbl 4 = some scriptlist_table ∧
        OTF_INT16_VAL font tbl scriptlist_table = some n_scripts ∧ 1 ≤ n_scripts) := by
  obtain ⟨new, hrun, hfaith, _, hsome⟩ := LogSound_features_walk font tbl []
  simp only [List.nil_append] at hrun
  have hfeat : otf_features font table
      = match otf_features_walk font tbl with
        | some script_list => script_list
        | none => LispObject.nil := by
    simp [otf_features, htbl]
  rw [hrun]
  refine ⟨rfl, hfaith, ?_, ?_⟩
  · rintro ⟨r, hr, hok⟩
    rw [hfeat]
    cases hw : otf_features_walk font tbl with
    | none => rfl
    | some l =>
      have := hsome (by simp [hw]) r hr
      rw [hok] at this
      exact Bool.noConfusion this
  · intro hne
    rw [hfeat] at hne
    cases hw : otf_features_walk font tbl with
    | none => rw [hw] at hne; exact absurd rfl hne
    | some l =>
      rw [hw] at hne
      exact ⟨hsome (by simp [hw]), otf_features_walk_nonnil font tbl l hw hne⟩

/-- Witness for C16: in the GSUB table `gsub_cyrl_broken` the record of `latn`
is walked first and yields an entry, then the script table of `cyrl` cannot be
read (the read of 2 bytes at offset 250 fails), and `otf_features` returns
nil. -/
theorem otf_features_all_or_nothing_witness :
    OTF_TAG str_GSUB = some 0x42555347 ∧
    (∃ r ∈ (logged_features_walk font_cyrl_broken 0x42555347 []).2, r.ok = false) ∧
    otf_features font_cyrl_broken str_GSUB = LispObject.nil :=
  ⟨by decide,
   ⟨{ tbl := 0x42555347, offset := 250, n := 2, ok := false }, by decide, rfl⟩,
   (otf_features_all_or_nothing font_cyrl_broken str_GSUB 0x42555347 (by decide)).2.2.1
    ⟨{ tbl := 0x42555347, offset := 250, n := 2, ok := false }, by decide, rfl⟩⟩

/-! ## uniscribe_check_otf: exits -/

theorem uniscribe_check_features_total (features : LispObject × LispObject)
    (ftags : Nat → Nat) (n : Nat)
    (h0 : tagged_elems features.1) (h1 : tagged_elems features.2) :
    ∃ b, uniscribe_check_features features ftags n = some b := by
  obtain ⟨b0, hb0, _⟩ := check_features_list_positive ftags n features.1 h0
  obtain ⟨b1, hb1, _⟩ := check_features_list_positive ftags n features.2 h1
  cases b0 with
  | false => exact ⟨false, by simp [uniscribe_check_features, hb0]⟩
  | true => exact ⟨b1, by simp [uniscribe_check_features, hb0, hb1]⟩

theorem tagged_elems_nil : tagged_elems LispObject.nil := by
  intro e he
  simp [lisp_elems] at he

theorem except_bind_defined {α β : Type} (x : Except ScanExit α) (f : α → Except ScanExit β)
    (hx : x ≠ Except.error ScanExit.undefined)
    (hf : ∀ a, f a ≠ Except.error ScanExit.undefined) :
    (x >>= f) ≠ Except.error ScanExit.undefined := by
  cases x with
  | error e =>
    intro h
    apply hx
    simpa [bind, Except.bind] using h
  | ok a => exact hf a

theorem read_or_error_defined {α : Type} (r : Option α) :
    read_or_error r ≠ Except.error ScanExit.undefined := by
  cases r <;> simp [read_or_error]

theorem find_script_table_defined (font : FontOracle)
    (tbl scriptlist_table script_tag n_scripts : Nat) :
    ∀ fuel j, find_script_table font tbl scriptlist_table script_tag n_scripts fuel j
      ≠ Except.error ScanExit.undefined := by
  intro fuel
  induction fuel with
  | zero => intro j; simp [find_script_table]
  | succ fuel ih =>
    intro j
    unfold find_script_table
    split_ifs with h
    · apply except_bind_defined _ _ (read_or_error_defined _)
      intro script_id
      split_ifs
      · exact read_or_error_defined _
      · exact ih _
    · simp

theorem find_langsys_table_defined (font : FontOracle)
    (tbl script_table lang_tag n_langs langsys_table : Nat) :
    ∀ fuel j, find_langsys_table font tbl script_table lang_tag n_langs langsys_table fuel j
      ≠ Except.error ScanExit.undefined := by
  intro fuel
  induction fuel with
  | zero => intro j; simp [find_langsys_table]
  | succ fuel ih =>
    intro j
    unfold find_langsys_table
    split_ifs with h
    · apply except_bind_defined _ _ (read_or_error_defined _)
      intro lang_id
      split_ifs
      · exact read_or_error_defined _
      · exact ih _
    · simp

theorem read_feature_tags_defined (font : FontOracle)
    (tbl feature_table langsys_table n_features : Nat) :
    ∀ fuel j ftags, read_feature_tags font tbl feature_table langsys_table n_features fuel j ftags
      ≠ Except.error ScanExit.undefined := by
  intro fuel
  induction fuel with
  | zero => intro j ftags; simp [read_feature_tags]
  | succ fuel ih =>
    intro j ftags
    unfold read_feature_tags
    split_ifs with h
    · apply except_bind_defined _ _ (read_or_error_defined _)
      intro feature_index
      apply except_bind_defined _ _ (read_or_error_defined _)
      intro feature_id
      exact ih _ _
    · simp

theorem check_features_exit_defined (features_i : LispObject) (ftags : Nat → Nat) (n : Nat)
    (h : tagged_elems features_i) :
    (match uniscribe_check_features (features_i, LispObject.nil) ftags n with
      | none => Except.error ScanExit.undefined
      | some false => Except.error ScanExit.no_support
      | some true => (Except.ok () : Except ScanExit Unit))
      ≠ Except.error ScanExit.undefined := by
  obtain ⟨b, hb⟩ := uniscribe_check_features_total (features_i, LispObject.nil) ftags n
    h tagged_elems_nil
  rw [hb]
  cases b <;> simp

/-- One table iteration of the scan never hits an undefined `SNAME` when the
elements of the feature list are symbols. -/
theorem check_otf_table_defined (font : FontOracle) (script_tag : Nat) (lang : LispObject)
    (lang_tag tbl : Nat) (features_i : LispObject) (h : tagged_elems features_i) :
    check_otf_table font script_tag lang lang_tag tbl features_i
      ≠ Except.error ScanExit.undefined := by
  unfold check_otf_table
  repeat' first
    | exact read_or_error_defined _
    | exact find_script_table_defined _ _ _ _ _ _ _
    | exact find_langsys_table_defined _ _ _ _ _ _ _ _
    | exact read_feature_tags_defined _ _ _ _ _ _ _ _
    | exact check_features_exit_defined _ _ _ h
    | exact (fun hne => Except.noConfusion hne)
    | exact (fun hne => ScanExit.noConfusion (Except.error.inj hne))
    | refine except_bind_defined _ _ ?_ (fun _ => ?_)
    | split_ifs
    | dsimp only

/-- The table scan leaves 0 or 1 in `retval` whenever `SNAME` is only applied
to symbols. -/
theorem check_otf_scan_total (font : FontOracle) (script lang : LispObject)
    (features : LispObject × LispObject)
    (hs : NILP script = true ∨ (OTF_TAG_SNAME script).isSome = true)
    (hl : NILP lang = true ∨ (OTF_TAG_SNAME lang).isSome = true)
    (h0 : tagged_elems features.1) (h1 : tagged_elems features.2) :
    ∃ retval, check_otf_scan font script lang features = some retval ∧
      (retval = 0 ∨ retval = 1) := by
  have hgsub : OTF_TAG str_GSUB = some 0x42555347 := by decide
  have hgpos : OTF_TAG str_GPOS = some 0x534f5047 := by decide
  have hdflt : OTF_TAG str_DFLT = some 0x544c4644 := by decide
  obtain ⟨script_tag, hst⟩ : ∃ t,
      (if NILP script = true then some 0x544c4644 else OTF_TAG_SNAME script) = some t := by
    rcases hs with h | h
    · exact ⟨_, by rw [if_pos h]⟩
    · by_cases hn : NILP script = true
      · exact ⟨_, by rw [if_pos hn]⟩
      · obtain ⟨t, ht⟩ := Option.isSome_iff_exists.mp h
        exact ⟨t, by rw [if_neg hn, ht]⟩
  obtain ⟨lang_tag, hlt⟩ : ∃ t,
      (if (! NILP lang) = true then OTF_TAG_SNAME lang else some 0) = some t := by
    by_cases hn : NILP lang = true
    · exact ⟨0, by simp [hn]⟩
    · rcases hl with h | h
      · exact absurd h hn
      · obtain ⟨t, ht⟩ := Option.isSome_iff_exists.mp h
        exact ⟨t, by simp [hn, ht]⟩
  unfold check_otf_scan
  simp only [hgsub, hgpos, hdflt, Option.bind_eq_bind, Option.some_bind, hst, hlt]
  have hd1 := check_otf_table_defined font script_tag lang lang_tag 0x42555347 features.1 h0
  have hd2 := check_otf_table_defined font script_tag lang lang_tag 0x534f5047 features.2 h1
  cases hr1 : check_otf_table font script_tag lang lang_tag 0x42555347 features.1 with
  | error e =>
    cases e with
    | undefined => exact absurd hr1 hd1
    | no_support => exact ⟨0, by simp [bind, Except.bind], Or.inl rfl⟩
    | font_table_error => exact ⟨0, by simp [bind, Except.bind], Or.inl rfl⟩
  | ok u =>
    cases hr2 : check_otf_table font script_tag lang lang_tag 0x534f5047 features.2 with
    | error e =>
      cases e with
      | undefined => exact absurd hr2 hd2
      | no_support => exact ⟨0, by simp [bind, Except.bind, hr2], Or.inl rfl⟩
      | font_table_error => exact ⟨0, by simp [bind, Except.bind, hr2], Or.inl rfl⟩
    | ok u2 => exact ⟨1, by simp [bind, Except.bind, hr2], Or.inr rfl⟩

/-- The Vista check returns with `(ret, *retval)` one of `(-1, 0)`, `(0, 0)`
and `(1, 1)` whenever `SNAME` is only applied to symbols. -/
theorem uniscribe_check_otf_1_total (font : FontOracle) (script lang : LispObject)
    (features : LispObject × LispObject)
    (hs : NILP script = true ∨ (OTF_TAG_SNAME script).isSome = true)
    (hl : NILP lang = true ∨ (OTF_TAG_SNAME lang).isSome = true)
    (h0 : tagged_elems features.1) (h1 : tagged_elems features.2) :
    ∃ r, uniscribe_check_otf_1 font script lang features = some r ∧
      (r = (-1, 0) ∨ r = (0, 0) ∨ r = (1, 1)) := by
  have hDFLT : OTF_TAG str_DFLT = some 0x544c4644 := by decide
  have hdflt : OTF_TAG str_dflt = some 0x746c6664 := by decide
  obtain ⟨script_tag, hst⟩ : ∃ t,
      (if NILP script = true then OTF_TAG str_DFLT else OTF_TAG_SNAME script) = some t := by
    rcases hs with h | h
    · exact ⟨_, by rw [if_pos h, hDFLT]⟩
    · by_cases hn : NILP script = true
      · exact ⟨_, by rw [if_pos hn, hDFLT]⟩
      · obtain ⟨t, ht⟩ := Option.isSome_iff_exists.mp h
        exact ⟨t, by rw [if_neg hn, ht]⟩
  have hfeat : ∀ script_tag lang_tag : Nat, ∃ r,
      (if (! NILP features.1) = true then
        if (! CONSP features.1 || (! NILP features.2 && ! CONSP features.2)) = true
        then some ((0 : Int), (0 : Int))
        else
          if FAILED (font.ScriptGetFontFeatureTags script_tag lang_tag).rslt = true
          then some (-1, 0)
          else
            (uniscribe_check_features features
              (font.ScriptGetFontFeatureTags script_tag lang_tag).tags
              (font.ScriptGetFontFeatureTags script_tag lang_tag).ntags).map fun ok =>
                if ok = true then ((1 : Int), (1 : Int)) else (0, 0)
      else some (1, 1)) = some r ∧ (r = (-1, 0) ∨ r = (0, 0) ∨ r = (1, 1)) := by
    intro st lt
    obtain ⟨b, hb⟩ := uniscribe_check_features_total features
      (font.ScriptGetFontFeatureTags st lt).tags (font.ScriptGetFontFeatureTags st lt).ntags h0 h1
    rw [hb]
    split_ifs
    · exact ⟨_, rfl, Or.inr (Or.inl rfl)⟩
    · exact ⟨_, rfl, Or.inl rfl⟩
    · cases b
      · exact ⟨_, rfl, Or.inr (Or.inl rfl)⟩
      · exact ⟨_, rfl, Or.inr (Or.inr rfl)⟩
    · exact ⟨_, rfl, Or.inr (Or.inr rfl)⟩
  unfold uniscribe_check_otf_1
  dsimp only
  by_cases hfail : FAILED font.ScriptGetFontScriptTags.rslt = true
  · rw [if_pos hfail]
    exact ⟨_, rfl, Or.inl rfl⟩
  · rw [if_neg hfail, hst]
    simp only [Option.some_bind]
    by_cases hidx : font.ScriptGetFontScriptTags.ntags
        ≤ tag_index font.ScriptGetFontScriptTags.tags font.ScriptGetFontScriptTags.ntags script_tag
    · rw [if_pos hidx]
      exact ⟨_, rfl, Or.inr (Or.inl rfl)⟩
    · rw [if_neg hidx]
      by_cases hn : NILP lang = true
      · rw [if_pos hn, hdflt]
        simp only [Option.map_some', Option.some_bind]
        exact hfeat script_tag _
      · rw [if_neg hn]
        by_cases hlf : FAILED (font.ScriptGetFontLanguageTags script_tag).rslt = true
        · rw [if_pos hlf]
          simp only [Option.some_bind]
          exact ⟨_, rfl, Or.inl rfl⟩
        · rw [if_neg hlf]
          by_cases hnt : (font.ScriptGetFontLanguageTags script_tag).ntags = 0
          · rw [if_pos hnt, hdflt]
            simp only [Option.map_some', Option.some_bind]
            exact hfeat script_tag _
          · rw [if_neg hnt]
            rcases hl with h | h
            · exact absurd h hn
            · obtain ⟨t, ht⟩ := Option.isSome_iff_exists.mp h
              rw [ht]
              simp only [Option.map_some', Option.some_bind]
              by_cases hli : (font.ScriptGetFontLanguageTags script_tag).ntags
                  ≤ tag_index (font.ScriptGetFontLanguageTags script_tag).tags
                      (font.ScriptGetFontLanguageTags script_tag).ntags t
              · rw [if_pos hli]
                exact ⟨_, rfl, Or.inr (Or.inl rfl)⟩
              · rw [if_neg hli]
                exact hfeat script_tag t

/-- C12: for an OTF_SPEC that passes the format check and whose components
are symbols, `uniscribe_check_otf` returns 0 or 1, and whichever exit it takes
(the verdict of the Vista check, or the table scan ending in `no_support`,
`font_table_error` or success) its events are one `get_frame_dc`, the font
creation and selection, then re-selection of the old font, deletion of the
created font and one `release_frame_dc`. -/
theorem uniscribe_check_otf_releases (flags : ApiFlags) (font : FontOracle)
    (otf_spec : LispObject) (len : Nat)
    (hc : CONSP otf_spec = true) (hlen : Flength otf_spec = some len) (h3 : 3 ≤ len)
    (hsym : otf_spec_symbols otf_spec) :
    ∃ retval, uniscribe_check_otf flags font otf_spec = some (retval, check_otf_events) ∧
      (retval = 0 ∨ retval = 1) ∧
      check_otf_events.count Event.get_frame_dc = 1 ∧
      check_otf_events.count Event.release_frame_dc = 1 := by
  obtain ⟨hs, hl, h0, h1⟩ := hsym
  obtain ⟨rv, hrv, hrv01⟩ := check_otf_scan_total font _ _
    ((otf_spec_components otf_spec).2.2.1, (otf_spec_components otf_spec).2.2.2) hs hl h0 h1
  obtain ⟨r, hr, hr3⟩ := uniscribe_check_otf_1_total font _ _
    ((otf_spec_components otf_spec).2.2.1, (otf_spec_components otf_spec).2.2.2) hs hl h0 h1
  have hnlt : ¬ len < 3 := by omega
  unfold uniscribe_check_otf
  simp only [hc, Bool.not_true, Bool.false_eq_true, if_false, hlen, Option.some_bind, hnlt, hrv,
    hr, Option.map_some']
  split_ifs with hflag hret
  · refine ⟨r.2, rfl, ?_, by decide, by decide⟩
    rcases hr3 with h | h | h <;> rw [h] <;> simp
  · exact ⟨rv, rfl, hrv01, by decide, by decide⟩
  · exact ⟨rv, rfl, hrv01, by decide, by decide⟩

theorem lisp_elems_lisp_list (l : List LispObject) : lisp_elems (lisp_list l) = l := by
  induction l with
  | nil => rfl
  | cons a l ih => simp [lisp_list, lisp_elems, ih]

theorem tagged_elems_lisp_list (l : List LispObject)
    (h : ∀ e ∈ l, NILP e = false → (OTF_TAG_SNAME e).isSome = true) :
    tagged_elems (lisp_list l) := by
  intro e he
  rw [lisp_elems_lisp_list] at he
  exact h e he

/-- Witness for C12: on the font with only a GSUB table listing `latn` and
`liga`, the table scan succeeds for `(latn nil (liga))`, ends in `no_support`
for `(cyrl nil (liga))` and in `font_table_error` for `(latn nil nil (kern))`,
and the Vista check gives the verdict for `(cyrl nil nil)`; the events are
the same six every time. -/
theorem uniscribe_check_otf_releases_witness :
    uniscribe_check_otf flags_legacy font_latn_liga
        (lisp_list [sym_latn, LispObject.nil, lisp_list [sym_liga]])
      = some (1, check_otf_events) ∧
    uniscribe_check_otf flags_legacy font_latn_liga
        (lisp_list [sym_cyrl, LispObject.nil, lisp_list [sym_liga]])
      = some (0, check_otf_events) ∧
    uniscribe_check_otf flags_legacy font_latn_liga
        (lisp_list [sym_latn, LispObject.nil, LispObject.nil, lisp_list [sym_kern]])
      = some (0, check_otf_events) ∧
    uniscribe_check_otf flags_new font_latn_liga
        (lisp_list [sym_cyrl, LispObject.nil, LispObject.nil])
      = some (0, check_otf_events) ∧
    ∃ retval, uniscribe_check_otf flags_legacy font_latn_liga
        (lisp_list [sym_latn, LispObject.nil, lisp_list [sym_liga]])
        = some (retval, check_otf_events) ∧
      (retval = 0 ∨ retval = 1) ∧
      check_otf_events.count Event.get_frame_dc = 1 ∧
      check_otf_events.count Event.release_frame_dc = 1 :=
  ⟨by decide, by decide, by decide, by decide,
   uniscribe_check_otf_releases flags_legacy font_latn_liga
    (lisp_list [sym_latn, LispObject.nil, lisp_list [sym_liga]]) 3 (by decide) (by decide)
    (by decide)
    ⟨Or.inr (by decide), Or.inl (by decide),
     tagged_elems_lisp_list [sym_liga] (by decide), tagged_elems_nil⟩⟩

/-! ## Device-context discipline of the shaping functions -/

theorem for_loop_invariant {σ : Type} (P : σ → Prop) (body : Nat → σ → σ)
    (h : ∀ i s, P s → P (body i s)) :
    ∀ fuel i s, P s → P (for_loop body fuel i s) := by
  intro fuel
  induction fuel with
  | zero => intro i s hs; exact hs
  | succ fuel ih => intro i s hs; exact ih (i + 1) (body i s) (h i s hs)

theorem for_loop_succ {σ : Type} (body : Nat → σ → σ) :
    ∀ (k i : Nat) (s : σ), for_loop body (k + 1) i s = body (i + k) (for_loop body k i s) := by
  intro k
  induction k with
  | zero => intro i s; rfl
  | succ k ih =>
    intro i s
    have h1 : for_loop body (k + 1 + 1) i s = for_loop body (k + 1) (i + 1) (body i s) := rfl
    have h2 : for_loop body (k + 1) i s = for_loop body k (i + 1) (body i s) := rfl
    rw [h1, ih (i + 1) (body i s), h2]
    have : i + 1 + k = i + (k + 1) := by omega
    rw [this]

theorem advance_from_bounds (clusters : Nat → Nat) (n : Int) (j : Nat) :
    ∀ (fuel : Nat) (from_ : Int),
      from_ ≤ advance_from clusters n j fuel from_ ∧
      (from_ ≤ n → advance_from clusters n j fuel from_ ≤ n) := by
  intro fuel
  induction fuel with
  | zero => intro f; exact ⟨le_refl _, fun h => h⟩
  | succ fuel ih =>
    intro f
    unfold advance_from
    split_ifs with h
    · obtain ⟨h1, h2⟩ := ih (f + 1)
      exact ⟨by omega, fun _ => h2 (by omega)⟩
    · exact ⟨le_refl _, fun h => h⟩

theorem find_to_bounds (clusters : Nat → Nat) (n : Int) (j : Nat) :
    ∀ (fuel : Nat) (k : Int), k ≤ n →
      k - 1 ≤ find_to clusters n j fuel k ∧ find_to clusters n j fuel k ≤ n - 1 := by
  intro fuel
  induction fuel with
  | zero => intro k hk; simp only [find_to]; omega
  | succ fuel ih =>
    intro k hk
    unfold find_to
    split_ifs with h1 h2
    · omega
    · obtain ⟨h3, h4⟩ := ih (k + 1) (by omega)
      omega
    · omega

/-- The cluster block keeps `0 <= from <= to <= nchars_in_run - 1`, never
moves `from` back, and leaves `cluster_offset >= 0`. -/
theorem detect_cluster_bounds (sh : ShapeOut) (pl : PlaceOut) (n : Int) (j : Nat)
    (st : GlyphState) (hn : 1 ≤ n) (h : ClusterInv n st) :
    0 ≤ (detect_cluster sh pl n j st).1 ∧
    (detect_cluster sh pl n j st).1 ≤ (detect_cluster sh pl n j st).2.1 ∧
    (detect_cluster sh pl n j st).2.1 ≤ n - 1 ∧
    0 ≤ (detect_cluster sh pl n j st).2.2.1 ∧
    st.from_ ≤ (detect_cluster sh pl n j st).1 := by
  obtain ⟨h0, h1, h2, h3⟩ := h
  unfold detect_cluster
  by_cases hcs : sh.fClusterStart j = true
  · rw [if_pos hcs]
    dsimp only
    obtain ⟨ha1, ha2⟩ := advance_from_bounds sh.clusters n j (n - st.from_).toNat st.from_
    by_cases hge : advance_from sh.clusters n j (n - st.from_).toNat st.from_ ≥ n
    · rw [if_pos hge]
      dsimp only
      omega
    · rw [if_neg hge]
      dsimp only
      obtain ⟨hf1, hf2⟩ := find_to_bounds sh.clusters n j
        (n - advance_from sh.clusters n j (n - st.from_).toNat st.from_).toNat
        (advance_from sh.clusters n j (n - st.from_).toNat st.from_ + 1) (by omega)
      omega
  · rw [if_neg hcs]
    dsimp only
    omega

theorem glyph_char_idx_bounds (iCharPos from_ to_ cluster_offset : Int)
    (h1 : from_ ≤ to_) (h2 : 0 ≤ cluster_offset) :
    iCharPos + from_ ≤ glyph_char_idx iCharPos from_ to_ cluster_offset ∧
    glyph_char_idx iCharPos from_ to_ cluster_offset ≤ iCharPos + to_ := by
  unfold glyph_char_idx
  split_ifs with h <;> omega

theorem shape_glyph_cluster_inv (o : ShapeOracle) (font_ascent font_descent : Int)
    (chars : Nat → Nat) (i : Nat) (iCharPos n : Int) (sh : ShapeOut) (pl : PlaceOut)
    (done_glyphs : Nat) (hn : 1 ≤ n) (j : Nat) (st : GlyphState) (h : ClusterInv n st) :
    ClusterInv n (shape_glyph o font_ascent font_descent chars i iCharPos n sh pl done_glyphs j st) := by
  obtain ⟨b0, b1, b2, b3, _⟩ := detect_cluster_bounds sh pl n j st hn h
  refine ⟨b0, b1, b2, ?_⟩
  show 0 ≤ (detect_cluster sh pl n j st).2.2.1 + 1
  omega

theorem glyph_loop_state_inv (o : ShapeOracle) (font_ascent font_descent : Int)
    (chars : Nat → Nat) (i : Nat) (iCharPos n : Int) (sh : ShapeOut) (pl : PlaceOut)
    (done_glyphs : Nat) (dc : DcState) (lgstring : List (Option LGlyph)) (hn : 1 ≤ n) (j : Nat) :
    ClusterInv n (glyph_loop_state o font_ascent font_descent chars i iCharPos n sh pl
      done_glyphs dc lgstring j) := by
  unfold glyph_loop_state
  apply for_loop_invariant (ClusterInv n) _
    (fun j st h => shape_glyph_cluster_inv o _ _ _ _ _ _ _ _ _ hn j st h)
  exact ⟨le_refl _, le_refl _, by show (0 : Int) ≤ n - 1; omega, le_refl _⟩

theorem glyph_loop_state_succ (o : ShapeOracle) (font_ascent font_descent : Int)
    (chars : Nat → Nat) (i : Nat) (iCharPos n : Int) (sh : ShapeOut) (pl : PlaceOut)
    (done_glyphs : Nat) (dc : DcState) (lgstring : List (Option LGlyph)) (j : Nat) :
    glyph_loop_state o font_ascent font_descent chars i iCharPos n sh pl done_glyphs dc lgstring
        (j + 1)
      = shape_glyph o font_ascent font_descent chars i iCharPos n sh pl done_glyphs j
          (glyph_loop_state o font_ascent font_descent chars i iCharPos n sh pl done_glyphs dc
            lgstring j) := by
  unfold glyph_loop_state
  rw [for_loop_succ]
  simp

theorem glyph_loop_state_length (o : ShapeOracle) (font_ascent font_descent : Int)
    (chars : Nat → Nat) (i : Nat) (iCharPos n : Int) (sh : ShapeOut) (pl : PlaceOut)
    (done_glyphs : Nat) (dc : DcState) (lgstring : List (Option LGlyph)) (j : Nat) :
    (glyph_loop_state o font_ascent font_descent chars i iCharPos n sh pl done_glyphs dc lgstring
      j).lgstring.length = lgstring.length := by
  unfold glyph_loop_state
  apply for_loop_invariant (fun st : GlyphState => st.lgstring.length = lgstring.length)
  · intro j st h
    show (LGSTRING_SET_GLYPH st.lgstring _ _).length = lgstring.length
    simp [LGSTRING_SET_GLYPH, h]
  · rfl

theorem LGSTRING_GLYPH_set_self (l : List (Option LGlyph)) (idx : Nat) (g : LGlyph)
    (h : idx < l.length) :
    LGSTRING_GLYPH (LGSTRING_SET_GLYPH l idx g) idx = some g := by
  unfold LGSTRING_GLYPH LGSTRING_SET_GLYPH
  induction l generalizing idx with
  | nil => simp at h
  | cons a l ih =>
    cases idx with
    | zero => simp
    | succ idx =>
      simp only [List.set_cons_succ, List.getD_cons_succ]
      exact ih idx (by simpa using h)

theorem glyph_loop_from_mono (o : ShapeOracle) (font_ascent font_descent : Int)
    (chars : Nat → Nat) (i : Nat) (iCharPos n : Int) (sh : ShapeOut) (pl : PlaceOut)
    (done_glyphs : Nat) (dc : DcState) (lgstring : List (Option LGlyph)) (hn : 1 ≤ n) :
    ∀ d j1,
      (glyph_loop_state o font_ascent font_descent chars i iCharPos n sh pl done_glyphs dc
        lgstring j1).from_
      ≤ (glyph_loop_state o font_ascent font_descent chars i iCharPos n sh pl done_glyphs dc
        lgstring (j1 + d)).from_ := by
  intro d
  induction d with
  | zero => intro j1; exact le_refl _
  | succ d ih =>
    intro j1
    have hstep := (detect_cluster_bounds sh pl n (j1 + d)
      (glyph_loop_state o font_ascent font_descent chars i iCharPos n sh pl done_glyphs dc
        lgstring (j1 + d)) hn
      (glyph_loop_state_inv o font_ascent font_descent chars i iCharPos n sh pl done_glyphs dc
        lgstring hn (j1 + d))).2.2.2.2
    have hs := glyph_loop_state_succ o font_ascent font_descent chars i iCharPos n sh pl
      done_glyphs dc lgstring (j1 + d)
    have e : j1 + (d + 1) = j1 + d + 1 := by omega
    rw [e, hs]
    exact le_trans (ih j1) hstep

/-- C14: in a run with `nchars_in_run >= 1`, for every glyph `j` and whatever
`clusters` and `attributes` hold, the values stored by `LGLYPH_SET_FROM` and
`LGLYPH_SET_TO` satisfy `iCharPos <= FROM <= TO <= iCharPos + nchars_in_run -
1`, the index of the character given to `LGLYPH_SET_CHAR` lies between them,
FROM does not decrease from an earlier glyph of the run to a later one, and
the glyph slot written (when inside the LGSTRING) holds these values. -/
theorem cluster_bookkeeping (o : ShapeOracle) (font_ascent font_descent : Int)
    (chars : Nat → Nat) (i : Nat) (iCharPos n : Int) (sh : ShapeOut) (pl : PlaceOut)
    (done_glyphs : Nat) (dc : DcState) (lgstring : List (Option LGlyph))
    (hn : 1 ≤ n) (j : Nat) :
    iCharPos ≤ iCharPos
        + glyph_from o font_ascent font_descent chars i iCharPos n sh pl done_glyphs dc lgstring j ∧
    glyph_from o font_ascent font_descent chars i iCharPos n sh pl done_glyphs dc lgstring j
      ≤ glyph_to o font_ascent font_descent chars i iCharPos n sh pl done_glyphs dc lgstring j ∧
    iCharPos + glyph_to o font_ascent font_descent chars i iCharPos n sh pl done_glyphs dc lgstring j
      ≤ iCharPos + n - 1 ∧
    iCharPos + glyph_from o font_ascent font_descent chars i iCharPos n sh pl done_glyphs dc lgstring j
      ≤ glyph_char_index o font_ascent font_descent chars i iCharPos n sh pl done_glyphs dc
          lgstring j ∧
    glyph_char_index o font_ascent font_descent chars i iCharPos n sh pl done_glyphs dc lgstring j
      ≤ iCharPos
        + glyph_to o font_ascent font_descent chars i iCharPos n sh pl done_glyphs dc lgstring j ∧
    (∀ j1, j1 ≤ j →
      glyph_from o font_ascent font_descent chars i iCharPos n sh pl done_glyphs dc lgstring j1
        ≤ glyph_from o font_ascent font_descent chars i iCharPos n sh pl done_glyphs dc
            lgstring j) ∧
    (j + done_glyphs < lgstring.length →
      ∃ g, LGSTRING_GLYPH
          (glyph_loop_state o font_ascent font_descent chars i iCharPos n sh pl done_glyphs dc
            lgstring (j + 1)).lgstring (j + done_glyphs) = some g ∧
        g.FROM = some (iCharPos
          + glyph_from o font_ascent font_descent chars i iCharPos n sh pl done_glyphs dc
              lgstring j) ∧
        g.TO = some (iCharPos
          + glyph_to o font_ascent font_descent chars i iCharPos n sh pl done_glyphs dc
              lgstring j) ∧
        g.CHAR = some (chars
          (glyph_char_index o font_ascent font_descent chars i iCharPos n sh pl done_glyphs dc
            lgstring j).toNat)) := by
  have hinv := glyph_loop_state_inv o font_ascent font_descent chars i iCharPos n sh pl
    done_glyphs dc lgstring hn j
  obtain ⟨b0, b1, b2, b3, _⟩ := detect_cluster_bounds sh pl n j _ hn hinv
  obtain ⟨c1, c2⟩ := glyph_char_idx_bounds iCharPos _ _ _ b1 b3
  have hfrom : ∀ j2,
      (glyph_loop_state o font_ascent font_descent chars i iCharPos n sh pl done_glyphs dc
        lgstring (j2 + 1)).from_
      = glyph_from o font_ascent font_descent chars i iCharPos n sh pl done_glyphs dc lgstring
          j2 := by
    intro j2
    rw [glyph_loop_state_succ]
    rfl
  refine ⟨?_, b1, ?_, c1, c2, ?_, ?_⟩
  · unfold glyph_from
    omega
  · unfold glyph_to
    omega
  · intro j1 hj1
    obtain ⟨d, rfl⟩ : ∃ d, j = j1 + d := ⟨j - j1, by omega⟩
    rw [← hfrom j1, ← hfrom (j1 + d)]
    have := glyph_loop_from_mono o font_ascent font_descent chars i iCharPos n sh pl done_glyphs
      dc lgstring hn d (j1 + 1)
    rw [show j1 + 1 + d = j1 + d + 1 by omega] at this
    exact this
  · intro hlt
    have hlen := glyph_loop_state_length o font_ascent font_descent chars i iCharPos n sh pl
      done_glyphs dc lgstring j
    rw [glyph_loop_state_succ]
    refine ⟨_, LGSTRING_GLYPH_set_self _ _ _ (by rw [hlen]; exact hlt), rfl, rfl, rfl⟩

/-- Witness for C14: glyph 2 of a three-glyph run over two characters, with
the run starting at character 0. -/
theorem cluster_bookkeeping_witness :
    glyph_from shape_oracle_pending 10 3 (lgstring_chars lgstring_two_chars) 0 0 2
        shape_out_clusters place_out_rtl 0
        { context := false, dc_calls := 0, events := [] } lgstring_two_chars 2 = 1 ∧
    ((0 : Int) ≤ 0
        + glyph_from shape_oracle_pending 10 3 (lgstring_chars lgstring_two_chars) 0 0 2
            shape_out_clusters place_out_rtl 0
            { context := false, dc_calls := 0, events := [] } lgstring_two_chars 2 ∧
      glyph_from shape_oracle_pending 10 3 (lgstring_chars lgstring_two_chars) 0 0 2
          shape_out_clusters place_out_rtl 0
          { context := false, dc_calls := 0, events := [] } lgstring_two_chars 2
        ≤ glyph_to shape_oracle_pending 10 3 (lgstring_chars lgstring_two_chars) 0 0 2
            shape_out_clusters place_out_rtl 0
            { context := false, dc_calls := 0, events := [] } lgstring_two_chars 2) :=
  ⟨by decide,
   (cluster_bookkeeping shape_oracle_pending 10 3 (lgstring_chars lgstring_two_chars) 0 0 2
      shape_out_clusters place_out_rtl 0
      { context := false, dc_calls := 0, events := [] } lgstring_two_chars (by decide) 2).1,
   (cluster_bookkeeping shape_oracle_pending 10 3 (lgstring_chars lgstring_two_chars) 0 0 2
      shape_out_clusters place_out_rtl 0
      { context := false, dc_calls := 0, events := [] } lgstring_two_chars (by decide) 2).2.1⟩

/-! ## Right-to-left adjustment of the glyph loop -/

/-- Started at a glyph that starts a cluster, the loop that sums the advances
of the non-base glyphs stops at once and leaves the initial adjustment 0. -/
theorem rtl_adj_offset_cluster_start (fClusterStart : Nat → Bool) (advances : Nat → Int)
    (nglyphs fuel j : Nat) (h : fClusterStart j = true) :
    rtl_adj_offset fClusterStart advances nglyphs fuel j 0 = 0 := by
  cases fuel with
  | zero => rfl
  | succ fuel =>
    unfold rtl_adj_offset
    rw [if_neg]
    rw [h]
    simp

/-- C15 (amended): in a run with `fRTL` set, a glyph that is not a cluster
start always gets an adjustment; a glyph that gets one gets
`[-offsets[j].du + a, -offsets[j].dv, advances[j]]` and leaves the running
adjustment at `a - 2 * advances[j]`; a glyph that gets none has a nil
adjustment and leaves it at `a - advances[j]`.  Here `a` is the running
adjustment after the cluster block of the iteration: the one left by the
previous glyph when the glyph is not a cluster start, and the initial value
computed for its cluster when it is. -/
theorem rtl_adjustment (o : ShapeOracle) (font_ascent font_descent : Int)
    (chars : Nat → Nat) (i : Nat) (iCharPos n : Int) (sh : ShapeOut) (pl : PlaceOut)
    (done_glyphs : Nat) (j : Nat) (st : GlyphState) (hrtl : pl.fRTL = true) :
    (sh.fClusterStart j = false → glyph_adjusted sh pl j = true) ∧
    (sh.fClusterStart j = false → glyph_running_adjustment sh pl n j st = st.adj_offset) ∧
    (sh.fClusterStart j = true →
      glyph_running_adjustment sh pl n j st
        = rtl_adj_offset sh.fClusterStart pl.advances sh.nglyphs (sh.nglyphs - j) j 0) ∧
    (glyph_adjusted sh pl j = true →
      (shape_glyph o font_ascent font_descent chars i iCharPos n sh pl done_glyphs j st).adj_offset
        = glyph_running_adjustment sh pl n j st - 2 * pl.advances j ∧
      (j + done_glyphs < st.lgstring.length →
        ∃ g, LGSTRING_GLYPH
            (shape_glyph o font_ascent font_descent chars i iCharPos n sh pl done_glyphs j
              st).lgstring (j + done_glyphs) = some g ∧
          g.ADJUSTMENT = some (- pl.du j + glyph_running_adjustment sh pl n j st, - pl.dv j,
            pl.advances j))) ∧
    (glyph_adjusted sh pl j = false →
      (shape_glyph o font_ascent font_descent chars i iCharPos n sh pl done_glyphs j st).adj_offset
        = glyph_running_adjustment sh pl n j st - pl.advances j ∧
      (j + done_glyphs < st.lgstring.length →
        ∃ g, LGSTRING_GLYPH
            (shape_glyph o font_ascent font_descent chars i iCharPos n sh pl done_glyphs j
              st).lgstring (j + done_glyphs) = some g ∧
          g.ADJUSTMENT = none)) := by
  refine ⟨?_, ?_, ?_, ?_, ?_⟩
  · intro h
    simp [glyph_adjusted, h, hrtl]
  · intro h
    simp [glyph_running_adjustment, detect_cluster, h]
  · intro h
    simp [glyph_running_adjustment, detect_cluster, h, hrtl]
  · intro hadj
    refine ⟨?_, fun hlt => ⟨_, LGSTRING_GLYPH_set_self _ _ _ hlt, ?_⟩⟩
    · show (if glyph_adjusted sh pl j = true then
          (if pl.fRTL = true then _ - 2 * pl.advances j else _)
          else (if pl.fRTL = true then _ - pl.advances j else _)) = _
      rw [if_pos hadj, if_pos hrtl]
      rfl
    · show (if glyph_adjusted sh pl j = true then
          some ((if pl.fRTL = true then - pl.du j + _ else pl.du j + _), - pl.dv j,
            pl.advances j) else none) = _
      rw [if_pos hadj, if_pos hrtl]
      rfl
  · intro hadj
    refine ⟨?_, fun hlt => ⟨_, LGSTRING_GLYPH_set_self _ _ _ hlt, ?_⟩⟩
    · show (if glyph_adjusted sh pl j = true then
          (if pl.fRTL = true then _ - 2 * pl.advances j else _)
          else (if pl.fRTL = true then _ - pl.advances j else _)) = _
      rw [if_neg (by simp [hadj]), if_pos hrtl]
      rfl
    · show (if glyph_adjusted sh pl j = true then
          some ((if pl.fRTL = true then - pl.du j + _ else pl.du j + _), - pl.dv j,
            pl.advances j) else none) = _
      rw [if_neg (by simp [hadj])]

/-- Witness for C15: glyph 1 of a right-to-left run follows the base glyph 0
(advance 8, no adjustment) inside its cluster, finds the running adjustment
-8, gets the adjustment `[-3 + -8, 0, 8]` and leaves -24. -/
theorem rtl_adjustment_witness :
    glyph_running_adjustment shape_out_clusters place_out_rtl 2 1
        (glyph_loop_state shape_oracle_pending 10 3 (lgstring_chars lgstring_two_chars) 0 0 2
          shape_out_clusters place_out_rtl 0
          { context := false, dc_calls := 0, events := [] } lgstring_two_chars 1) = -8 ∧
    glyph_adjusted shape_out_clusters place_out_rtl 1 = true ∧
    (shape_glyph shape_oracle_pending 10 3 (lgstring_chars lgstring_two_chars) 0 0 2
        shape_out_clusters place_out_rtl 0 1
        (glyph_loop_state shape_oracle_pending 10 3 (lgstring_chars lgstring_two_chars) 0 0 2
          shape_out_clusters place_out_rtl 0
          { context := false, dc_calls := 0, events := [] } lgstring_two_chars 1)).adj_offset
      = glyph_running_adjustment shape_out_clusters place_out_rtl 2 1
          (glyph_loop_state shape_oracle_pending 10 3 (lgstring_chars lgstring_two_chars) 0 0 2
            shape_out_clusters place_out_rtl 0
            { context := false, dc_calls := 0, events := [] } lgstring_two_chars 1)
        - 2 * place_out_rtl.advances 1 :=
  ⟨by decide,
   (rtl_adjustment shape_oracle_pending 10 3 (lgstring_chars lgstring_two_chars) 0 0 2
      shape_out_clusters place_out_rtl 0 1
      (glyph_loop_state shape_oracle_pending 10 3 (lgstring_chars lgstring_two_chars) 0 0 2
        shape_out_clusters place_out_rtl 0
        { context := false, dc_calls := 0, events := [] } lgstring_two_chars 1)
      rfl).1 (by decide),
   ((rtl_adjustment shape_oracle_pending 10 3 (lgstring_chars lgstring_two_chars) 0 0 2
      shape_out_clusters place_out_rtl 0 1
      (glyph_loop_state shape_oracle_pending 10 3 (lgstring_chars lgstring_two_chars) 0 0 2
        shape_out_clusters place_out_rtl 0
        { context := false, dc_calls := 0, events := [] } lgstring_two_chars 1)
      rfl).2.2.2.1 (by decide)).1⟩

/-- Counterexample for C15 as stated: in a right-to-left run, glyph 2 starts
a cluster and gets no adjustment; the running adjustment left by glyph 1 is
-24 and the one glyph 2 leaves is -8, not -24 minus its advance 8, because the
cluster block first re-initialises it. -/
theorem rtl_adjustment_counterexample :
    place_out_rtl.fRTL = true ∧
    glyph_adjusted shape_out_clusters place_out_rtl 2 = false ∧
    (glyph_loop_state shape_oracle_pending 10 3 (lgstring_chars lgstring_two_chars) 0 0 2
      shape_out_clusters place_out_rtl 0
      { context := false, dc_calls := 0, events := [] } lgstring_two_chars 2).adj_offset = -24 ∧
    (glyph_loop_state shape_oracle_pending 10 3 (lgstring_chars lgstring_two_chars) 0 0 2
      shape_out_clusters place_out_rtl 0
      { context := false, dc_calls := 0, events := [] } lgstring_two_chars 3).adj_offset = -8 ∧
    (glyph_loop_state shape_oracle_pending 10 3 (lgstring_chars lgstring_two_chars) 0 0 2
      shape_out_clusters place_out_rtl 0
      { context := false, dc_calls := 0, events := [] } lgstring_two_chars 3).adj_offset
      ≠ (glyph_loop_state shape_oracle_pending 10 3 (lgstring_chars lgstring_two_chars) 0 0 2
          shape_out_clusters place_out_rtl 0
          { context := false, dc_calls := 0, events := [] } lgstring_two_chars 2).adj_offset
        - place_out_rtl.advances 2 :=
  ⟨by decide, by decide, by decide, by decide, by decide⟩

/-! ## The item buffer of uniscribe_shape -/

/-- A record lies inside the buffer exactly when its index is below
`max_items`: the one extra byte holds no further record. -/
theorem item_in_buffer_iff (sizeof_item max_items k : Nat) (h : 2 ≤ sizeof_item) :
    item_in_buffer sizeof_item max_items k ↔ k < max_items := by
  unfold item_in_buffer items_buffer_size
  constructor
  · intro hle
    by_contra hk
    have hk2 : max_items ≤ k := by omega
    have := Nat.mul_le_mul_left sizeof_item hk2
    omega
  · intro hk
    have := Nat.mul_le_mul_left sizeof_item (show k + 1 ≤ max_items by omega)
    rw [Nat.mul_add, Nat.mul_one] at this
    omega

/-- C17 (defect in the allocation): for a text that `ScriptItemize` splits
into `nitems = 2` runs at the first call, where `max_items = 2`, the run loop
goes through both runs; its last iteration reads the terminating record
`items[2]` (the TO it stores follows `items[2].iCharPos`), and that record,
even its field `iCharPos` alone, does not lie inside the buffer of
`sizeof (SCRIPT_ITEM) * 2 + 1 = 17` bytes, while `items[0]` and `items[1]`
do. -/
theorem uniscribe_shape_items_buffer_overrun :
    (itemize_loop (shape_oracle_two_items 2) (lgstring_chars lgstring_two_scripts)
        (lgstring_nchars lgstring_two_scripts) 1 2).map (fun r => (r.1, r.2.nitems))
      = some (2, 2) ∧
    (uniscribe_shape (shape_oracle_two_items 2) 10 3 lgstring_two_scripts 1).map
        (fun r => (r.value, r.shaped.length, lgstring_TO r.lgstring))
      = some (LispObject.fixnum 2, 2, [some 0, some 1]) ∧
    (uniscribe_shape (shape_oracle_two_items 5) 10 3 lgstring_two_scripts 1).map
        (fun r => (r.value, r.shaped.length, lgstring_TO r.lgstring))
      = some (LispObject.fixnum 2, 2, [some 0, some 4]) ∧
    2 ∈ run_item_reads 1 ∧
    items_buffer_size sizeof_SCRIPT_ITEM 2 = 17 ∧
    ¬ item_in_buffer sizeof_SCRIPT_ITEM 2 2 ∧
    ¬ item_iCharPos_in_buffer sizeof_SCRIPT_ITEM 2 2 ∧
    item_in_buffer sizeof_SCRIPT_ITEM 2 0 ∧
    item_in_buffer sizeof_SCRIPT_ITEM 2 1 :=
  ⟨by decide, by decide, by decide, by decide, by decide,
    by unfold item_in_buffer; decide,
    by unfold item_iCharPos_in_buffer; decide,
    by unfold item_in_buffer; decide,
    by unfold item_in_buffer; decide⟩


end W32Uniscribe
